import Mathlib

/-!
Line broadening (`broad12.c`): a shallow embedding and its properties.

The C routine `broad` and its helpers `sp`, `pd`, `df`, `gammln` are embedded as
Lean functions over an arbitrary linearly ordered field `K`.  The C `float` and
`double` values are read as exact numbers and the arithmetic is exact, with one
exception, the `float` values that `sp`, `pd` and `df` compare: they store their
`double` coordinates in `float` locals, test these against the grid range and
scan the `float` axes with them.  The conversion to `float` is the function
`narrow`; it is applied to the coordinates and to the axis entries (it decides
the returned status and the selected cell within one unit in the last place of
a range bound or an axis value).  The range bounds `1.0`, `1.3`, `2.3`, `3.0`,
`3.3`, `4.0`, `5.0` are `double` constants read as the decimal numbers: no
`float` lies between such a decimal and the `double` nearest to it, so the
tests on a `float` coordinate are the same.  The entries of the tables `sig`
and `alp` are only values of the interpolation and stay the numbers written in
the source (those of `sig` are integers below `2 ^ 24`, which a `float` holds
exactly).
At `K = ℚ` the definitions evaluate; theorems that need `sqrt`, `log`, `exp` or
`pow` are stated at `K = ℝ` with the functions of `realFns`.

C arrays are functions `Nat → K`; a local variable that the C code may read
before assigning it is an `Option` (reading `none` is undefined behaviour and
makes the embedded function return `none`), except the locals `sig` and `alp`
of `broad`, whose address is taken: their indeterminate initial contents are
the explicit parameters `sigU` and `alpU`.
-/

namespace Broad

/-- The functions of `<math.h>` used by `broad12.c`. -/
structure MathFns (K : Type) where
  /-- C `sqrt`. -/
  sqrt : K → K
  /-- C `log`. -/
  log : K → K
  /-- C `exp`. -/
  exp : K → K
  /-- C `pow`. -/
  pow : K → K → K

/-- The real-number reading of `<math.h>`. -/
noncomputable def realFns : MathFns ℝ where
  sqrt := Real.sqrt
  log := Real.log
  exp := Real.exp
  pow := fun x y => x ^ y

section Narrowing

variable {K : Type} [LinearOrderedField K] [FloorRing K]

/-- The conversion of a `double` to a `float`, as in the assignment `NS = neffl;`
to the local `float NS` and in the initialiser `1.1` of an entry of
`static float ns[21]`: the nearest number with a 24-bit significand, a tie going
to the even significand.  With `2 ^ e ≤ |x| < 2 ^ (e + 1)` the spacing of such
numbers around `x` is `2 ^ (e - 23)`.  The exponent is not bounded: a value
beyond the `float` range is far outside every grid, before and after the
conversion. -/
def narrow (x : K) : K :=
  if x = 0 then 0 else
    let ulp : K := 2 ^ (Int.log 2 |x| - 23)
    let q := x / ulp
    let f : Int := ⌊q⌋
    let n : Int := if q - f < 1 / 2 then f else if 1 / 2 < q - f then f + 1
      else if f % 2 = 0 then f else f + 1
    n * ulp

end Narrowing

section Tables

/-- The table `static float sig[21][18]` of `sp`. -/
def sp.sig (K : Type) [LinearOrderedField K] : List (List K) :=
  [
   [126, 140, 165, 202, 247, 299, 346, 383, 435, 491, 553, 617, 685, 769, 838, 925, 1011, 1082],
   [140, 150, 162, 183, 218, 273, 327, 385, 440, 501, 557, 620, 701, 764, 838, 923, 1025, 1085],
   [154, 167, 175, 192, 216, 251, 299, 357, 423, 487, 549, 617, 684, 759, 834, 910, 1014, 1064],
   [166, 180, 192, 206, 226, 253, 291, 339, 397, 459, 532, 600, 676, 755, 832, 896, 1002, 1055],
   [208, 194, 207, 223, 242, 265, 296, 335, 384, 445, 511, 583, 656, 726, 817, 889, 988, 1044],
   [262, 254, 220, 239, 261, 283, 310, 344, 388, 442, 496, 568, 635, 725, 791, 890, 970, 1036],
   [311, 306, 299, 251, 280, 304, 330, 361, 396, 443, 500, 563, 630, 704, 796, 880, 951, 1033],
   [358, 359, 350, 338, 293, 323, 352, 381, 416, 455, 511, 566, 635, 706, 780, 859, 946, 1039],
   [411, 409, 405, 392, 370, 340, 375, 406, 439, 478, 525, 580, 644, 714, 790, 873, 961, 1050],
   [462, 463, 459, 450, 443, 400, 394, 432, 467, 501, 546, 595, 650, 711, 786, 873, 963, 1050],
   [522, 525, 529, 524, 516, 518, 438, 454, 495, 532, 565, 621, 671, 741, 813, 874, 951, 1034],
   [589, 593, 590, 583, 579, 568, 565, 483, 517, 560, 600, 644, 691, 752, 821, 904, 978, 1048],
   [658, 655, 666, 657, 649, 653, 649, 587, 549, 592, 674, 674, 728, 782, 833, 902, 992, 1084],
   [738, 742, 747, 725, 721, 729, 699, 730, 626, 622, 668, 721, 765, 809, 887, 938, 1001, 1109],
   [838, 838, 810, 809, 790, 800, 769, 815, 757, 679, 704, 755, 806, 854, 901, 974, 1034, 1105],
   [942, 946, 925, 901, 918, 895, 919, 897, 933, 890, 785, 797, 859, 908, 976, 1020, 1115, 1173],
   [1059, 1061, 1056, 1061, 1074, 1031, 1036, 1036, 993, 1038, 932, 852, 878, 943, 1003, 1074, 1131, 1200],
   [1069, 1076, 1083, 1095, 1102, 1091, 1126, 1156, 1103, 1149, 1157, 1036, 972, 1007, 1064, 1124, 1209, 1283],
   [1338, 1350, 1356, 1354, 1324, 1301, 1312, 1318, 1257, 1239, 1297, 1233, 1089, 1059, 1106, 1180, 1218, 1317],
   [1409, 1398, 1367, 1336, 1313, 1313, 1409, 1354, 1317, 1287, 1353, 1386, 1279, 1158, 1141, 1188, 1260, 1335],
   [1328, 1332, 1342, 1369, 1405, 1451, 1502, 1524, 1506, 1477, 1522, 1594, 1572, 1436, 1328, 1325, 1382, 1446]
  ]

/-- The table `static float alp[21][18]` of `sp`. -/
def sp.alp (K : Type) [LinearOrderedField K] : List (List K) :=
  [
   [0.268, 0.269, 0.335, 0.377, 0.327, 0.286, 0.273, 0.270, 0.271, 0.268, 0.267, 0.264, 0.264, 0.264, 0.261, 0.256, 0.248, 0.245],
   [0.261, 0.256, 0.254, 0.282, 0.327, 0.355, 0.321, 0.293, 0.287, 0.271, 0.267, 0.272, 0.270, 0.270, 0.268, 0.268, 0.264, 0.263],
   [0.266, 0.264, 0.257, 0.252, 0.267, 0.289, 0.325, 0.339, 0.319, 0.301, 0.292, 0.284, 0.281, 0.281, 0.277, 0.282, 0.276, 0.274],
   [0.262, 0.274, 0.258, 0.251, 0.247, 0.254, 0.273, 0.291, 0.316, 0.322, 0.320, 0.302, 0.294, 0.290, 0.287, 0.292, 0.283, 0.277],
   [0.322, 0.275, 0.264, 0.259, 0.250, 0.245, 0.273, 0.255, 0.271, 0.284, 0.294, 0.308, 0.296, 0.299, 0.288, 0.289, 0.282, 0.278],
   [0.267, 0.300, 0.260, 0.268, 0.245, 0.242, 0.243, 0.242, 0.239, 0.246, 0.267, 0.277, 0.280, 0.290, 0.282, 0.281, 0.274, 0.271],
   [0.259, 0.274, 0.275, 0.252, 0.265, 0.248, 0.249, 0.237, 0.238, 0.236, 0.247, 0.254, 0.254, 0.271, 0.268, 0.267, 0.258, 0.262],
   [0.260, 0.255, 0.268, 0.268, 0.268, 0.264, 0.248, 0.239, 0.229, 0.240, 0.236, 0.234, 0.238, 0.244, 0.252, 0.251, 0.244, 0.255],
   [0.255, 0.255, 0.244, 0.247, 0.317, 0.246, 0.255, 0.244, 0.237, 0.231, 0.227, 0.231, 0.235, 0.232, 0.235, 0.241, 0.237, 0.245],
   [0.256, 0.254, 0.254, 0.249, 0.227, 0.319, 0.253, 0.253, 0.240, 0.237, 0.238, 0.233, 0.231, 0.230, 0.228, 0.234, 0.227, 0.241],
   [0.257, 0.254, 0.252, 0.235, 0.253, 0.240, 0.284, 0.251, 0.246, 0.241, 0.235, 0.228, 0.222, 0.225, 0.225, 0.219, 0.228, 0.233],
   [0.244, 0.240, 0.245, 0.238, 0.248, 0.230, 0.283, 0.252, 0.244, 0.244, 0.238, 0.235, 0.234, 0.236, 0.228, 0.224, 0.225, 0.231],
   [0.244, 0.241, 0.244, 0.237, 0.237, 0.249, 0.219, 0.324, 0.239, 0.245, 0.242, 0.242, 0.232, 0.233, 0.221, 0.227, 0.231, 0.218],
   [0.241, 0.245, 0.249, 0.239, 0.243, 0.250, 0.217, 0.254, 0.308, 0.237, 0.247, 0.244, 0.234, 0.228, 0.233, 0.224, 0.227, 0.226],
   [0.243, 0.243, 0.232, 0.227, 0.235, 0.253, 0.227, 0.220, 0.320, 0.270, 0.243, 0.252, 0.248, 0.238, 0.234, 0.241, 0.225, 0.227],
   [0.225, 0.226, 0.234, 0.230, 0.226, 0.233, 0.249, 0.225, 0.216, 0.300, 0.286, 0.237, 0.240, 0.247, 0.243, 0.234, 0.231, 0.238],
   [0.268, 0.260, 0.247, 0.238, 0.233, 0.241, 0.254, 0.248, 0.207, 0.227, 0.315, 0.260, 0.226, 0.237, 0.240, 0.239, 0.239, 0.240],
   [0.248, 0.246, 0.238, 0.226, 0.213, 0.221, 0.226, 0.226, 0.204, 0.194, 0.248, 0.316, 0.234, 0.216, 0.236, 0.233, 0.221, 0.230],
   [0.200, 0.202, 0.198, 0.194, 0.206, 0.207, 0.227, 0.224, 0.207, 0.185, 0.198, 0.275, 0.315, 0.233, 0.229, 0.231, 0.233, 0.236],
   [0.202, 0.209, 0.221, 0.226, 0.230, 0.245, 0.202, 0.257, 0.246, 0.225, 0.215, 0.246, 0.320, 0.321, 0.244, 0.239, 0.251, 0.253],
   [0.246, 0.248, 0.255, 0.265, 0.274, 0.285, 0.292, 0.284, 0.273, 0.250, 0.225, 0.239, 0.295, 0.352, 0.320, 0.258, 0.260, 0.269]
  ]

/-- The axis `static float ns[21]` of `sp`: each initialiser is stored as a `float`. -/
def sp.ns (K : Type) [LinearOrderedField K] [FloorRing K] : List K :=
  ([1.0, 1.1, 1.2, 1.3, 1.4, 1.5, 1.6, 1.7, 1.8, 1.9, 2.0, 2.1, 2.2, 2.3, 2.4,
    2.5, 2.6, 2.7, 2.8, 2.9, 3.0] : List K).map narrow

/-- The axis `static float np[18]` of `sp`: each initialiser is stored as a `float`. -/
def sp.np (K : Type) [LinearOrderedField K] [FloorRing K] : List K :=
  ([1.3, 1.4, 1.5, 1.6, 1.7, 1.8, 1.9, 2.0, 2.1, 2.2, 2.3, 2.4, 2.5, 2.6, 2.7,
    2.8, 2.9, 3.0] : List K).map narrow

/-- The table `static float sig[18][18]` of `pd`. -/
def pd.sig (K : Type) [LinearOrderedField K] : List (List K) :=
  [
   [425, 461, 507, 566, 630, 706, 799, 889, 995, 1083, 1191, 1334, 1478, 1608, 1790, 1870, 1936, 2140],
   [429, 460, 505, 565, 633, 704, 795, 896, 985, 1082, 1199, 1340, 1487, 1611, 1795, 1872, 1937, 2136],
   [419, 451, 501, 556, 627, 700, 785, 891, 977, 1088, 1212, 1346, 1493, 1604, 1793, 1863, 1930, 2144],
   [402, 437, 489, 544, 614, 695, 779, 875, 975, 1102, 1221, 1350, 1488, 1591, 1774, 1844, 1919, 2126],
   [384, 418, 467, 529, 595, 674, 769, 856, 976, 1108, 1224, 1338, 1467, 1570, 1743, 1817, 1900, 2118],
   [366, 397, 443, 505, 576, 651, 755, 841, 973, 1095, 1210, 1308, 1435, 1545, 1702, 1786, 1878, 2081],
   [356, 387, 432, 489, 562, 635, 722, 841, 961, 1078, 1175, 1273, 1397, 1517, 1672, 1763, 1863, 2034],
   [359, 388, 431, 479, 545, 624, 707, 834, 943, 1059, 1158, 1256, 1368, 1490, 1647, 1747, 1849, 1998],
   [361, 394, 436, 483, 547, 615, 704, 817, 920, 1027, 1124, 1238, 1358, 1465, 1624, 1736, 1838, 1978],
   [400, 382, 440, 489, 546, 610, 690, 817, 897, 998, 1115, 1201, 1351, 1453, 1599, 1728, 1829, 1953],
   [474, 461, 416, 491, 549, 612, 701, 806, 883, 974, 1078, 1194, 1310, 1456, 1569, 1716, 1818, 1925],
   [531, 518, 507, 463, 547, 615, 694, 784, 881, 958, 1047, 1153, 1297, 1432, 1547, 1688, 1809, 1901],
   [594, 585, 577, 564, 513, 615, 695, 779, 879, 949, 1041, 1145, 1264, 1388, 1544, 1644, 1804, 1879],
   [675, 659, 651, 639, 632, 576, 695, 782, 879, 957, 1046, 1141, 1254, 1391, 1524, 1614, 1793, 1871],
   [739, 734, 726, 719, 715, 708, 663, 776, 901, 971, 1022, 1117, 1232, 1355, 1478, 1616, 1766, 1887],
   [819, 821, 805, 784, 773, 761, 736, 761, 888, 958, 1044, 1145, 1237, 1346, 1487, 1614, 1721, 1891],
   [899, 895, 871, 852, 856, 861, 854, 759, 883, 984, 1027, 1113, 1226, 1355, 1467, 1568, 1703, 1885],
   [973, 946, 955, 925, 939, 927, 902, 920, 870, 987, 1061, 1145, 1234, 1319, 1439, 1552, 1722, 1859]
  ]

/-- The table `static float alp[18][18]` of `pd`. -/
def pd.alp (K : Type) [LinearOrderedField K] : List (List K) :=
  [
   [0.281, 0.288, 0.283, 0.282, 0.278, 0.281, 0.272, 0.274, 0.268, 0.257, 0.251, 0.243, 0.246, 0.251, 0.254, 0.268, 0.304, 0.308],
   [0.290, 0.297, 0.291, 0.290, 0.286, 0.282, 0.277, 0.275, 0.267, 0.254, 0.252, 0.244, 0.250, 0.257, 0.260, 0.274, 0.308, 0.312],
   [0.294, 0.299, 0.293, 0.294, 0.288, 0.289, 0.281, 0.276, 0.265, 0.256, 0.251, 0.247, 0.258, 0.264, 0.268, 0.283, 0.318, 0.317],
   [0.297, 0.298, 0.302, 0.300, 0.289, 0.295, 0.290, 0.276, 0.264, 0.256, 0.260, 0.258, 0.268, 0.277, 0.281, 0.292, 0.330, 0.327],
   [0.305, 0.311, 0.313, 0.315, 0.305, 0.304, 0.299, 0.279, 0.271, 0.272, 0.273, 0.276, 0.285, 0.290, 0.293, 0.302, 0.340, 0.340],
   [0.292, 0.294, 0.303, 0.305, 0.301, 0.307, 0.290, 0.277, 0.274, 0.278, 0.287, 0.288, 0.295, 0.302, 0.306, 0.312, 0.343, 0.346],
   [0.268, 0.277, 0.279, 0.285, 0.285, 0.290, 0.279, 0.278, 0.280, 0.283, 0.295, 0.296, 0.305, 0.310, 0.313, 0.315, 0.342, 0.346],
   [0.288, 0.285, 0.280, 0.278, 0.278, 0.277, 0.272, 0.271, 0.279, 0.288, 0.297, 0.305, 0.310, 0.313, 0.311, 0.310, 0.335, 0.338],
   [0.314, 0.304, 0.292, 0.282, 0.275, 0.275, 0.262, 0.272, 0.290, 0.293, 0.299, 0.307, 0.308, 0.310, 0.303, 0.302, 0.325, 0.328],
   [0.346, 0.329, 0.313, 0.295, 0.283, 0.275, 0.264, 0.274, 0.288, 0.302, 0.307, 0.310, 0.306, 0.307, 0.292, 0.296, 0.315, 0.320],
   [0.320, 0.295, 0.326, 0.318, 0.294, 0.277, 0.275, 0.271, 0.293, 0.303, 0.305, 0.309, 0.309, 0.303, 0.294, 0.294, 0.310, 0.313],
   [0.304, 0.310, 0.297, 0.320, 0.317, 0.297, 0.283, 0.274, 0.298, 0.305, 0.308, 0.311, 0.313, 0.300, 0.290, 0.293, 0.305, 0.306],
   [0.314, 0.313, 0.308, 0.297, 0.325, 0.314, 0.293, 0.276, 0.292, 0.309, 0.314, 0.308, 0.303, 0.296, 0.286, 0.291, 0.301, 0.302],
   [0.308, 0.311, 0.307, 0.312, 0.288, 0.340, 0.305, 0.285, 0.294, 0.310, 0.315, 0.309, 0.296, 0.285, 0.281, 0.288, 0.298, 0.295],
   [0.313, 0.310, 0.315, 0.303, 0.313, 0.294, 0.331, 0.286, 0.294, 0.307, 0.320, 0.316, 0.303, 0.281, 0.278, 0.285, 0.290, 0.292],
   [0.315, 0.306, 0.308, 0.297, 0.295, 0.283, 0.334, 0.297, 0.280, 0.294, 0.314, 0.321, 0.313, 0.291, 0.280, 0.279, 0.287, 0.290],
   [0.308, 0.304, 0.305, 0.297, 0.279, 0.285, 0.251, 0.278, 0.278, 0.284, 0.297, 0.314, 0.307, 0.289, 0.274, 0.274, 0.274, 0.291],
   [0.301, 0.299, 0.298, 0.285, 0.265, 0.279, 0.241, 0.285, 0.260, 0.286, 0.302, 0.306, 0.302, 0.288, 0.277, 0.263, 0.271, 0.293]
  ]

/-- The axis `static float np[18]` of `pd`: each initialiser is stored as a `float`. -/
def pd.np (K : Type) [LinearOrderedField K] [FloorRing K] : List K :=
  ([1.3, 1.4, 1.5, 1.6, 1.7, 1.8, 1.9, 2.0, 2.1, 2.2, 2.3, 2.4, 2.5, 2.6, 2.7,
    2.8, 2.9, 3.0] : List K).map narrow

/-- The axis `static float nd[18]` of `pd`: each initialiser is stored as a `float`. -/
def pd.nd (K : Type) [LinearOrderedField K] [FloorRing K] : List K :=
  ([2.3, 2.4, 2.5, 2.6, 2.7, 2.8, 2.9, 3.0, 3.1, 3.2, 3.3, 3.4, 3.5, 3.6, 3.7,
    3.8, 3.9, 4.0] : List K).map narrow

/-- The table `static float sig[18][18]` of `df`. -/
def df.sig (K : Type) [LinearOrderedField K] : List (List K) :=
  [
   [808, 873, 958, 1059, 1175, 1306, 1453, 1615, 1793, 1979, 2121, 2203, 2461, 2604, 2764, 2757, 2784, 3156],
   [798, 866, 953, 1052, 1172, 1299, 1450, 1606, 1776, 1967, 2114, 2196, 2451, 2601, 2763, 2767, 2783, 3142],
   [781, 848, 934, 1030, 1149, 1276, 1416, 1596, 1751, 1944, 2100, 2188, 2436, 2594, 2767, 2777, 2795, 3123],
   [766, 831, 915, 1010, 1124, 1239, 1398, 1564, 1729, 1912, 2083, 2180, 2426, 2585, 2776, 2790, 2808, 3106],
   [750, 814, 897, 987, 1097, 1201, 1355, 1530, 1718, 1875, 2060, 2171, 2414, 2575, 2779, 2809, 2820, 3103],
   [733, 797, 872, 950, 1049, 1166, 1326, 1502, 1670, 1851, 2026, 2165, 2396, 2562, 2779, 2827, 2832, 3099],
   [726, 786, 853, 936, 1011, 1128, 1303, 1472, 1649, 1844, 1979, 2159, 2371, 2548, 2778, 2840, 2848, 3103],
   [709, 783, 847, 912, 1002, 1093, 1270, 1419, 1606, 1787, 1951, 2139, 2335, 2533, 2775, 2847, 2863, 3104],
   [758, 721, 838, 907, 1010, 1066, 1211, 1401, 1600, 1774, 1972, 2098, 2313, 2528, 2781, 2857, 2892, 3121],
   [869, 882, 820, 870, 1003, 1098, 1165, 1368, 1527, 1735, 1896, 2030, 2288, 2534, 2776, 2844, 2902, 3123],
   [970, 967, 934, 938, 918, 1130, 1194, 1287, 1507, 1679, 1821, 2021, 2271, 2525, 2732, 2786, 2882, 3085],
   [1079, 1043, 1056, 1007, 1014, 1021, 1200, 1326, 1424, 1668, 1818, 1988, 2242, 2493, 2672, 2719, 2853, 3035],
   [1174, 1173, 1127, 1154, 1104, 1099, 1169, 1288, 1442, 1580, 1704, 1882, 2136, 2400, 2561, 2648, 2832, 2994],
   [1285, 1278, 1269, 1225, 1252, 1229, 1116, 1343, 1380, 1594, 1710, 1874, 2054, 2309, 2484, 2607, 2813, 2932],
   [1440, 1408, 1422, 1380, 1383, 1341, 1361, 1192, 1448, 1454, 1675, 1873, 2069, 2246, 2432, 2610, 2811, 2878],
   [1572, 1545, 1553, 1517, 1481, 1502, 1469, 1349, 1373, 1561, 1586, 1781, 2072, 2301, 2490, 2626, 2754, 2832],
   [1698, 1701, 1694, 1641, 1617, 1651, 1566, 1600, 1374, 1547, 1698, 1749, 1989, 2289, 2511, 2594, 2689, 2774],
   [1870, 1841, 1786, 1752, 1777, 1757, 1666, 1732, 1522, 1533, 1707, 1817, 1928, 2194, 2435, 2574, 2665, 2742]
  ]

/-- The table `static float alp[18][18]` of `df`. -/
def df.alp (K : Type) [LinearOrderedField K] : List (List K) :=
  [
   [0.295, 0.286, 0.299, 0.300, 0.307, 0.310, 0.311, 0.311, 0.316, 0.319, 0.325, 0.351, 0.364, 0.369, 0.372, 0.379, 0.373, 0.351],
   [0.295, 0.295, 0.301, 0.302, 0.311, 0.316, 0.314, 0.314, 0.320, 0.321, 0.324, 0.349, 0.361, 0.365, 0.368, 0.374, 0.368, 0.349],
   [0.286, 0.298, 0.302, 0.304, 0.311, 0.323, 0.321, 0.319, 0.324, 0.323, 0.323, 0.345, 0.355, 0.358, 0.362, 0.367, 0.361, 0.343],
   [0.290, 0.295, 0.307, 0.316, 0.322, 0.329, 0.326, 0.325, 0.329, 0.324, 0.321, 0.343, 0.350, 0.351, 0.354, 0.360, 0.358, 0.337],
   [0.292, 0.299, 0.307, 0.321, 0.327, 0.336, 0.333, 0.330, 0.330, 0.320, 0.321, 0.338, 0.344, 0.344, 0.345, 0.352, 0.352, 0.332],
   [0.291, 0.299, 0.309, 0.323, 0.335, 0.339, 0.335, 0.333, 0.327, 0.323, 0.319, 0.333, 0.336, 0.336, 0.336, 0.344, 0.345, 0.329],
   [0.297, 0.302, 0.312, 0.321, 0.340, 0.338, 0.333, 0.327, 0.325, 0.319, 0.318, 0.324, 0.329, 0.330, 0.330, 0.336, 0.337, 0.325],
   [0.319, 0.314, 0.317, 0.327, 0.334, 0.344, 0.339, 0.327, 0.323, 0.318, 0.312, 0.318, 0.319, 0.322, 0.322, 0.326, 0.327, 0.316],
   [0.333, 0.328, 0.339, 0.325, 0.359, 0.351, 0.332, 0.325, 0.322, 0.311, 0.309, 0.310, 0.311, 0.316, 0.314, 0.317, 0.321, 0.313],
   [0.274, 0.273, 0.323, 0.412, 0.318, 0.339, 0.359, 0.328, 0.324, 0.311, 0.309, 0.325, 0.322, 0.315, 0.318, 0.319, 0.325, 0.314],
   [0.297, 0.296, 0.273, 0.302, 0.436, 0.325, 0.354, 0.335, 0.326, 0.311, 0.314, 0.330, 0.323, 0.324, 0.325, 0.323, 0.330, 0.314],
   [0.284, 0.295, 0.296, 0.280, 0.300, 0.438, 0.322, 0.348, 0.332, 0.318, 0.320, 0.332, 0.335, 0.334, 0.335, 0.331, 0.333, 0.309],
   [0.280, 0.278, 0.285, 0.297, 0.279, 0.320, 0.445, 0.319, 0.320, 0.324, 0.328, 0.338, 0.348, 0.346, 0.345, 0.336, 0.328, 0.300],
   [0.280, 0.273, 0.267, 0.273, 0.284, 0.268, 0.343, 0.390, 0.323, 0.308, 0.318, 0.325, 0.343, 0.348, 0.346, 0.337, 0.311, 0.286],
   [0.277, 0.270, 0.260, 0.266, 0.276, 0.263, 0.294, 0.408, 0.337, 0.324, 0.299, 0.308, 0.331, 0.334, 0.345, 0.327, 0.315, 0.280],
   [0.270, 0.262, 0.258, 0.260, 0.273, 0.273, 0.262, 0.375, 0.410, 0.298, 0.312, 0.294, 0.313, 0.331, 0.328, 0.322, 0.307, 0.270],
   [0.271, 0.267, 0.262, 0.264, 0.274, 0.269, 0.261, 0.323, 0.351, 0.359, 0.294, 0.325, 0.310, 0.318, 0.321, 0.315, 0.291, 0.268],
   [0.275, 0.276, 0.272, 0.276, 0.279, 0.270, 0.264, 0.295, 0.393, 0.340, 0.319, 0.287, 0.320, 0.330, 0.316, 0.302, 0.280, 0.261]
  ]

/-- The axis `static float nd[18]` of `df`: each initialiser is stored as a `float`. -/
def df.nd (K : Type) [LinearOrderedField K] [FloorRing K] : List K :=
  ([2.3, 2.4, 2.5, 2.6, 2.7, 2.8, 2.9, 3.0, 3.1, 3.2, 3.3, 3.4, 3.5, 3.6, 3.7,
    3.8, 3.9, 4.0] : List K).map narrow

/-- The axis `static float nf[18]` of `df`: each initialiser is stored as a `float`. -/
def df.nf (K : Type) [LinearOrderedField K] [FloorRing K] : List K :=
  ([3.3, 3.4, 3.5, 3.6, 3.7, 3.8, 3.9, 4.0, 4.1, 4.2, 4.3, 4.4, 4.5, 4.6, 4.7,
    4.8, 4.9, 5.0] : List K).map narrow

end Tables

section Interpolators

variable {K : Type} [LinearOrderedField K]

/-- The scan `for (i = start; i < start + fuel; i++) if (x <= axis[i + 1]) { k = i; break; }`:
`some k` when the loop breaks at `i = k`; `none` when it reads `axis` past its end
or ends without assigning the index. -/
def scanFrom (axis : List K) (x : K) : Nat → Nat → Option Nat
  | 0, _ => none
  | fuel + 1, i =>
    match axis[i + 1]? with
    | none => none
    | some v => if x ≤ v then some i else scanFrom axis x fuel (i + 1)

/-- The scan `for (i = 0; i < n; i++) if (x <= axis[i + 1]) { k = i; break; }`. -/
def scan (axis : List K) (n : Nat) (x : K) : Option Nat :=
  scanFrom axis x n 0

/-- The read `tab[i][j]` of a two-dimensional table, `none` outside the table. -/
def at2 (tab : List (List K)) (i j : Nat) : Option K :=
  (tab[i]?).bind fun row => row[j]?

/-- The two-stage bilinear interpolation of `sp`, `pd` and `df` from the four
corner values `v1 = tab[k][l]`, `v2 = tab[k+1][l]`, `v3 = tab[k][l+1]`,
`v4 = tab[k+1][l+1]`: first along the second axis (`y0 = ax2[l]`,
`y1 = ax2[l+1]`) for the two rows, then between the rows along the first axis
(`x0 = ax1[k]`, `x1 = ax1[k+1]`). -/
def bilinear (v1 v2 v3 v4 X Y x0 x1 y0 y1 : K) : K :=
  let va := v1 + (v3 - v1) * (Y - y0) / (y1 - y0)
  let vb := v2 + (v4 - v2) * (Y - y0) / (y1 - y0)
  va + (vb - va) * (X - x0) / (x1 - x0)

/-- The four corner reads `tab[k][l]`, `tab[k+1][l]`, `tab[k][l+1]`, `tab[k+1][l+1]`. -/
def corners (tab : List (List K)) (k l : Nat) : Option (K × K × K × K) := do
  let v1 ← at2 tab k l
  let v2 ← at2 tab (k + 1) l
  let v3 ← at2 tab k (l + 1)
  let v4 ← at2 tab (k + 1) (l + 1)
  pure (v1, v2, v3, v4)

/-- The axis reads `ax[k]` and `ax[k+1]`. -/
def ends (ax : List K) (k : Nat) : Option (K × K) := do
  let x0 ← ax[k]?
  let x1 ← ax[k + 1]?
  pure (x0, x1)

/-- The part common to `sp`, `pd` and `df` after the range and charge checks:
the two scans and the two-stage bilinear interpolation of `sig` and `alp`.
`X` is the coordinate on the row axis `ax1` (index `k`), `Y` the coordinate on
the column axis `ax2` (index `l`); the result is `(*s, *a)`. -/
def cell (sig alp : List (List K)) (ax1 ax2 : List K) (n1 n2 : Nat) (X Y : K) :
    Option (K × K) := do
  let k ← scan ax1 n1 X
  let l ← scan ax2 n2 Y
  let (sig1, sig2, sig3, sig4) ← corners sig k l
  let (y0, y1) ← ends ax2 l
  let (x0, x1) ← ends ax1 k
  let (alp1, alp2, alp3, alp4) ← corners alp k l
  pure (bilinear sig1 sig2 sig3 sig4 X Y x0 x1 y0 y1,
        bilinear alp1 alp2 alp3 alp4 X Y x0 x1 y0 y1)

variable [FloorRing K]

/-- The `float` coordinate a table interpolator holds for the orbital `orb`:
`if (ll == orb) X = neffl; if (lh == orb) X = neffh;` with `float X`, so the
`double` argument is narrowed; unassigned (`none`) when neither test holds. -/
def coord (orb : Int) (neffl neffh : K) (ll lh : Int) : Option K :=
  let X : Option K := none
  let X := if ll = orb then some (narrow neffl) else X
  let X := if lh = orb then some (narrow neffh) else X
  X

/-- The result of a table interpolator: the returned status and the contents of
`*s` and `*a` after the call. -/
structure Interp (K : Type) where
  /-- The returned `int`. -/
  status : Int
  /-- The contents of `*s` after the call. -/
  s : K
  /-- The contents of `*a` after the call. -/
  a : K

/-- The C function `sp`; `s` and `a` are the contents of `*s` and `*a` before the call. -/
def sp (neffl neffh : K) (ll lh : Int) (s a : K) (charge : K) : Option (Interp K) := do
  let NS ← coord 0 neffl neffh ll lh
  if NS ≤ 1.0 ∨ NS > 3.0 then return ⟨0, s, a⟩
  let NP ← coord 1 neffl neffh ll lh
  if NP ≤ 1.3 ∨ NP > 3.0 then return ⟨0, s, a⟩
  if charge > 1.0 then return ⟨2, s, a⟩
  let (s, a) ← cell (sp.sig K) (sp.alp K) (sp.ns K) (sp.np K) 21 18 NS NP
  return ⟨1, s, a⟩

/-- The C function `pd`; `s` and `a` are the contents of `*s` and `*a` before the call. -/
def pd (neffl neffh : K) (ll lh : Int) (s a : K) (charge : K) : Option (Interp K) := do
  let NP ← coord 1 neffl neffh ll lh
  if NP ≤ 1.3 ∨ NP > 3.0 then return ⟨0, s, a⟩
  let ND ← coord 2 neffl neffh ll lh
  if ND ≤ 2.3 ∨ ND > 4.0 then return ⟨0, s, a⟩
  if charge > 1.0 then return ⟨2, s, a⟩
  let (s, a) ← cell (pd.sig K) (pd.alp K) (pd.np K) (pd.nd K) 18 18 NP ND
  return ⟨1, s, a⟩

/-- The C function `df`; `s` and `a` are the contents of `*s` and `*a` before the call. -/
def df (neffl neffh : K) (ll lh : Int) (s a : K) (charge : K) : Option (Interp K) := do
  let ND ← coord 2 neffl neffh ll lh
  if ND ≤ 2.3 ∨ ND > 4.0 then return ⟨0, s, a⟩
  let NF ← coord 3 neffl neffh ll lh
  if NF ≤ 3.3 ∨ NF > 5.0 then return ⟨0, s, a⟩
  if charge > 1.0 then return ⟨2, s, a⟩
  let (s, a) ← cell (df.sig K) (df.alp K) (df.nd K) (df.nf K) 18 18 ND NF
  return ⟨1, s, a⟩

end Interpolators

section BroadDefs

variable {K : Type} [LinearOrderedField K] [FloorRing K]

/-- Modelled from the spec: the helper `approx` is declared in `broad12.c`
(`int approx();`) but defined elsewhere.  The spec describes `approx(x, 0, 0.01) == 1`
as "approximately zero", the opposite of `|x| > 0.01`, and a sentinel as a value
"within" the tolerance of `1.0`: `approx(a, b, tol)` is `1` when `|a - b| ≤ tol`
and `0` otherwise. -/
def approx (a b tol : K) : Int :=
  if |a - b| ≤ tol then 1 else 0

/-- The coefficient table `static double cof[6]` of `gammln`. -/
def gammln.cof (K : Type) [LinearOrderedField K] : List K :=
  [76.18009172947146, -86.50532032941677, 24.01409824083091, -1.231739572450155,
   0.1208650973866179e-02, -0.5395239384953e-05]

/-- One pass of `for (j = 0; j <= 5; j++) ser += cof[j] / ++y;` on the state `(ser, y)`. -/
def gammln.step (st : K × K) (c : K) : K × K :=
  let y := st.2 + 1
  (st.1 + c / y, y)

/-- The C function `gammln`. -/
def gammln (M : MathFns K) (xx : K) : K :=
  let x := xx
  let y := xx
  let tmp := x + 5.5
  let tmp := tmp - (x + 0.5) * M.log tmp
  let ser : K := 1.000000000190015
  let ser := ((gammln.cof K).foldl gammln.step (ser, y)).1
  let res := -tmp + M.log (2.5066282746310005 * ser / x)
  res

/-- Modelled from the spec: the type `atmosphere` of `spectrum.h` (absent), with
the per-depth arrays that `broad` reads: temperature, microturbulent velocity,
electron density and the densities of neutral hydrogen, neutral helium and
molecular hydrogen. -/
structure Atmosphere (K : Type) where
  /-- Temperature `model->T[i]`. -/
  T : Nat → K
  /-- Microturbulent velocity `model->mtv[i]`. -/
  mtv : Nat → K
  /-- Electron density `model->Ne[i]`. -/
  Ne : Nat → K
  /-- Neutral hydrogen density `model->NHI[i]`. -/
  NHI : Nat → K
  /-- Neutral helium density `model->NHeI[i]`. -/
  NHeI : Nat → K
  /-- Molecular hydrogen density `model->NH2[i]`. -/
  NH2 : Nat → K

/-- Modelled from the spec: the type `linedata` of `spectrum.h` (absent), with
the fields that `broad` reads or writes. -/
structure Linedata (K : Type) where
  /-- Wavelength `wave`. -/
  wave : K
  /-- Species code `code`. -/
  code : K
  /-- Transition tag `T`. -/
  T : String
  /-- Ionization energy `chi`. -/
  chi : K
  /-- Lower term energy `El`. -/
  El : K
  /-- Upper term energy `Eu`. -/
  Eu : K
  /-- Atomic mass `atomass`. -/
  atomass : K
  /-- Literal radiative damping constant `gammar`. -/
  gammar : K
  /-- Literal Stark damping constant `gammas`. -/
  gammas : K
  /-- Literal van der Waals damping constant `gammaw`. -/
  gammaw : K
  /-- Per-depth Doppler width `dopp[i]`. -/
  dopp : Nat → K
  /-- Per-depth damping parameter `a[i]`. -/
  a : Nat → K
  /-- Per-depth quasistatic correction `dlg[i]`. -/
  dlg : Nat → K

/-- The loop `for (i = 0; i < n; i++) body` on a state. -/
def forLoop {σ : Type} (body : Nat → σ → σ) : Nat → σ → σ
  | 0, st => st
  | n + 1, st => body n (forLoop body n st)

/-- The value written to `line[N].dopp[i]` (the same two statements in each of
the three loops of `broad`). -/
def doppAt (M : MathFns K) (model : Atmosphere K) (ln : Linedata K) (i : Nat) : K :=
  let vturb := model.mtv i
  M.sqrt (1.6631e+08 * model.T i / ln.atomass + (vturb * vturb))

/-- The body of the loop of the `"AI"` branch. -/
def stepAI (M : MathFns K) (model : Atmosphere K) (i : Nat) (ln : Linedata K) : Linedata K :=
  { ln with dopp := Function.update ln.dopp i (doppAt M model ln i) }

/-- The locals set from `Sig` and `Alp` before the species test. -/
structure Literals (K : Type) where
  /-- The flag `flagS`. -/
  flagS : Int
  /-- The regime flag `flago`. -/
  flago : Int
  /-- The local `sig`. -/
  sig : K
  /-- The local `alp`. -/
  alp : K

/-- The statements from `flagS = 0;` to the test of `flagSig` and `flagAlp`;
`sigU` and `alpU` are the indeterminate initial contents of `sig` and `alp`. -/
def literals (Sig Alp sigU alpU : K) : Literals K :=
  let flagSig : Int := if approx Sig 0.000 0.01 = 1 then 0 else 1
  let flagAlp : Int := if approx Alp 0.000 0.01 = 1 then 0 else 1
  if flagSig ≠ 0 ∧ flagAlp ≠ 0 then ⟨1, 1, Sig, Alp⟩ else ⟨0, 0, sigU, alpU⟩

/-- The `charge` that `broad` derives from the species code. -/
def chargeOf (code : K) : K :=
  let cneutral : K := ((⌊code⌋ : Int) : K)
  if approx code cneutral 0.001 = 1 then 1.0
  else if approx code (cneutral + 0.1) 0.001 = 1 then 2.0
  else if approx code (cneutral + 0.2) 0.001 = 1 then 3.0
  else if approx code (cneutral + 0.3) 0.001 = 1 then 4.0
  else 2.0

/-- The effective quantum numbers `(neffl, neffh)` that `broad` derives. -/
def neff (M : MathFns K) (ln : Linedata K) (charge : K) : K × K :=
  let neffl := if ln.chi ≤ ln.El then 4.0 else charge * M.sqrt (13.595 / (ln.chi - ln.El))
  let neffh := if ln.chi ≤ ln.Eu then 5.0 else charge * M.sqrt (13.595 / (ln.chi - ln.Eu))
  let neffl := if neffh ≤ neffl then neffh - 1.0 else neffl
  (neffl, neffh)

/-- The locals after the chain of tag tests. -/
structure Regime (K : Type) where
  /-- Lower orbital angular momentum `ll`. -/
  ll : Int
  /-- Upper orbital angular momentum `lh`. -/
  lh : Int
  /-- The regime flag `flago`. -/
  flago : Int
  /-- The local `sig`. -/
  sig : K
  /-- The local `alp`. -/
  alp : K

/-- A tag branch that calls a table interpolator `f`:
`ll = ..; lh = ..; if (flagS == 0) flago = f(neffl, neffh, ll, lh, &sig, &alp, charge);`. -/
def viaTable (f : K → K → Int → Int → K → K → K → Option (Interp K))
    (neffl neffh charge : K) (ll lh : Int) (lit : Literals K) : Option (Regime K) :=
  if lit.flagS = 0 then
    (f neffl neffh ll lh lit.sig lit.alp charge).map fun r => ⟨ll, lh, r.status, r.s, r.a⟩
  else some ⟨ll, lh, lit.flago, lit.sig, lit.alp⟩

/-- The `"GA"` branch: `flago = 4`, then the three sentinel tests in turn. -/
def flagoGA (ln : Linedata K) : Int :=
  let flago : Int := 4
  let flago := if approx ln.gammaw 1.0 0.001 = 1 then 5 else flago
  let flago := if approx ln.gammas 1.0 0.001 = 1 ∧ flago = 5 then 6 else flago
  let flago := if approx ln.gammar 1.0 0.001 = 1 ∧ flago = 6 then 7 else flago
  flago

/-- The chain of tests on the transition tag that sets `ll`, `lh` and `flago`. -/
def classify (ln : Linedata K) (neffl neffh charge : K) (lit : Literals K) :
    Option (Regime K) :=
  if ln.T = "99" then some ⟨9, 9, 3, lit.sig, lit.alp⟩
  else if ln.T = "01" then viaTable sp neffl neffh charge 0 1 lit
  else if ln.T = "10" then viaTable sp neffl neffh charge 1 0 lit
  else if ln.T = "12" then viaTable pd neffl neffh charge 1 2 lit
  else if ln.T = "21" then viaTable pd neffl neffh charge 2 1 lit
  else if ln.T = "23" then viaTable df neffl neffh charge 2 3 lit
  else if ln.T = "32" then viaTable df neffl neffh charge 3 2 lit
  else if ln.T = "34" then some ⟨3, 4, 2, lit.sig, lit.alp⟩
  else if ln.T = "43" then some ⟨4, 3, 2, lit.sig, lit.alp⟩
  else if ln.T = "45" then some ⟨4, 5, 2, lit.sig, lit.alp⟩
  else if ln.T = "54" then some ⟨5, 4, 2, lit.sig, lit.alp⟩
  else if ln.T = "56" then some ⟨5, 6, 2, lit.sig, lit.alp⟩
  else if ln.T = "65" then some ⟨6, 5, 2, lit.sig, lit.alp⟩
  else if ln.T = "AO" then some ⟨0, 1, 1, lit.sig, lit.alp⟩
  else if ln.T = "GA" then some ⟨0, 1, flagoGA ln, lit.sig, lit.alp⟩
  else some ⟨9, 9, 3, lit.sig, lit.alp⟩

/-- The local `OMara` after `if (flago == 1) OMara = ...` (initially `0.0`). -/
def omara (M : MathFns K) (rg : Regime K) : K :=
  if rg.flago = 1 then
    (rg.alp / 2.0) * 0.24156448 + gammln M ((4.0 - rg.alp) / 2.0) + M.log rg.sig
  else 0.0

/-- The local `C64` after the two blocks that compute `C6` (initially `0.0`). -/
def c64 (M : MathFns K) (rg : Regime K) (neffl neffh charge : K) : K :=
  let C64 : K := 0.0
  let C64 :=
    if rg.flago = 0 ∨ rg.flago = 2 then
      let Rl2 := neffl * neffl * (5.0 * neffl * neffl + 1.0 - 3.0 * (rg.ll : K) * ((rg.ll : K) + 1.0))
        / (2.0 * charge * charge)
      let Rh2 := neffh * neffh * (5.0 * neffh * neffh + 1.0 - 3.0 * (rg.lh : K) * ((rg.lh : K) + 1.0))
        / (2.0 * charge * charge)
      let C6 := 4.05e-33 * (Rh2 - Rl2)
      M.pow C6 0.4
    else C64
  if rg.flago = 3 ∨ rg.flago = 5 ∨ rg.flago = 6 ∨ rg.flago = 7 then
    let Rl2 := neffl * neffl * (5.0 * neffl * neffl) / (2.0 * charge * charge)
    let Rh2 := neffh * neffh * (5.0 * neffh * neffh) / (2.0 * charge * charge)
    let C6 := 4.05e-33 * (Rh2 - Rl2)
    M.pow C6 0.4
  else C64

/-- The local `C6` of the block `if (flago == 0 || flago == 2)`: the interaction
constant with the angular-momentum terms of `ll` and `lh`. -/
def c6 (neffl neffh charge : K) (ll lh : Int) : K :=
  let Rl2 := neffl * neffl * (5.0 * neffl * neffl + 1.0 - 3.0 * (ll : K) * ((ll : K) + 1.0))
    / (2.0 * charge * charge)
  let Rh2 := neffh * neffh * (5.0 * neffh * neffh + 1.0 - 3.0 * (lh : K) * ((lh : K) + 1.0))
    / (2.0 * charge * charge)
  4.05e-33 * (Rh2 - Rl2)

/-- The local `gammar` of the atomic branch (radiation broadening). -/
def gammarAtom (ln : Linedata K) (flago : Int) : K :=
  if flago = 4 ∨ flago = 5 ∨ flago = 6 ∨ (flago = 1 ∧ ln.gammar ≠ 0) then ln.gammar
  else 2.223e+15 / (ln.wave * ln.wave)

/-- The factor `(1.0 + 0.4133 * NHeI[i] / NHI[i] + 0.85 * NH2[i] / NHI[i])`. -/
def perturbers (model : Atmosphere K) (i : Nat) : K :=
  1.0 + 0.4133 * model.NHeI i / model.NHI i + 0.85 * model.NH2 i / model.NHI i

/-- The local `gammaw` at depth `i` of the atomic branch (van der Waals broadening). -/
def gammawAtom (M : MathFns K) (model : Atmosphere K) (ln : Linedata K) (fac : K)
    (flago : Int) (alp OMara C64 : K) (i : Nat) : K :=
  if flago = 4 then
    ln.gammaw * model.NHI i * M.pow (model.T i / 10000.0) 0.3 * perturbers model i
  else
    let v := M.sqrt (2.1175e+08 * model.T i * (1.0 / ln.atomass + 0.9921))
    if flago = 1 then
      let lnwN := OMara + M.log 1.0e6 + (1.0 - alp) * M.log (v / 1.0e+06)
      2.0 * fac * 2.8003e-17 * M.exp lnwN * model.NHI i * perturbers model i
    else
      8.08 * fac * C64 * M.pow v 0.6 * model.NHI i * perturbers model i

/-- The local `gammas` at depth `i` of the atomic branch (quadratic Stark broadening). -/
def gammasAtom (model : Atmosphere K) (ln : Linedata K) (flago : Int) (neffh5 : K)
    (i : Nat) : K :=
  if flago = 4 ∨ flago = 5 ∨ (flago = 1 ∧ ln.gammas ≠ 0) then ln.gammas * model.Ne i
  else 1.0e-08 * neffh5 * model.Ne i

/-- The body of the loop of the atomic branch: writes `dopp[i]`, `dlg[i]`
(unless `flago == 4`) and `a[i]`. -/
def stepAtom (M : MathFns K) (model : Atmosphere K) (fac : K) (flago : Int)
    (alp OMara C64 neffh5 gammar : K) (i : Nat) (ln : Linedata K) : Linedata K :=
  let ln := { ln with dopp := Function.update ln.dopp i (doppAt M model ln i) }
  let gammaw := gammawAtom M model ln fac flago alp OMara C64 i
  let ln := if flago = 4 then ln else { ln with dlg := Function.update ln.dlg i 1.0 }
  let gammas := gammasAtom model ln flago neffh5 i
  let a_i := (gammar + gammaw + gammas) * ln.wave * 1.0e-08 / (12.5636 * ln.dopp i)
  { ln with a := Function.update ln.a i a_i }

/-- The body of the loop of the molecular branch. -/
def stepMol (M : MathFns K) (model : Atmosphere K) (gammar : K) (i : Nat)
    (ln : Linedata K) : Linedata K :=
  let ln := { ln with dopp := Function.update ln.dopp i (doppAt M model ln i) }
  let gammaw := 1.0e-07 * model.NHI i
  let gammas := 1.0e-05 * model.Ne i
  let a_i := (gammar + gammaw + gammas) * ln.wave * 1.0e-08 / (12.5636 * ln.dopp i)
  { ln with a := Function.update ln.a i a_i }

/-- The atomic branch (`line[N].code < 100.0`) on the record of line `N`. -/
def broadAtom (M : MathFns K) (Ntau : Nat) (model : Atmosphere K) (ln : Linedata K)
    (fac : K) (lit : Literals K) : Option (Linedata K) :=
  let charge := chargeOf ln.code
  let nn := neff M ln charge
  (classify ln nn.1 nn.2 charge lit).map fun rg =>
    let OMara := omara M rg
    let C64 := c64 M rg nn.1 nn.2 charge
    let neffh5 := M.pow nn.2 5.0
    let gammar := gammarAtom ln rg.flago
    forLoop (stepAtom M model fac rg.flago rg.alp OMara C64 neffh5 gammar) Ntau ln

/-- The molecular branch (`line[N].code >= 100.0`) on the record of line `N`. -/
def broadMol (M : MathFns K) (Ntau : Nat) (model : Atmosphere K) (ln : Linedata K) :
    Linedata K :=
  let gammar := 2.223e+15 / (ln.wave * ln.wave)
  forLoop (stepMol M model gammar) Ntau ln

/-- The C function `broad`, with the global `Ntau` as a parameter; `sigU` and
`alpU` are the indeterminate initial contents of the locals `sig` and `alp`.
The result is the line list after the call. -/
def broad (M : MathFns K) (Ntau : Nat) (model : Atmosphere K) (line : Nat → Linedata K)
    (N : Nat) (Sig Alp fac sigU alpU : K) : Option (Nat → Linedata K) :=
  if (line N).T = "AI" then
    some (Function.update line N (forLoop (stepAI M model) Ntau (line N)))
  else
    let lit := literals Sig Alp sigU alpU
    if (line N).code < 100.0 then
      (broadAtom M Ntau model (line N) fac lit).map fun ln => Function.update line N ln
    else
      some (Function.update line N (broadMol M Ntau model (line N)))

end BroadDefs

section NarrowLemmas

variable {K : Type} [LinearOrderedField K] [FloorRing K]

/-- The binary exponent of a number in `[2 ^ e, 2 ^ (e + 1))`. -/
theorem log_two_eq {x : K} {e : Int} (h1 : (2 : K) ^ e ≤ x) (h2 : x < (2 : K) ^ (e + 1)) :
    Int.log 2 x = e := by
  have hx : 0 < x := lt_of_lt_of_le (by positivity) h1
  have a : e ≤ Int.log 2 x := (Int.zpow_le_iff_le_log (by norm_num) hx).1 (by exact_mod_cast h1)
  have b : Int.log 2 x < e + 1 :=
    (Int.lt_zpow_iff_log_lt (by norm_num) hx).1 (by exact_mod_cast h2)
  omega

/-- The value of `narrow` at a number `x` in `[2 ^ e, 2 ^ (e + 1))` that is
nearer to `n * 2 ^ (e - 23)` than to any other multiple of `2 ^ (e - 23)`. -/
theorem narrow_of_near {x : K} (e n : Int) (h1 : (2 : K) ^ e ≤ x) (h2 : x < (2 : K) ^ (e + 1))
    (h3 : (n : K) - 1 / 2 < x / 2 ^ (e - 23)) (h4 : x / 2 ^ (e - 23) < (n : K) + 1 / 2) :
    narrow x = n * 2 ^ (e - 23) := by
  have hx : 0 < x := lt_of_lt_of_le (by positivity) h1
  have hl : Int.log 2 |x| = e := by rw [abs_of_pos hx]; exact log_two_eq h1 h2
  unfold narrow
  rw [if_neg (ne_of_gt hx)]
  simp only [hl]
  rcases lt_or_le (x / 2 ^ (e - 23)) (n : K) with hq | hq
  · have hf : ⌊x / (2 : K) ^ (e - 23)⌋ = n - 1 := by
      rw [Int.floor_eq_iff]; push_cast; constructor <;> linarith
    rw [hf]
    have : ¬ (x / (2 : K) ^ (e - 23) - ((n - 1 : Int) : K) < 1 / 2) := by push_cast; linarith
    rw [if_neg this, if_pos (by push_cast; linarith)]
    simp
  · have hf : ⌊x / (2 : K) ^ (e - 23)⌋ = n := by
      rw [Int.floor_eq_iff]; constructor <;> linarith
    rw [hf, if_pos (by linarith)]

/-- The `float` nearest to `1.0`. -/
theorem narrow_1_0 : narrow (1.0 : K) = 1 := by
  rw [narrow_of_near 0 8388608] <;> norm_num

/-- The `float` nearest to `1.1`. -/
theorem narrow_1_1 : narrow (1.1 : K) = 9227469 / 8388608 := by
  rw [narrow_of_near 0 9227469] <;> norm_num

/-- The `float` nearest to `1.2`. -/
theorem narrow_1_2 : narrow (1.2 : K) = 5033165 / 4194304 := by
  rw [narrow_of_near 0 10066330] <;> norm_num

/-- The `float` nearest to `1.3`. -/
theorem narrow_1_3 : narrow (1.3 : K) = 5452595 / 4194304 := by
  rw [narrow_of_near 0 10905190] <;> norm_num

/-- The `float` nearest to `1.4`. -/
theorem narrow_1_4 : narrow (1.4 : K) = 11744051 / 8388608 := by
  rw [narrow_of_near 0 11744051] <;> norm_num

/-- The `float` nearest to `1.5`. -/
theorem narrow_1_5 : narrow (1.5 : K) = 3 / 2 := by
  rw [narrow_of_near 0 12582912] <;> norm_num

/-- The `float` nearest to `1.6`. -/
theorem narrow_1_6 : narrow (1.6 : K) = 13421773 / 8388608 := by
  rw [narrow_of_near 0 13421773] <;> norm_num

/-- The `float` nearest to `1.7`. -/
theorem narrow_1_7 : narrow (1.7 : K) = 7130317 / 4194304 := by
  rw [narrow_of_near 0 14260634] <;> norm_num

/-- The `float` nearest to `1.8`. -/
theorem narrow_1_8 : narrow (1.8 : K) = 7549747 / 4194304 := by
  rw [narrow_of_near 0 15099494] <;> norm_num

/-- The `float` nearest to `1.9`. -/
theorem narrow_1_9 : narrow (1.9 : K) = 15938355 / 8388608 := by
  rw [narrow_of_near 0 15938355] <;> norm_num

/-- The `float` nearest to `2.0`. -/
theorem narrow_2_0 : narrow (2.0 : K) = 2 := by
  rw [narrow_of_near 1 8388608] <;> norm_num

/-- The `float` nearest to `2.1`. -/
theorem narrow_2_1 : narrow (2.1 : K) = 4404019 / 2097152 := by
  rw [narrow_of_near 1 8808038] <;> norm_num

/-- The `float` nearest to `2.2`. -/
theorem narrow_2_2 : narrow (2.2 : K) = 9227469 / 4194304 := by
  rw [narrow_of_near 1 9227469] <;> norm_num

/-- The `float` nearest to `2.3`. -/
theorem narrow_2_3 : narrow (2.3 : K) = 9646899 / 4194304 := by
  rw [narrow_of_near 1 9646899] <;> norm_num

/-- The `float` nearest to `2.4`. -/
theorem narrow_2_4 : narrow (2.4 : K) = 5033165 / 2097152 := by
  rw [narrow_of_near 1 10066330] <;> norm_num

/-- The `float` nearest to `2.5`. -/
theorem narrow_2_5 : narrow (2.5 : K) = 5 / 2 := by
  rw [narrow_of_near 1 10485760] <;> norm_num

/-- The `float` nearest to `2.6`. -/
theorem narrow_2_6 : narrow (2.6 : K) = 5452595 / 2097152 := by
  rw [narrow_of_near 1 10905190] <;> norm_num

/-- The `float` nearest to `2.7`. -/
theorem narrow_2_7 : narrow (2.7 : K) = 11324621 / 4194304 := by
  rw [narrow_of_near 1 11324621] <;> norm_num

/-- The `float` nearest to `2.8`. -/
theorem narrow_2_8 : narrow (2.8 : K) = 11744051 / 4194304 := by
  rw [narrow_of_near 1 11744051] <;> norm_num

/-- The `float` nearest to `2.9`. -/
theorem narrow_2_9 : narrow (2.9 : K) = 6081741 / 2097152 := by
  rw [narrow_of_near 1 12163482] <;> norm_num

/-- The `float` nearest to `3.0`. -/
theorem narrow_3_0 : narrow (3.0 : K) = 3 := by
  rw [narrow_of_near 1 12582912] <;> norm_num

/-- The `float` nearest to `3.1`. -/
theorem narrow_3_1 : narrow (3.1 : K) = 6501171 / 2097152 := by
  rw [narrow_of_near 1 13002342] <;> norm_num

/-- The `float` nearest to `3.2`. -/
theorem narrow_3_2 : narrow (3.2 : K) = 13421773 / 4194304 := by
  rw [narrow_of_near 1 13421773] <;> norm_num

/-- The `float` nearest to `3.3`. -/
theorem narrow_3_3 : narrow (3.3 : K) = 13841203 / 4194304 := by
  rw [narrow_of_near 1 13841203] <;> norm_num

/-- The `float` nearest to `3.4`. -/
theorem narrow_3_4 : narrow (3.4 : K) = 7130317 / 2097152 := by
  rw [narrow_of_near 1 14260634] <;> norm_num

/-- The `float` nearest to `3.5`. -/
theorem narrow_3_5 : narrow (3.5 : K) = 7 / 2 := by
  rw [narrow_of_near 1 14680064] <;> norm_num

/-- The `float` nearest to `3.6`. -/
theorem narrow_3_6 : narrow (3.6 : K) = 7549747 / 2097152 := by
  rw [narrow_of_near 1 15099494] <;> norm_num

/-- The `float` nearest to `3.7`. -/
theorem narrow_3_7 : narrow (3.7 : K) = 15518925 / 4194304 := by
  rw [narrow_of_near 1 15518925] <;> norm_num

/-- The `float` nearest to `3.8`. -/
theorem narrow_3_8 : narrow (3.8 : K) = 15938355 / 4194304 := by
  rw [narrow_of_near 1 15938355] <;> norm_num

/-- The `float` nearest to `3.9`. -/
theorem narrow_3_9 : narrow (3.9 : K) = 8178893 / 2097152 := by
  rw [narrow_of_near 1 16357786] <;> norm_num

/-- The `float` nearest to `4.0`. -/
theorem narrow_4_0 : narrow (4.0 : K) = 4 := by
  rw [narrow_of_near 2 8388608] <;> norm_num

/-- The `float` nearest to `4.1`. -/
theorem narrow_4_1 : narrow (4.1 : K) = 8598323 / 2097152 := by
  rw [narrow_of_near 2 8598323] <;> norm_num

/-- The `float` nearest to `4.2`. -/
theorem narrow_4_2 : narrow (4.2 : K) = 4404019 / 1048576 := by
  rw [narrow_of_near 2 8808038] <;> norm_num

/-- The `float` nearest to `4.3`. -/
theorem narrow_4_3 : narrow (4.3 : K) = 4508877 / 1048576 := by
  rw [narrow_of_near 2 9017754] <;> norm_num

/-- The `float` nearest to `4.4`. -/
theorem narrow_4_4 : narrow (4.4 : K) = 9227469 / 2097152 := by
  rw [narrow_of_near 2 9227469] <;> norm_num

/-- The `float` nearest to `4.5`. -/
theorem narrow_4_5 : narrow (4.5 : K) = 9 / 2 := by
  rw [narrow_of_near 2 9437184] <;> norm_num

/-- The `float` nearest to `4.6`. -/
theorem narrow_4_6 : narrow (4.6 : K) = 9646899 / 2097152 := by
  rw [narrow_of_near 2 9646899] <;> norm_num

/-- The `float` nearest to `4.7`. -/
theorem narrow_4_7 : narrow (4.7 : K) = 4928307 / 1048576 := by
  rw [narrow_of_near 2 9856614] <;> norm_num

/-- The `float` nearest to `4.8`. -/
theorem narrow_4_8 : narrow (4.8 : K) = 5033165 / 1048576 := by
  rw [narrow_of_near 2 10066330] <;> norm_num

/-- The `float` nearest to `4.9`. -/
theorem narrow_4_9 : narrow (4.9 : K) = 10276045 / 2097152 := by
  rw [narrow_of_near 2 10276045] <;> norm_num

/-- The `float` nearest to `5.0`. -/
theorem narrow_5_0 : narrow (5.0 : K) = 5 := by
  rw [narrow_of_near 2 10485760] <;> norm_num

end NarrowLemmas

section InterpolatorLemmas

variable {K : Type} [LinearOrderedField K]

/-- What a successful scan tells: the index lies in the scanned range, the
coordinate is at most `axis[k+1]`, and above every earlier `axis[j+1]`. -/
theorem scanFrom_some {axis : List K} {x : K} :
    ∀ (fuel i k : Nat), scanFrom axis x fuel i = some k →
      i ≤ k ∧ k < i + fuel ∧ (∃ v, axis[k + 1]? = some v ∧ x ≤ v) ∧
      ∀ j, i ≤ j → j < k → ∃ v, axis[j + 1]? = some v ∧ v < x
  | 0, i, k, h => by simp [scanFrom] at h
  | fuel + 1, i, k, h => by
    unfold scanFrom at h
    cases hv : axis[i + 1]? with
    | none => simp [hv] at h
    | some v =>
      simp only [hv] at h
      by_cases hx : x ≤ v
      · simp only [hx, if_true, Option.some.injEq] at h
        subst h
        exact ⟨le_rfl, by omega, ⟨v, hv, hx⟩, fun j h1 h2 => by omega⟩
      · simp only [hx, if_false] at h
        obtain ⟨h1, h2, h3, h4⟩ := scanFrom_some fuel (i + 1) k h
        refine ⟨by omega, by omega, h3, fun j hj1 hj2 => ?_⟩
        by_cases hji : j = i
        · subst hji
          exact ⟨v, hv, lt_of_not_le hx⟩
        · exact h4 j (by omega) hj2

/-- A scan whose range reaches an index `m` with `x ≤ axis[m+1]` breaks at some
`k ≤ m`: it neither reads past `axis[m+1]` nor leaves the index unassigned. -/
theorem scanFrom_exists {axis : List K} {x : K} (m : Nat) (v : K)
    (hm : axis[m + 1]? = some v) (hx : x ≤ v) :
    ∀ (fuel i : Nat), i ≤ m → m < i + fuel → ∃ k, scanFrom axis x fuel i = some k ∧ k ≤ m
  | 0, i, h1, h2 => by omega
  | fuel + 1, i, h1, h2 => by
    have hlen : m + 1 < axis.length := (List.getElem?_eq_some.mp hm).1
    have hi : i + 1 < axis.length := by omega
    unfold scanFrom
    rw [List.getElem?_eq_getElem hi]
    by_cases hxi : x ≤ axis[i + 1]
    · exact ⟨i, by simp [hxi], h1⟩
    · have hne : i ≠ m := by
        rintro rfl
        rw [List.getElem?_eq_getElem hi] at hm
        exact hxi (by rw [Option.some.inj hm]; exact hx)
      simp only [hxi, if_false]
      exact scanFrom_exists m v hm hx fuel (i + 1) (by omega) (by omega)

omit [LinearOrderedField K] in
/-- Every read inside a table of `r` rows of `c` entries succeeds. -/
theorem at2_some {tab : List (List K)} {r c : Nat}
    (h : tab.map List.length = List.replicate r c) {k l : Nat} (hk : k < r) (hl : l < c) :
    ∃ v, at2 tab k l = some v := by
  have hlen : tab.length = r := by
    have := congrArg List.length h
    simpa using this
  have hk2 : k < tab.length := by omega
  have hrow : (tab[k]).length = c := by
    have h1 := congrArg (fun t => t[k]?) h
    simp [List.getElem?_map, List.getElem?_eq_getElem hk2, List.getElem?_replicate, hk] at h1
    exact h1
  refine ⟨(tab[k])[l], ?_⟩
  simp [at2, List.getElem?_eq_getElem hk2, List.getElem?_eq_getElem (hrow ▸ hl)]

/-- A linear interpolation with weight in `[0, 1]` stays above a common lower bound. -/
theorem lerp_ge {m p q t : K} (ht0 : 0 ≤ t) (ht1 : t ≤ 1) (hp : m ≤ p) (hq : m ≤ q) :
    m ≤ p + (q - p) * t := by
  nlinarith [mul_nonneg (sub_nonneg.2 ht1) (sub_nonneg.2 hp), mul_nonneg ht0 (sub_nonneg.2 hq)]

/-- A linear interpolation with weight in `[0, 1]` stays below a common upper bound. -/
theorem lerp_le {m p q t : K} (ht0 : 0 ≤ t) (ht1 : t ≤ 1) (hp : p ≤ m) (hq : q ≤ m) :
    p + (q - p) * t ≤ m := by
  nlinarith [mul_nonneg (sub_nonneg.2 ht1) (sub_nonneg.2 hp), mul_nonneg ht0 (sub_nonneg.2 hq)]

/-- The interpolation weight of a coordinate in `(x0, x1]` lies in `(0, 1]`. -/
theorem weight_mem {x0 x1 X : K} (h0 : x0 < X) (h1 : X ≤ x1) :
    0 < (X - x0) / (x1 - x0) ∧ (X - x0) / (x1 - x0) ≤ 1 := by
  have hd : 0 < x1 - x0 := by linarith
  exact ⟨div_pos (by linarith) hd, (div_le_one hd).2 (by linarith)⟩

/-- The two-stage bilinear interpolation is a convex combination of its four corners. -/
theorem bilinear_bounds (v1 v2 v3 v4 X Y x0 x1 y0 y1 : K)
    (hx0 : x0 < X) (hx1 : X ≤ x1) (hy0 : y0 < Y) (hy1 : Y ≤ y1) :
    min (min v1 v2) (min v3 v4) ≤ bilinear v1 v2 v3 v4 X Y x0 x1 y0 y1 ∧
    bilinear v1 v2 v3 v4 X Y x0 x1 y0 y1 ≤ max (max v1 v2) (max v3 v4) := by
  obtain ⟨hu0, hu1⟩ := weight_mem hx0 hx1
  obtain ⟨ht0, ht1⟩ := weight_mem hy0 hy1
  simp only [bilinear, mul_div_assoc]
  constructor
  · apply lerp_ge hu0.le hu1
    · exact lerp_ge ht0.le ht1 ((min_le_left _ _).trans (min_le_left _ _))
        ((min_le_right _ _).trans (min_le_left _ _))
    · exact lerp_ge ht0.le ht1 ((min_le_left _ _).trans (min_le_right _ _))
        ((min_le_right _ _).trans (min_le_right _ _))
  · apply lerp_le hu0.le hu1
    · exact lerp_le ht0.le ht1 ((le_max_left _ _).trans (le_max_left _ _))
        ((le_max_left _ _).trans (le_max_right _ _))
    · exact lerp_le ht0.le ht1 ((le_max_right _ _).trans (le_max_left _ _))
        ((le_max_right _ _).trans (le_max_right _ _))

/-- A scan over an axis whose first entry is below the coordinate and whose
entry `m + 1` is at or above it selects a cell `k ≤ m` with
`axis[k] < x ≤ axis[k+1]`. -/
theorem scan_cell {axis : List K} {x lo hi : K} {m n : Nat}
    (h0 : axis[0]? = some lo) (hm : axis[m + 1]? = some hi)
    (hlo : lo < x) (hhi : x ≤ hi) (hn : m < n) :
    ∃ k x0 x1, scan axis n x = some k ∧ k ≤ m ∧ ends axis k = some (x0, x1) ∧
      x0 < x ∧ x ≤ x1 := by
  obtain ⟨k, hk, hkm⟩ := scanFrom_exists m hi hm hhi n 0 (Nat.zero_le _) (by omega)
  obtain ⟨-, -, ⟨x1, hx1, hle⟩, hbelow⟩ := scanFrom_some n 0 k hk
  rcases Nat.eq_zero_or_pos k with hk0 | hkpos
  · subst hk0
    exact ⟨0, lo, x1, hk, hkm, by simp [ends, h0, hx1], hlo, hle⟩
  · obtain ⟨x0, hx0, hlt⟩ := hbelow (k - 1) (Nat.zero_le _) (by omega)
    have hk1 : k - 1 + 1 = k := by omega
    rw [hk1] at hx0
    exact ⟨k, x0, x1, hk, hkm, by simp [ends, hx0, hx1], hlt, hle⟩

omit [LinearOrderedField K] in
/-- The four corner reads of a cell inside the table succeed. -/
theorem corners_some {tab : List (List K)} {r c : Nat}
    (h : tab.map List.length = List.replicate r c) {k l : Nat} (hk : k + 1 < r)
    (hl : l + 1 < c) : ∃ v1 v2 v3 v4, corners tab k l = some (v1, v2, v3, v4) := by
  obtain ⟨v1, h1⟩ := at2_some h (show k < r by omega) (show l < c by omega)
  obtain ⟨v2, h2⟩ := at2_some h hk (show l < c by omega)
  obtain ⟨v3, h3⟩ := at2_some h (show k < r by omega) hl
  obtain ⟨v4, h4⟩ := at2_some h hk hl
  exact ⟨v1, v2, v3, v4, by simp [corners, h1, h2, h3, h4]⟩

/-- The common tail of the interpolators on an in-range pair of coordinates:
both scans select a cell inside the table, every read succeeds, the coordinates
lie in the half-open cell, and the result is the bilinear interpolation of the
cell corners. -/
theorem cell_some (r c : Nat) {sig alp : List (List K)} {ax1 ax2 : List K} {n1 n2 : Nat}
    {lo1 hi1 lo2 hi2 X Y : K}
    (hsig : sig.map List.length = List.replicate (r + 2) (c + 2))
    (halp : alp.map List.length = List.replicate (r + 2) (c + 2))
    (h10 : ax1[0]? = some lo1) (h11 : ax1[r + 1]? = some hi1)
    (h20 : ax2[0]? = some lo2) (h21 : ax2[c + 1]? = some hi2)
    (hn1 : r < n1) (hn2 : c < n2)
    (hX0 : lo1 < X) (hX1 : X ≤ hi1) (hY0 : lo2 < Y) (hY1 : Y ≤ hi2) :
    ∃ k l s1 s2 s3 s4 a1 a2 a3 a4 x0 x1 y0 y1,
      scan ax1 n1 X = some k ∧ scan ax2 n2 Y = some l ∧ k ≤ r ∧ l ≤ c ∧
      corners sig k l = some (s1, s2, s3, s4) ∧ corners alp k l = some (a1, a2, a3, a4) ∧
      ends ax1 k = some (x0, x1) ∧ ends ax2 l = some (y0, y1) ∧
      x0 < X ∧ X ≤ x1 ∧ y0 < Y ∧ Y ≤ y1 ∧
      cell sig alp ax1 ax2 n1 n2 X Y =
        some (bilinear s1 s2 s3 s4 X Y x0 x1 y0 y1, bilinear a1 a2 a3 a4 X Y x0 x1 y0 y1) := by
  obtain ⟨k, x0, x1, hk, hkr, hex, hx0, hx1⟩ := scan_cell h10 h11 hX0 hX1 hn1
  obtain ⟨l, y0, y1, hl, hlc, hey, hy0, hy1⟩ := scan_cell h20 h21 hY0 hY1 hn2
  obtain ⟨s1, s2, s3, s4, hs⟩ := corners_some hsig (show k + 1 < r + 2 by omega)
    (show l + 1 < c + 2 by omega)
  obtain ⟨a1, a2, a3, a4, ha⟩ := corners_some halp (show k + 1 < r + 2 by omega)
    (show l + 1 < c + 2 by omega)
  refine ⟨k, l, s1, s2, s3, s4, a1, a2, a3, a4, x0, x1, y0, y1, hk, hl, hkr, hlc, hs, ha,
    hex, hey, hx0, hx1, hy0, hy1, ?_⟩
  simp [cell, hk, hl, hs, ha, hex, hey]

variable [FloorRing K]

/-- The body of `sp` once both coordinates are assigned. -/
theorem sp_eq {neffl neffh : K} {ll lh : Int} {NS NP : K} (s a charge : K)
    (hS : coord 0 neffl neffh ll lh = some NS) (hP : coord 1 neffl neffh ll lh = some NP) :
    sp neffl neffh ll lh s a charge =
      if NS ≤ 1.0 ∨ NS > 3.0 ∨ NP ≤ 1.3 ∨ NP > 3.0 then some ⟨0, s, a⟩
      else if charge > 1.0 then some ⟨2, s, a⟩
      else (cell (sp.sig K) (sp.alp K) (sp.ns K) (sp.np K) 21 18 NS NP).map
        fun p => ⟨1, p.1, p.2⟩ := by
  simp only [sp, hS, hP]
  by_cases h1 : NS ≤ 1.0 ∨ NS > 3.0
  · simp [h1, or_assoc.symm]
  · by_cases h2 : NP ≤ 1.3 ∨ NP > 3.0
    · simp [h1, h2, or_assoc.symm]
    · have h3 : ¬ (NS ≤ 1.0 ∨ NS > 3.0 ∨ NP ≤ 1.3 ∨ NP > 3.0) := by tauto
      by_cases h4 : charge > 1.0
      · simp [h1, h2, h3, h4]
      · simp [h1, h2, h3, h4]
        cases cell (sp.sig K) (sp.alp K) (sp.ns K) (sp.np K) 21 18 NS NP <;> rfl

/-- The tail of `sp` on in-range coordinates: the cell found by the scans, its
corners and the interpolated pair. -/
theorem sp_cell (NS NP : K) (h1 : 1.0 < NS) (h2 : NS ≤ 3.0) (h3 : 1.3 < NP) (h4 : NP ≤ 3.0) :
    ∃ k l s1 s2 s3 s4 a1 a2 a3 a4 x0 x1 y0 y1,
      scan (sp.ns K) 21 NS = some k ∧ scan (sp.np K) 18 NP = some l ∧ k ≤ 19 ∧ l ≤ 16 ∧
      corners (sp.sig K) k l = some (s1, s2, s3, s4) ∧
      corners (sp.alp K) k l = some (a1, a2, a3, a4) ∧
      ends (sp.ns K) k = some (x0, x1) ∧ ends (sp.np K) l = some (y0, y1) ∧
      x0 < NS ∧ NS ≤ x1 ∧ y0 < NP ∧ NP ≤ y1 ∧
      cell (sp.sig K) (sp.alp K) (sp.ns K) (sp.np K) 21 18 NS NP =
        some (bilinear s1 s2 s3 s4 NS NP x0 x1 y0 y1, bilinear a1 a2 a3 a4 NS NP x0 x1 y0 y1) :=
  cell_some 19 16 (by rfl) (by rfl)
    (show (sp.ns K)[0]? = some (narrow 1.0) from rfl)
    (show (sp.ns K)[19 + 1]? = some (narrow 3.0) from rfl)
    (show (sp.np K)[0]? = some (narrow 1.3) from rfl)
    (show (sp.np K)[16 + 1]? = some (narrow 3.0) from rfl) (by decide) (by decide)
    (by rw [narrow_1_0]; exact lt_of_le_of_lt (by norm_num) h1)
    (by rw [narrow_3_0]; exact le_trans h2 (by norm_num))
    (by rw [narrow_1_3]; exact lt_of_le_of_lt (by norm_num) h3)
    (by rw [narrow_3_0]; exact le_trans h4 (by norm_num))

/-- The body of `pd` once both coordinates are assigned. -/
theorem pd_eq {neffl neffh : K} {ll lh : Int} {NP ND : K} (s a charge : K)
    (hX : coord 1 neffl neffh ll lh = some NP) (hY : coord 2 neffl neffh ll lh = some ND) :
    pd neffl neffh ll lh s a charge =
      if NP ≤ 1.3 ∨ NP > 3.0 ∨ ND ≤ 2.3 ∨ ND > 4.0 then some ⟨0, s, a⟩
      else if charge > 1.0 then some ⟨2, s, a⟩
      else (cell (pd.sig K) (pd.alp K) (pd.np K) (pd.nd K) 18 18 NP ND).map
        fun p => ⟨1, p.1, p.2⟩ := by
  simp only [pd, hX, hY]
  by_cases h1 : NP ≤ 1.3 ∨ NP > 3.0
  · simp [h1, or_assoc.symm]
  · by_cases h2 : ND ≤ 2.3 ∨ ND > 4.0
    · simp [h1, h2, or_assoc.symm]
    · have h3 : ¬ (NP ≤ 1.3 ∨ NP > 3.0 ∨ ND ≤ 2.3 ∨ ND > 4.0) := by tauto
      by_cases h4 : charge > 1.0
      · simp [h1, h2, h3, h4]
      · simp [h1, h2, h3, h4]
        cases cell (pd.sig K) (pd.alp K) (pd.np K) (pd.nd K) 18 18 NP ND <;> rfl

/-- The tail of `pd` on in-range coordinates: the cell found by the scans, its
corners and the interpolated pair. -/
theorem pd_cell (NP ND : K) (h1 : 1.3 < NP) (h2 : NP ≤ 3.0) (h3 : 2.3 < ND) (h4 : ND ≤ 4.0) :
    ∃ k l s1 s2 s3 s4 a1 a2 a3 a4 x0 x1 y0 y1,
      scan (pd.np K) 18 NP = some k ∧ scan (pd.nd K) 18 ND = some l ∧ k ≤ 16 ∧ l ≤ 16 ∧
      corners (pd.sig K) k l = some (s1, s2, s3, s4) ∧
      corners (pd.alp K) k l = some (a1, a2, a3, a4) ∧
      ends (pd.np K) k = some (x0, x1) ∧ ends (pd.nd K) l = some (y0, y1) ∧
      x0 < NP ∧ NP ≤ x1 ∧ y0 < ND ∧ ND ≤ y1 ∧
      cell (pd.sig K) (pd.alp K) (pd.np K) (pd.nd K) 18 18 NP ND =
        some (bilinear s1 s2 s3 s4 NP ND x0 x1 y0 y1, bilinear a1 a2 a3 a4 NP ND x0 x1 y0 y1) :=
  cell_some 16 16 (by rfl) (by rfl)
    (show (pd.np K)[0]? = some (narrow 1.3) from rfl)
    (show (pd.np K)[16 + 1]? = some (narrow 3.0) from rfl)
    (show (pd.nd K)[0]? = some (narrow 2.3) from rfl)
    (show (pd.nd K)[16 + 1]? = some (narrow 4.0) from rfl) (by decide) (by decide)
    (by rw [narrow_1_3]; exact lt_of_le_of_lt (by norm_num) h1)
    (by rw [narrow_3_0]; exact le_trans h2 (by norm_num))
    (by rw [narrow_2_3]; exact lt_of_le_of_lt (by norm_num) h3)
    (by rw [narrow_4_0]; exact le_trans h4 (by norm_num))

/-- The body of `df` once both coordinates are assigned. -/
theorem df_eq {neffl neffh : K} {ll lh : Int} {ND NF : K} (s a charge : K)
    (hX : coord 2 neffl neffh ll lh = some ND) (hY : coord 3 neffl neffh ll lh = some NF) :
    df neffl neffh ll lh s a charge =
      if ND ≤ 2.3 ∨ ND > 4.0 ∨ NF ≤ 3.3 ∨ NF > 5.0 then some ⟨0, s, a⟩
      else if charge > 1.0 then some ⟨2, s, a⟩
      else (cell (df.sig K) (df.alp K) (df.nd K) (df.nf K) 18 18 ND NF).map
        fun p => ⟨1, p.1, p.2⟩ := by
  simp only [df, hX, hY]
  by_cases h1 : ND ≤ 2.3 ∨ ND > 4.0
  · simp [h1, or_assoc.symm]
  · by_cases h2 : NF ≤ 3.3 ∨ NF > 5.0
    · simp [h1, h2, or_assoc.symm]
    · have h3 : ¬ (ND ≤ 2.3 ∨ ND > 4.0 ∨ NF ≤ 3.3 ∨ NF > 5.0) := by tauto
      by_cases h4 : charge > 1.0
      · simp [h1, h2, h3, h4]
      · simp [h1, h2, h3, h4]
        cases cell (df.sig K) (df.alp K) (df.nd K) (df.nf K) 18 18 ND NF <;> rfl

/-- The tail of `df` on in-range coordinates: the cell found by the scans, its
corners and the interpolated pair. -/
theorem df_cell (ND NF : K) (h1 : 2.3 < ND) (h2 : ND ≤ 4.0) (h3 : 3.3 < NF) (h4 : NF ≤ 5.0) :
    ∃ k l s1 s2 s3 s4 a1 a2 a3 a4 x0 x1 y0 y1,
      scan (df.nd K) 18 ND = some k ∧ scan (df.nf K) 18 NF = some l ∧ k ≤ 16 ∧ l ≤ 16 ∧
      corners (df.sig K) k l = some (s1, s2, s3, s4) ∧
      corners (df.alp K) k l = some (a1, a2, a3, a4) ∧
      ends (df.nd K) k = some (x0, x1) ∧ ends (df.nf K) l = some (y0, y1) ∧
      x0 < ND ∧ ND ≤ x1 ∧ y0 < NF ∧ NF ≤ y1 ∧
      cell (df.sig K) (df.alp K) (df.nd K) (df.nf K) 18 18 ND NF =
        some (bilinear s1 s2 s3 s4 ND NF x0 x1 y0 y1, bilinear a1 a2 a3 a4 ND NF x0 x1 y0 y1) :=
  cell_some 16 16 (by rfl) (by rfl)
    (show (df.nd K)[0]? = some (narrow 2.3) from rfl)
    (show (df.nd K)[16 + 1]? = some (narrow 4.0) from rfl)
    (show (df.nf K)[0]? = some (narrow 3.3) from rfl)
    (show (df.nf K)[16 + 1]? = some (narrow 5.0) from rfl) (by decide) (by decide)
    (by rw [narrow_2_3]; exact lt_of_le_of_lt (by norm_num) h1)
    (by rw [narrow_4_0]; exact le_trans h2 (by norm_num))
    (by rw [narrow_3_3]; exact lt_of_le_of_lt (by norm_num) h3)
    (by rw [narrow_5_0]; exact le_trans h4 (by norm_num))

end InterpolatorLemmas

section BroadLemmas

variable {K : Type} [LinearOrderedField K]

/-- The `"AI"` loop in closed form: `dopp[i]` is written for `i < n`, nothing else changes. -/
theorem forLoop_stepAI (M : MathFns K) (model : Atmosphere K) (ln : Linedata K) (n : Nat) :
    forLoop (stepAI M model) n ln =
      { ln with dopp := fun i => if i < n then doppAt M model ln i else ln.dopp i } := by
  induction n with
  | zero => simp [forLoop]
  | succ n ih =>
    simp only [forLoop, ih, stepAI, doppAt]
    congr 1
    funext i
    by_cases h : i = n
    · subst h; simp
    · have : (i < n + 1) = (i < n) := by
        apply propext; omega
      simp [Function.update, h, this]

/-- The atomic loop in closed form. -/
theorem forLoop_stepAtom (M : MathFns K) (model : Atmosphere K) (fac : K) (flago : Int)
    (alp OMara C64 neffh5 gammar : K) (ln : Linedata K) (n : Nat) :
    forLoop (stepAtom M model fac flago alp OMara C64 neffh5 gammar) n ln =
      { ln with
        dopp := fun i => if i < n then doppAt M model ln i else ln.dopp i
        dlg := fun i => if i < n ∧ flago ≠ 4 then 1.0 else ln.dlg i
        a := fun i =>
          if i < n then
            (gammar + gammawAtom M model ln fac flago alp OMara C64 i
              + gammasAtom model ln flago neffh5 i) * ln.wave * 1.0e-08
              / (12.5636 * doppAt M model ln i)
          else ln.a i } := by
  induction n with
  | zero => simp [forLoop]
  | succ n ih =>
    simp only [forLoop, ih, stepAtom, doppAt, gammawAtom, gammasAtom]
    by_cases h4 : flago = 4
    · simp only [h4, if_true]
      congr 1
      · funext i
        by_cases h : i = n
        · subst h; simp
        · have : (i < n + 1) = (i < n) := by
            apply propext; omega
          simp [Function.update, h, this]
      · funext i
        by_cases h : i = n
        · subst h; simp
        · have : (i < n + 1) = (i < n) := by
            apply propext; omega
          simp [Function.update, h, this]
      · funext i
        simp
    · simp only [h4, if_false]
      congr 1
      · funext i
        by_cases h : i = n
        · subst h; simp
        · have : (i < n + 1) = (i < n) := by
            apply propext; omega
          simp [Function.update, h, this]
      · funext i
        by_cases h : i = n
        · subst h; simp
        · have : (i < n + 1) = (i < n) := by
            apply propext; omega
          simp [Function.update, h, this]
      · funext i
        by_cases h : i = n
        · subst h; simp [h4]
        · have : (i < n + 1) = (i < n) := by
            apply propext; omega
          simp [Function.update, h, this]

/-- The molecular loop in closed form. -/
theorem forLoop_stepMol (M : MathFns K) (model : Atmosphere K) (gammar : K)
    (ln : Linedata K) (n : Nat) :
    forLoop (stepMol M model gammar) n ln =
      { ln with
        dopp := fun i => if i < n then doppAt M model ln i else ln.dopp i
        a := fun i =>
          if i < n then
            (gammar + 1.0e-07 * model.NHI i + 1.0e-05 * model.Ne i) * ln.wave * 1.0e-08
              / (12.5636 * doppAt M model ln i)
          else ln.a i } := by
  induction n with
  | zero => simp [forLoop]
  | succ n ih =>
    simp only [forLoop, ih, stepMol, doppAt]
    congr 1
    · funext i
      by_cases h : i = n
      · subst h; simp
      · have : (i < n + 1) = (i < n) := by
          apply propext; omega
        simp [Function.update, h, this]
    · funext i
      by_cases h : i = n
      · subst h; simp
      · have : (i < n + 1) = (i < n) := by
          apply propext; omega
        simp [Function.update, h, this]

end BroadLemmas

section InterpolatorSpecs

variable {K : Type} [LinearOrderedField K] [FloorRing K]

/-- Out of its grid, `sp` returns status 0 and leaves `*s` and `*a` alone. -/
theorem sp_out {neffl neffh : K} {ll lh : Int} {NS NP : K} (s a charge : K)
    (hX : coord 0 neffl neffh ll lh = some NS) (hY : coord 1 neffl neffh ll lh = some NP)
    (h : NS ≤ 1.0 ∨ NS > 3.0 ∨ NP ≤ 1.3 ∨ NP > 3.0) :
    sp neffl neffh ll lh s a charge = some ⟨0, s, a⟩ := by
  rw [sp_eq s a charge hX hY, if_pos h]

/-- Inside its grid and with `charge > 1`, `sp` returns status 2 and leaves `*s` and `*a` alone. -/
theorem sp_ion {neffl neffh : K} {ll lh : Int} {NS NP : K} (s a charge : K)
    (hX : coord 0 neffl neffh ll lh = some NS) (hY : coord 1 neffl neffh ll lh = some NP)
    (h : ¬ (NS ≤ 1.0 ∨ NS > 3.0 ∨ NP ≤ 1.3 ∨ NP > 3.0)) (hc : charge > 1.0) :
    sp neffl neffh ll lh s a charge = some ⟨2, s, a⟩ := by
  rw [sp_eq s a charge hX hY, if_neg h, if_pos hc]

/-- Inside its grid and with `charge ≤ 1`, `sp` returns status 1 and the
bilinear interpolation over the cell that the scans select. -/
theorem sp_in {neffl neffh : K} {ll lh : Int} {NS NP : K} (s a charge : K)
    (hX : coord 0 neffl neffh ll lh = some NS) (hY : coord 1 neffl neffh ll lh = some NP)
    (h : ¬ (NS ≤ 1.0 ∨ NS > 3.0 ∨ NP ≤ 1.3 ∨ NP > 3.0)) (hc : ¬ charge > 1.0) :
    ∃ k l s1 s2 s3 s4 a1 a2 a3 a4 x0 x1 y0 y1,
      scan (sp.ns K) 21 NS = some k ∧ scan (sp.np K) 18 NP = some l ∧ k ≤ 19 ∧ l ≤ 16 ∧
      corners (sp.sig K) k l = some (s1, s2, s3, s4) ∧
      corners (sp.alp K) k l = some (a1, a2, a3, a4) ∧
      ends (sp.ns K) k = some (x0, x1) ∧ ends (sp.np K) l = some (y0, y1) ∧
      x0 < NS ∧ NS ≤ x1 ∧ y0 < NP ∧ NP ≤ y1 ∧
      sp neffl neffh ll lh s a charge =
        some ⟨1, bilinear s1 s2 s3 s4 NS NP x0 x1 y0 y1, bilinear a1 a2 a3 a4 NS NP x0 x1 y0 y1⟩ := by
  simp only [not_or, not_le, gt_iff_lt, not_lt] at h
  obtain ⟨k, l, s1, s2, s3, s4, a1, a2, a3, a4, x0, x1, y0, y1, hk, hl, hkr, hlc, hs, ha, hex,
    hey, hx0, hx1, hy0, hy1, hcell⟩ := sp_cell NS NP h.1 h.2.1 h.2.2.1 h.2.2.2
  refine ⟨k, l, s1, s2, s3, s4, a1, a2, a3, a4, x0, x1, y0, y1, hk, hl, hkr, hlc, hs, ha, hex,
    hey, hx0, hx1, hy0, hy1, ?_⟩
  have h' : ¬ (NS ≤ 1.0 ∨ NS > 3.0 ∨ NP ≤ 1.3 ∨ NP > 3.0) := by
    simp only [not_or, not_le, gt_iff_lt, not_lt]
    exact h
  rw [sp_eq s a charge hX hY, if_neg h', if_neg hc, hcell]
  rfl

/-- With both coordinates assigned, `sp` returns, and its status is 0, 1 or 2. -/
theorem sp_total {neffl neffh : K} {ll lh : Int} {NS NP : K} (s a charge : K)
    (hX : coord 0 neffl neffh ll lh = some NS) (hY : coord 1 neffl neffh ll lh = some NP) :
    ∃ r, sp neffl neffh ll lh s a charge = some r ∧
      (r.status = 0 ∨ r.status = 1 ∨ r.status = 2) := by
  by_cases h : NS ≤ 1.0 ∨ NS > 3.0 ∨ NP ≤ 1.3 ∨ NP > 3.0
  · exact ⟨_, sp_out s a charge hX hY h, Or.inl rfl⟩
  · by_cases hc : charge > 1.0
    · exact ⟨_, sp_ion s a charge hX hY h hc, Or.inr (Or.inr rfl)⟩
    · obtain ⟨k, l, s1, s2, s3, s4, a1, a2, a3, a4, x0, x1, y0, y1, -, -, -, -, -, -, -, -, -, -,
        -, -, hr⟩ := sp_in s a charge hX hY h hc
      exact ⟨_, hr, Or.inr (Or.inl rfl)⟩

/-- Out of its grid, `pd` returns status 0 and leaves `*s` and `*a` alone. -/
theorem pd_out {neffl neffh : K} {ll lh : Int} {NP ND : K} (s a charge : K)
    (hX : coord 1 neffl neffh ll lh = some NP) (hY : coord 2 neffl neffh ll lh = some ND)
    (h : NP ≤ 1.3 ∨ NP > 3.0 ∨ ND ≤ 2.3 ∨ ND > 4.0) :
    pd neffl neffh ll lh s a charge = some ⟨0, s, a⟩ := by
  rw [pd_eq s a charge hX hY, if_pos h]

/-- Inside its grid and with `charge > 1`, `pd` returns status 2 and leaves `*s` and `*a` alone. -/
theorem pd_ion {neffl neffh : K} {ll lh : Int} {NP ND : K} (s a charge : K)
    (hX : coord 1 neffl neffh ll lh = some NP) (hY : coord 2 neffl neffh ll lh = some ND)
    (h : ¬ (NP ≤ 1.3 ∨ NP > 3.0 ∨ ND ≤ 2.3 ∨ ND > 4.0)) (hc : charge > 1.0) :
    pd neffl neffh ll lh s a charge = some ⟨2, s, a⟩ := by
  rw [pd_eq s a charge hX hY, if_neg h, if_pos hc]

/-- Inside its grid and with `charge ≤ 1`, `pd` returns status 1 and the
bilinear interpolation over the cell that the scans select. -/
theorem pd_in {neffl neffh : K} {ll lh : Int} {NP ND : K} (s a charge : K)
    (hX : coord 1 neffl neffh ll lh = some NP) (hY : coord 2 neffl neffh ll lh = some ND)
    (h : ¬ (NP ≤ 1.3 ∨ NP > 3.0 ∨ ND ≤ 2.3 ∨ ND > 4.0)) (hc : ¬ charge > 1.0) :
    ∃ k l s1 s2 s3 s4 a1 a2 a3 a4 x0 x1 y0 y1,
      scan (pd.np K) 18 NP = some k ∧ scan (pd.nd K) 18 ND = some l ∧ k ≤ 16 ∧ l ≤ 16 ∧
      corners (pd.sig K) k l = some (s1, s2, s3, s4) ∧
      corners (pd.alp K) k l = some (a1, a2, a3, a4) ∧
      ends (pd.np K) k = some (x0, x1) ∧ ends (pd.nd K) l = some (y0, y1) ∧
      x0 < NP ∧ NP ≤ x1 ∧ y0 < ND ∧ ND ≤ y1 ∧
      pd neffl neffh ll lh s a charge =
        some ⟨1, bilinear s1 s2 s3 s4 NP ND x0 x1 y0 y1, bilinear a1 a2 a3 a4 NP ND x0 x1 y0 y1⟩ := by
  simp only [not_or, not_le, gt_iff_lt, not_lt] at h
  obtain ⟨k, l, s1, s2, s3, s4, a1, a2, a3, a4, x0, x1, y0, y1, hk, hl, hkr, hlc, hs, ha, hex,
    hey, hx0, hx1, hy0, hy1, hcell⟩ := pd_cell NP ND h.1 h.2.1 h.2.2.1 h.2.2.2
  refine ⟨k, l, s1, s2, s3, s4, a1, a2, a3, a4, x0, x1, y0, y1, hk, hl, hkr, hlc, hs, ha, hex,
    hey, hx0, hx1, hy0, hy1, ?_⟩
  have h' : ¬ (NP ≤ 1.3 ∨ NP > 3.0 ∨ ND ≤ 2.3 ∨ ND > 4.0) := by
    simp only [not_or, not_le, gt_iff_lt, not_lt]
    exact h
  rw [pd_eq s a charge hX hY, if_neg h', if_neg hc, hcell]
  rfl

/-- With both coordinates assigned, `pd` returns, and its status is 0, 1 or 2. -/
theorem pd_total {neffl neffh : K} {ll lh : Int} {NP ND : K} (s a charge : K)
    (hX : coord 1 neffl neffh ll lh = some NP) (hY : coord 2 neffl neffh ll lh = some ND) :
    ∃ r, pd neffl neffh ll lh s a charge = some r ∧
      (r.status = 0 ∨ r.status = 1 ∨ r.status = 2) := by
  by_cases h : NP ≤ 1.3 ∨ NP > 3.0 ∨ ND ≤ 2.3 ∨ ND > 4.0
  · exact ⟨_, pd_out s a charge hX hY h, Or.inl rfl⟩
  · by_cases hc : charge > 1.0
    · exact ⟨_, pd_ion s a charge hX hY h hc, Or.inr (Or.inr rfl)⟩
    · obtain ⟨k, l, s1, s2, s3, s4, a1, a2, a3, a4, x0, x1, y0, y1, -, -, -, -, -, -, -, -, -, -,
        -, -, hr⟩ := pd_in s a charge hX hY h hc
      exact ⟨_, hr, Or.inr (Or.inl rfl)⟩

/-- Out of its grid, `df` returns status 0 and leaves `*s` and `*a` alone. -/
theorem df_out {neffl neffh : K} {ll lh : Int} {ND NF : K} (s a charge : K)
    (hX : coord 2 neffl neffh ll lh = some ND) (hY : coord 3 neffl neffh ll lh = some NF)
    (h : ND ≤ 2.3 ∨ ND > 4.0 ∨ NF ≤ 3.3 ∨ NF > 5.0) :
    df neffl neffh ll lh s a charge = some ⟨0, s, a⟩ := by
  rw [df_eq s a charge hX hY, if_pos h]

/-- Inside its grid and with `charge > 1`, `df` returns status 2 and leaves `*s` and `*a` alone. -/
theorem df_ion {neffl neffh : K} {ll lh : Int} {ND NF : K} (s a charge : K)
    (hX : coord 2 neffl neffh ll lh = some ND) (hY : coord 3 neffl neffh ll lh = some NF)
    (h : ¬ (ND ≤ 2.3 ∨ ND > 4.0 ∨ NF ≤ 3.3 ∨ NF > 5.0)) (hc : charge > 1.0) :
    df neffl neffh ll lh s a charge = some ⟨2, s, a⟩ := by
  rw [df_eq s a charge hX hY, if_neg h, if_pos hc]

/-- Inside its grid and with `charge ≤ 1`, `df` returns status 1 and the
bilinear interpolation over the cell that the scans select. -/
theorem df_in {neffl neffh : K} {ll lh : Int} {ND NF : K} (s a charge : K)
    (hX : coord 2 neffl neffh ll lh = some ND) (hY : coord 3 neffl neffh ll lh = some NF)
    (h : ¬ (ND ≤ 2.3 ∨ ND > 4.0 ∨ NF ≤ 3.3 ∨ NF > 5.0)) (hc : ¬ charge > 1.0) :
    ∃ k l s1 s2 s3 s4 a1 a2 a3 a4 x0 x1 y0 y1,
      scan (df.nd K) 18 ND = some k ∧ scan (df.nf K) 18 NF = some l ∧ k ≤ 16 ∧ l ≤ 16 ∧
      corners (df.sig K) k l = some (s1, s2, s3, s4) ∧
      corners (df.alp K) k l = some (a1, a2, a3, a4) ∧
      ends (df.nd K) k = some (x0, x1) ∧ ends (df.nf K) l = some (y0, y1) ∧
      x0 < ND ∧ ND ≤ x1 ∧ y0 < NF ∧ NF ≤ y1 ∧
      df neffl neffh ll lh s a charge =
        some ⟨1, bilinear s1 s2 s3 s4 ND NF x0 x1 y0 y1, bilinear a1 a2 a3 a4 ND NF x0 x1 y0 y1⟩ := by
  simp only [not_or, not_le, gt_iff_lt, not_lt] at h
  obtain ⟨k, l, s1, s2, s3, s4, a1, a2, a3, a4, x0, x1, y0, y1, hk, hl, hkr, hlc, hs, ha, hex,
    hey, hx0, hx1, hy0, hy1, hcell⟩ := df_cell ND NF h.1 h.2.1 h.2.2.1 h.2.2.2
  refine ⟨k, l, s1, s2, s3, s4, a1, a2, a3, a4, x0, x1, y0, y1, hk, hl, hkr, hlc, hs, ha, hex,
    hey, hx0, hx1, hy0, hy1, ?_⟩
  have h' : ¬ (ND ≤ 2.3 ∨ ND > 4.0 ∨ NF ≤ 3.3 ∨ NF > 5.0) := by
    simp only [not_or, not_le, gt_iff_lt, not_lt]
    exact h
  rw [df_eq s a charge hX hY, if_neg h', if_neg hc, hcell]
  rfl

/-- With both coordinates assigned, `df` returns, and its status is 0, 1 or 2. -/
theorem df_total {neffl neffh : K} {ll lh : Int} {ND NF : K} (s a charge : K)
    (hX : coord 2 neffl neffh ll lh = some ND) (hY : coord 3 neffl neffh ll lh = some NF) :
    ∃ r, df neffl neffh ll lh s a charge = some r ∧
      (r.status = 0 ∨ r.status = 1 ∨ r.status = 2) := by
  by_cases h : ND ≤ 2.3 ∨ ND > 4.0 ∨ NF ≤ 3.3 ∨ NF > 5.0
  · exact ⟨_, df_out s a charge hX hY h, Or.inl rfl⟩
  · by_cases hc : charge > 1.0
    · exact ⟨_, df_ion s a charge hX hY h hc, Or.inr (Or.inr rfl)⟩
    · obtain ⟨k, l, s1, s2, s3, s4, a1, a2, a3, a4, x0, x1, y0, y1, -, -, -, -, -, -, -, -, -, -,
        -, -, hr⟩ := df_in s a charge hX hY h hc
      exact ⟨_, hr, Or.inr (Or.inl rfl)⟩

end InterpolatorSpecs

section BroadSpecs

variable {K : Type} [LinearOrderedField K] [FloorRing K]

omit [LinearOrderedField K] [FloorRing K] in
/-- A tag branch that goes through a table interpolator always yields a regime,
whose flag is 0, 1 or 2 without literals and the incoming flag otherwise. -/
theorem viaTable_some {f : K → K → Int → Int → K → K → K → Option (Interp K)}
    {neffl neffh charge : K} {ll lh : Int} (lit : Literals K)
    (hf : ∀ s a, ∃ r, f neffl neffh ll lh s a charge = some r ∧
      (r.status = 0 ∨ r.status = 1 ∨ r.status = 2)) :
    ∃ rg, viaTable f neffl neffh charge ll lh lit = some rg ∧ rg.ll = ll ∧ rg.lh = lh ∧
      (lit.flagS = 0 → rg.flago = 0 ∨ rg.flago = 1 ∨ rg.flago = 2) ∧
      (lit.flagS ≠ 0 → rg.flago = lit.flago ∧ rg.sig = lit.sig ∧ rg.alp = lit.alp) := by
  by_cases hS : lit.flagS = 0
  · obtain ⟨r, hr, hst⟩ := hf lit.sig lit.alp
    exact ⟨⟨ll, lh, r.status, r.s, r.a⟩, by simp [viaTable, hS, hr], rfl, rfl, fun _ => hst,
      fun h => absurd hS h⟩
  · exact ⟨⟨ll, lh, lit.flago, lit.sig, lit.alp⟩, by simp [viaTable, hS], rfl, rfl,
      fun h => absurd h hS, fun _ => ⟨rfl, rfl, rfl⟩⟩

/-- The tag branches `"01"` and `"10"` always get a result from `sp`. -/
theorem sp_total_broad (neffl neffh charge : K) :
    (∀ s a, ∃ r, sp neffl neffh 0 1 s a charge = some r ∧
      (r.status = 0 ∨ r.status = 1 ∨ r.status = 2)) ∧
    (∀ s a, ∃ r, sp neffl neffh 1 0 s a charge = some r ∧
      (r.status = 0 ∨ r.status = 1 ∨ r.status = 2)) :=
  ⟨fun s a => sp_total s a charge
      (show coord 0 neffl neffh 0 1 = some (narrow neffl) by simp [coord])
      (show coord 1 neffl neffh 0 1 = some (narrow neffh) by simp [coord]),
   fun s a => sp_total s a charge
      (show coord 0 neffl neffh 1 0 = some (narrow neffh) by simp [coord])
      (show coord 1 neffl neffh 1 0 = some (narrow neffl) by simp [coord])⟩

/-- The tag branches `"12"` and `"21"` always get a result from `pd`. -/
theorem pd_total_broad (neffl neffh charge : K) :
    (∀ s a, ∃ r, pd neffl neffh 1 2 s a charge = some r ∧
      (r.status = 0 ∨ r.status = 1 ∨ r.status = 2)) ∧
    (∀ s a, ∃ r, pd neffl neffh 2 1 s a charge = some r ∧
      (r.status = 0 ∨ r.status = 1 ∨ r.status = 2)) :=
  ⟨fun s a => pd_total s a charge
      (show coord 1 neffl neffh 1 2 = some (narrow neffl) by simp [coord])
      (show coord 2 neffl neffh 1 2 = some (narrow neffh) by simp [coord]),
   fun s a => pd_total s a charge
      (show coord 1 neffl neffh 2 1 = some (narrow neffh) by simp [coord])
      (show coord 2 neffl neffh 2 1 = some (narrow neffl) by simp [coord])⟩

/-- The tag branches `"23"` and `"32"` always get a result from `df`. -/
theorem df_total_broad (neffl neffh charge : K) :
    (∀ s a, ∃ r, df neffl neffh 2 3 s a charge = some r ∧
      (r.status = 0 ∨ r.status = 1 ∨ r.status = 2)) ∧
    (∀ s a, ∃ r, df neffl neffh 3 2 s a charge = some r ∧
      (r.status = 0 ∨ r.status = 1 ∨ r.status = 2)) :=
  ⟨fun s a => df_total s a charge
      (show coord 2 neffl neffh 2 3 = some (narrow neffl) by simp [coord])
      (show coord 3 neffl neffh 2 3 = some (narrow neffh) by simp [coord]),
   fun s a => df_total s a charge
      (show coord 2 neffl neffh 3 2 = some (narrow neffh) by simp [coord])
      (show coord 3 neffl neffh 3 2 = some (narrow neffl) by simp [coord])⟩

omit [LinearOrderedField K] [FloorRing K] in
/-- A conditional between two defined options is defined. -/
theorem ite_some {α : Type} {c : Prop} [Decidable c] {a b : Option α}
    (ha : ∃ x, a = some x) (hb : ∃ x, b = some x) : ∃ x, (if c then a else b) = some x := by
  by_cases h : c
  · rw [if_pos h]; exact ha
  · rw [if_neg h]; exact hb

/-- The chain of tag tests always yields a regime. -/
theorem classify_some (ln : Linedata K) (neffl neffh charge : K) (lit : Literals K) :
    ∃ rg, classify ln neffl neffh charge lit = some rg := by
  have hsp := sp_total_broad neffl neffh charge
  have hpd := pd_total_broad neffl neffh charge
  have hdf := df_total_broad neffl neffh charge
  have via : ∀ {f : K → K → Int → Int → K → K → K → Option (Interp K)} {ll lh : Int},
      (∀ s a, ∃ r, f neffl neffh ll lh s a charge = some r ∧
        (r.status = 0 ∨ r.status = 1 ∨ r.status = 2)) →
      ∃ rg, viaTable f neffl neffh charge ll lh lit = some rg := fun hf =>
    let ⟨rg, h, _⟩ := viaTable_some lit hf
    ⟨rg, h⟩
  unfold classify
  refine ite_some ⟨_, rfl⟩ ?_
  refine ite_some (via hsp.1) ?_
  refine ite_some (via hsp.2) ?_
  refine ite_some (via hpd.1) ?_
  refine ite_some (via hpd.2) ?_
  refine ite_some (via hdf.1) ?_
  refine ite_some (via hdf.2) ?_
  refine ite_some ⟨_, rfl⟩ ?_
  refine ite_some ⟨_, rfl⟩ ?_
  refine ite_some ⟨_, rfl⟩ ?_
  refine ite_some ⟨_, rfl⟩ ?_
  refine ite_some ⟨_, rfl⟩ ?_
  refine ite_some ⟨_, rfl⟩ ?_
  refine ite_some ⟨_, rfl⟩ ?_
  exact ite_some ⟨_, rfl⟩ ⟨_, rfl⟩

/-- The `"AI"` branch of `broad` in closed form. -/
theorem broad_AI (M : MathFns K) (Ntau : Nat) (model : Atmosphere K)
    (line : Nat → Linedata K) (N : Nat) (Sig Alp fac sigU alpU : K)
    (hT : (line N).T = "AI") :
    broad M Ntau model line N Sig Alp fac sigU alpU =
      some (Function.update line N
        { line N with
          dopp := fun i => if i < Ntau then doppAt M model (line N) i else (line N).dopp i }) := by
  simp only [broad, hT, if_true, forLoop_stepAI]

/-- The molecular branch of `broad` in closed form. -/
theorem broad_mol (M : MathFns K) (Ntau : Nat) (model : Atmosphere K)
    (line : Nat → Linedata K) (N : Nat) (Sig Alp fac sigU alpU : K)
    (hT : (line N).T ≠ "AI") (hc : ¬ (line N).code < 100.0) :
    broad M Ntau model line N Sig Alp fac sigU alpU =
      some (Function.update line N
        { line N with
          dopp := fun i => if i < Ntau then doppAt M model (line N) i else (line N).dopp i
          a := fun i =>
            if i < Ntau then
              (2.223e+15 / ((line N).wave * (line N).wave) + 1.0e-07 * model.NHI i
                + 1.0e-05 * model.Ne i) * (line N).wave * 1.0e-08
                / (12.5636 * doppAt M model (line N) i)
            else (line N).a i }) := by
  simp only [broad, hT, if_false, hc, broadMol, forLoop_stepMol]

/-- The atomic branch of `broad` in closed form, for the regime `rg` that the
tag tests yield. -/
theorem broad_atom (M : MathFns K) (Ntau : Nat) (model : Atmosphere K)
    (line : Nat → Linedata K) (N : Nat) (Sig Alp fac sigU alpU : K) (rg : Regime K)
    (hT : (line N).T ≠ "AI") (hc : (line N).code < 100.0)
    (hrg : classify (line N) (neff M (line N) (chargeOf (line N).code)).1
      (neff M (line N) (chargeOf (line N).code)).2 (chargeOf (line N).code)
      (literals Sig Alp sigU alpU) = some rg) :
    broad M Ntau model line N Sig Alp fac sigU alpU =
      some (Function.update line N
        { line N with
          dopp := fun i => if i < Ntau then doppAt M model (line N) i else (line N).dopp i
          dlg := fun i => if i < Ntau ∧ rg.flago ≠ 4 then 1.0 else (line N).dlg i
          a := fun i =>
            if i < Ntau then
              (gammarAtom (line N) rg.flago
                + gammawAtom M model (line N) fac rg.flago rg.alp (omara M rg)
                    (c64 M rg (neff M (line N) (chargeOf (line N).code)).1
                      (neff M (line N) (chargeOf (line N).code)).2 (chargeOf (line N).code)) i
                + gammasAtom model (line N) rg.flago
                    (M.pow (neff M (line N) (chargeOf (line N).code)).2 5.0) i)
                * (line N).wave * 1.0e-08 / (12.5636 * doppAt M model (line N) i)
            else (line N).a i }) := by
  simp only [broad, hT, if_false, hc, if_true, broadAtom, hrg, Option.map_some', forLoop_stepAtom]

/-- The call `broad` always returns (the embedding never meets an unassigned
local or a read outside a table), and it writes the Doppler widths of line `N`
at the depths below `Ntau` only. -/
theorem broad_dopp (M : MathFns K) (Ntau : Nat) (model : Atmosphere K)
    (line : Nat → Linedata K) (N : Nat) (Sig Alp fac sigU alpU : K) :
    ∃ out, broad M Ntau model line N Sig Alp fac sigU alpU = some out ∧
      ∀ i, (out N).dopp i =
        if i < Ntau then doppAt M model (line N) i else (line N).dopp i := by
  by_cases hT : (line N).T = "AI"
  · exact ⟨_, broad_AI M Ntau model line N Sig Alp fac sigU alpU hT, fun i => by simp⟩
  · by_cases hc : (line N).code < 100.0
    · obtain ⟨rg, hrg⟩ := classify_some (line N) (neff M (line N) (chargeOf (line N).code)).1
        (neff M (line N) (chargeOf (line N).code)).2 (chargeOf (line N).code)
        (literals Sig Alp sigU alpU)
      exact ⟨_, broad_atom M Ntau model line N Sig Alp fac sigU alpU rg hT hc hrg,
        fun i => by simp⟩
    · exact ⟨_, broad_mol M Ntau model line N Sig Alp fac sigU alpU hT hc, fun i => by simp⟩

end BroadSpecs

section LiteralLemmas

variable {K : Type} [LinearOrderedField K]

/-- With both literals above the threshold in magnitude, `flagS = 1`, `flago = 1`
and the locals `sig`, `alp` hold `Sig`, `Alp`. -/
theorem literals_given (Sig Alp sigU alpU : K) (hS : |Sig| > 0.01) (hA : |Alp| > 0.01) :
    literals Sig Alp sigU alpU = ⟨1, 1, Sig, Alp⟩ := by
  have h1 : ¬ |Sig - 0.000| ≤ 0.01 := by
    rw [show Sig - 0.000 = Sig by norm_num]
    exact not_le.2 hS
  have h2 : ¬ |Alp - 0.000| ≤ 0.01 := by
    rw [show Alp - 0.000 = Alp by norm_num]
    exact not_le.2 hA
  simp [literals, approx, h1, h2]

/-- With a literal at or below the threshold in magnitude, `flagS = 0`, `flago = 0`
and the locals `sig`, `alp` keep their indeterminate contents. -/
theorem literals_absent (Sig Alp sigU alpU : K) (h : |Sig| ≤ 0.01 ∨ |Alp| ≤ 0.01) :
    literals Sig Alp sigU alpU = ⟨0, 0, sigU, alpU⟩ := by
  rcases h with h | h
  · have h1 : |Sig - 0.000| ≤ 0.01 := by
      rw [show Sig - 0.000 = Sig by norm_num]
      exact h
    simp [literals, approx, h1]
  · have h1 : |Alp - 0.000| ≤ 0.01 := by
      rw [show Alp - 0.000 = Alp by norm_num]
      exact h
    simp [literals, approx, h1]

end LiteralLemmas


section RegimeLemmas


set_option maxRecDepth 4000 in
/-- With literals given, the tags that would consult a table, and `"AO"`, keep
the regime flag 1 and the literals as `sig`, `alp`. -/
theorem classify_literal {K : Type} [LinearOrderedField K] [FloorRing K] (ln : Linedata K)
    (neffl neffh charge Sig Alp : K)
    (hT : ln.T = "01" ∨ ln.T = "10" ∨ ln.T = "12" ∨ ln.T = "21" ∨ ln.T = "23" ∨ ln.T = "32"
      ∨ ln.T = "AO") :
    ∃ ll lh, classify ln neffl neffh charge ⟨1, 1, Sig, Alp⟩ = some ⟨ll, lh, 1, Sig, Alp⟩ := by
  rcases hT with h | h | h | h | h | h | h
  · exact ⟨0, 1, by simp [classify, h, viaTable]⟩
  · exact ⟨1, 0, by simp [classify, h, viaTable]⟩
  · exact ⟨1, 2, by simp [classify, h, viaTable]⟩
  · exact ⟨2, 1, by simp [classify, h, viaTable]⟩
  · exact ⟨2, 3, by simp [classify, h, viaTable]⟩
  · exact ⟨3, 2, by simp [classify, h, viaTable]⟩
  · exact ⟨0, 1, by simp [classify, h]⟩




/-- The damping parameter of the ABO regime is positive on a physical input. -/
theorem abo_a_pos (model : Atmosphere ℝ) (ln : Linedata ℝ) (fac alp OMara C64 neffh : ℝ) (i : Nat)
    (hT : 0 < model.T i) (hH : 0 < model.NHI i) (hHe : 0 ≤ model.NHeI i)
    (hH2 : 0 ≤ model.NH2 i) (hNe : 0 ≤ model.Ne i) (hw : 0 < ln.wave) (hm : 0 < ln.atomass)
    (hfac : 0 < fac) (hgr : 0 ≤ ln.gammar) (hgs : 0 ≤ ln.gammas) (hn : 0 ≤ neffh) :
    0 < (gammarAtom ln 1 + gammawAtom realFns model ln fac 1 alp OMara C64 i
          + gammasAtom model ln 1 (realFns.pow neffh 5.0) i)
        * ln.wave * 1.0e-08 / (12.5636 * doppAt realFns model ln i) := by
  have hr : 0 < gammarAtom ln 1 := by
    unfold gammarAtom
    by_cases h0 : ln.gammar = 0
    · have : (0 : ℝ) < 2.223e+15 / (ln.wave * ln.wave) := by positivity
      simpa [h0] using this
    · have : 0 < ln.gammar := lt_of_le_of_ne hgr (Ne.symm h0)
      simpa [h0] using this
  have hp : 0 < perturbers model i := by
    unfold perturbers
    positivity
  have hwv : 0 < gammawAtom realFns model ln fac 1 alp OMara C64 i := by
    simp only [gammawAtom, realFns]
    norm_num
    have := Real.exp_pos (OMara + Real.log 1e6
      + (1 - alp) * Real.log (√(2.1175e8 * model.T i * (ln.atomass⁻¹ + 0.9921)) / 1e6))
    positivity
  have hs : 0 ≤ gammasAtom model ln 1 (realFns.pow neffh 5.0) i := by
    unfold gammasAtom
    by_cases h0 : ln.gammas = 0
    · have h5 : (0 : ℝ) ≤ neffh ^ (5.0 : ℝ) := Real.rpow_nonneg hn _
      have : (0 : ℝ) ≤ 1.0e-08 * neffh ^ (5.0 : ℝ) * model.Ne i := by positivity
      simpa [h0, realFns] using this
    · have : 0 ≤ ln.gammas * model.Ne i := mul_nonneg hgs hNe
      simpa [h0] using this
  have hd : 0 < doppAt realFns model ln i := by
    simp only [doppAt, realFns]
    apply Real.sqrt_pos.2
    have h1 : 0 < 1.6631e+08 * model.T i / ln.atomass := by positivity
    have h2 : 0 ≤ model.mtv i * model.mtv i := mul_self_nonneg _
    linarith
  positivity




/-- The flag that the `"GA"` branch sets, by the leading run of sentinels. -/
theorem flagoGA_cases {K : Type} [LinearOrderedField K] (ln : Linedata K) :
    (¬ |ln.gammaw - 1.0| ≤ 0.001 → flagoGA ln = 4) ∧
    (|ln.gammaw - 1.0| ≤ 0.001 → ¬ |ln.gammas - 1.0| ≤ 0.001 → flagoGA ln = 5) ∧
    (|ln.gammaw - 1.0| ≤ 0.001 → |ln.gammas - 1.0| ≤ 0.001 → ¬ |ln.gammar - 1.0| ≤ 0.001 →
      flagoGA ln = 6) ∧
    (|ln.gammaw - 1.0| ≤ 0.001 → |ln.gammas - 1.0| ≤ 0.001 → |ln.gammar - 1.0| ≤ 0.001 →
      flagoGA ln = 7) := by
  refine ⟨fun hw => ?_, fun hw hs => ?_, fun hw hs hr => ?_, fun hw hs hr => ?_⟩
  · simp [flagoGA, approx, hw]
  · simp [flagoGA, approx, hw, hs]
  · simp [flagoGA, approx, hw, hs, hr]
  · simp [flagoGA, approx, hw, hs, hr]


end RegimeLemmas

section Claims

/-- C1: for a line tagged `"AI"`, whatever its species code, `Sig`, `Alp` and
`fac`, `broad` returns, leaves every entry of the damping array `a` of the line
as it was, writes `dopp[i] = sqrt(1.6631e8 * T[i] / atomass + mtv[i]^2)` at every
depth `i < Ntau`, and that value is strictly positive when `T[i] > 0` and
`atomass > 0`. -/
theorem C1_autoionizing_frame (Ntau : Nat) (model : Atmosphere ℝ) (line : Nat → Linedata ℝ)
    (N : Nat) (Sig Alp fac sigU alpU : ℝ) (hT : (line N).T = "AI") :
    ∃ out, broad realFns Ntau model line N Sig Alp fac sigU alpU = some out ∧
      (∀ i, (out N).a i = (line N).a i) ∧
      (∀ i, i < Ntau → (out N).dopp i =
        Real.sqrt (1.6631e8 * model.T i / (line N).atomass + model.mtv i ^ 2)) ∧
      (∀ i, i < Ntau → 0 < model.T i → 0 < (line N).atomass → 0 < (out N).dopp i) := by
  refine ⟨_, broad_AI realFns Ntau model line N Sig Alp fac sigU alpU hT, ?_, ?_, ?_⟩
  · intro i
    simp
  · intro i hi
    simp [hi, doppAt, realFns, sq]
  · intro i hi hTi hm
    simp only [Function.update_same, hi, if_true, doppAt, realFns]
    apply Real.sqrt_pos.2
    have h1 : 0 < 1.6631e+08 * model.T i / (line N).atomass := by positivity
    have h2 : 0 ≤ model.mtv i * model.mtv i := mul_self_nonneg _
    linarith

/-- Witness of C1: an `"AI"` line of iron in a two-depth atmosphere. -/
theorem C1_autoionizing_frame_witness :
    ∃ out, broad realFns 2 ⟨fun _ => 5000, fun _ => 2, fun _ => 1, fun _ => 1, fun _ => 0, fun _ => 0⟩
        (fun _ => ⟨5000, 26, "AI", 7.9, 1, 3, 55.85, 0, 0, 0, fun _ => 0, fun _ => 7, fun _ => 0⟩)
        0 0 0 1 0 0 = some out ∧
      (∀ i, (out 0).a i = 7) ∧
      (∀ i, i < 2 → (out 0).dopp i = Real.sqrt (1.6631e8 * 5000 / 55.85 + 2 ^ 2)) ∧
      (∀ i, i < 2 → (0 : ℝ) < 5000 → (0 : ℝ) < 55.85 → 0 < (out 0).dopp i) :=
  C1_autoionizing_frame 2 ⟨fun _ => 5000, fun _ => 2, fun _ => 1, fun _ => 1, fun _ => 0, fun _ => 0⟩
    (fun _ => ⟨5000, 26, "AI", 7.9, 1, 3, 55.85, 0, 0, 0, fun _ => 0, fun _ => 7, fun _ => 0⟩)
    0 0 0 1 0 0 rfl

/-- C2 as stated fails next to a range bound, in both directions.  The
coordinates `1.00000001` and `2.0` lie in `(1.0, 3.0]` and `(1.3, 3.0]`, yet `sp`
returns status 0: the `float` local `NS` holds `1.0`.  The coordinate
`3.00000001` is above the upper bound `3.0`, yet `sp` with charge 2 returns
status 2, not 0: `NS` holds `3.0`. -/
theorem C2_counterexample :
    ((1.0 : ℚ) < 1.00000001 ∧ (1.00000001 : ℚ) ≤ 3.0 ∧ (1.3 : ℚ) < 2.0 ∧ (2.0 : ℚ) ≤ 3.0 ∧
      (sp (1.00000001 : ℚ) 2.0 0 1 7 8 1).map Interp.status = some 0) ∧
    ((3.00000001 : ℚ) > 3.0 ∧
      (sp (3.00000001 : ℚ) 2.0 0 1 7 8 2).map Interp.status = some 2) := by
  have hn1 : narrow (1.00000001 : ℚ) = 1 := by
    rw [narrow_of_near 0 8388608] <;> norm_num
  have hn2 : narrow (2.0 : ℚ) = 2 := by
    rw [narrow_of_near 1 8388608] <;> norm_num
  have hn3 : narrow (3.00000001 : ℚ) = 3 := by
    rw [narrow_of_near 1 12582912] <;> norm_num
  refine ⟨⟨by norm_num, by norm_num, by norm_num, by norm_num, ?_⟩, by norm_num, ?_⟩
  · rw [sp_out 7 8 1
      (show coord 0 (1.00000001 : ℚ) 2.0 0 1 = some (narrow 1.00000001) by simp [coord])
      (show coord 1 (1.00000001 : ℚ) 2.0 0 1 = some (narrow 2.0) by simp [coord])
      (Or.inl (by rw [hn1]; norm_num))]
    rfl
  · rw [sp_ion 7 8 2
      (show coord 0 (3.00000001 : ℚ) 2.0 0 1 = some (narrow 3.00000001) by simp [coord])
      (show coord 1 (3.00000001 : ℚ) 2.0 0 1 = some (narrow 2.0) by simp [coord])
      (by rw [hn2, hn3]; norm_num) (by norm_num)]
    rfl

/-- C2, amended: for `sp`, `pd` and `df` and every charge, once both `float`
coordinates are assigned (`coord`: the `double` argument narrowed to `float`)
the interpolator returns, its status is 0 exactly when a `float` coordinate is
at or below its axis lower bound or above its axis upper bound (s in (1.0, 3.0],
p in (1.3, 3.0], d in (2.3, 4.0], f in (3.3, 5.0]), and with status 0 the
contents of `*s` and `*a` are those before the call. -/
theorem C2_status_zero_iff_out_of_range {K : Type} [LinearOrderedField K] [FloorRing K]
    (neffl neffh : K) (ll lh : Int) (s a charge : K) :
    (∀ NS NP, coord 0 neffl neffh ll lh = some NS → coord 1 neffl neffh ll lh = some NP →
      ∃ r, sp neffl neffh ll lh s a charge = some r ∧
        (r.status = 0 ↔ (NS ≤ 1.0 ∨ NS > 3.0 ∨ NP ≤ 1.3 ∨ NP > 3.0)) ∧
        (r.status = 0 → r.s = s ∧ r.a = a)) ∧
    (∀ NP ND, coord 1 neffl neffh ll lh = some NP → coord 2 neffl neffh ll lh = some ND →
      ∃ r, pd neffl neffh ll lh s a charge = some r ∧
        (r.status = 0 ↔ (NP ≤ 1.3 ∨ NP > 3.0 ∨ ND ≤ 2.3 ∨ ND > 4.0)) ∧
        (r.status = 0 → r.s = s ∧ r.a = a)) ∧
    (∀ ND NF, coord 2 neffl neffh ll lh = some ND → coord 3 neffl neffh ll lh = some NF →
      ∃ r, df neffl neffh ll lh s a charge = some r ∧
        (r.status = 0 ↔ (ND ≤ 2.3 ∨ ND > 4.0 ∨ NF ≤ 3.3 ∨ NF > 5.0)) ∧
        (r.status = 0 → r.s = s ∧ r.a = a)) := by
  refine ⟨?_, ?_, ?_⟩
  · intro NS NP hX hY
    by_cases h : NS ≤ 1.0 ∨ NS > 3.0 ∨ NP ≤ 1.3 ∨ NP > 3.0
    · exact ⟨_, sp_out s a charge hX hY h, ⟨fun _ => h, fun _ => rfl⟩, fun _ => ⟨rfl, rfl⟩⟩
    · by_cases hc : charge > 1.0
      · refine ⟨_, sp_ion s a charge hX hY h hc, ⟨fun h0 => ?_, fun h0 => absurd h0 h⟩, fun h0 => ?_⟩
        · simp at h0
        · simp at h0
      · obtain ⟨k, l, s1, s2, s3, s4, a1, a2, a3, a4, x0, x1, y0, y1, -, -, -, -, -, -, -, -, -,
          -, -, -, hr⟩ := sp_in s a charge hX hY h hc
        refine ⟨_, hr, ⟨fun h0 => ?_, fun h0 => absurd h0 h⟩, fun h0 => ?_⟩
        · simp at h0
        · simp at h0
  · intro NP ND hX hY
    by_cases h : NP ≤ 1.3 ∨ NP > 3.0 ∨ ND ≤ 2.3 ∨ ND > 4.0
    · exact ⟨_, pd_out s a charge hX hY h, ⟨fun _ => h, fun _ => rfl⟩, fun _ => ⟨rfl, rfl⟩⟩
    · by_cases hc : charge > 1.0
      · refine ⟨_, pd_ion s a charge hX hY h hc, ⟨fun h0 => ?_, fun h0 => absurd h0 h⟩, fun h0 => ?_⟩
        · simp at h0
        · simp at h0
      · obtain ⟨k, l, s1, s2, s3, s4, a1, a2, a3, a4, x0, x1, y0, y1, -, -, -, -, -, -, -, -, -,
          -, -, -, hr⟩ := pd_in s a charge hX hY h hc
        refine ⟨_, hr, ⟨fun h0 => ?_, fun h0 => absurd h0 h⟩, fun h0 => ?_⟩
        · simp at h0
        · simp at h0
  · intro ND NF hX hY
    by_cases h : ND ≤ 2.3 ∨ ND > 4.0 ∨ NF ≤ 3.3 ∨ NF > 5.0
    · exact ⟨_, df_out s a charge hX hY h, ⟨fun _ => h, fun _ => rfl⟩, fun _ => ⟨rfl, rfl⟩⟩
    · by_cases hc : charge > 1.0
      · refine ⟨_, df_ion s a charge hX hY h hc, ⟨fun h0 => ?_, fun h0 => absurd h0 h⟩, fun h0 => ?_⟩
        · simp at h0
        · simp at h0
      · obtain ⟨k, l, s1, s2, s3, s4, a1, a2, a3, a4, x0, x1, y0, y1, -, -, -, -, -, -, -, -, -,
          -, -, -, hr⟩ := df_in s a charge hX hY h hc
        refine ⟨_, hr, ⟨fun h0 => ?_, fun h0 => absurd h0 h⟩, fun h0 => ?_⟩
        · simp at h0
        · simp at h0

/-- Witness of the amended C2 on `sp` at the coordinates `(1.00000001, 2.0)` with charge 2. -/
theorem C2_status_zero_iff_out_of_range_witness :
    ∃ r, sp (1.00000001 : ℚ) 2.0 0 1 7 8 2 = some r ∧
      (r.status = 0 ↔ (narrow (1.00000001 : ℚ) ≤ 1.0 ∨ narrow (1.00000001 : ℚ) > 3.0 ∨
        narrow (2.0 : ℚ) ≤ 1.3 ∨ narrow (2.0 : ℚ) > 3.0)) ∧
      (r.status = 0 → r.s = 7 ∧ r.a = 8) :=
  (C2_status_zero_iff_out_of_range (1.00000001 : ℚ) 2.0 0 1 7 8 2).1 (narrow 1.00000001)
    (narrow 2.0) (by simp [coord]) (by simp [coord])

/-- C3 as stated fails: with charge 2 and the s coordinate 0.5 below the grid,
`sp` returns status 0, not 2. -/
theorem C3_counterexample :
    (2 : ℚ) > 1 ∧ (sp (0.5 : ℚ) 2.0 0 1 7 8 2).map Interp.status = some 0 := by
  have hn : narrow (0.5 : ℚ) = 0.5 := by
    rw [narrow_of_near (-1) 8388608] <;> norm_num
  refine ⟨by norm_num, ?_⟩
  rw [sp_out 7 8 2 (show coord 0 (0.5 : ℚ) 2.0 0 1 = some (narrow 0.5) by simp [coord])
    (show coord 1 (0.5 : ℚ) 2.0 0 1 = some (narrow 2.0) by simp [coord])
    (Or.inl (by rw [hn]; norm_num))]
  rfl

/-- C3, amended: for `sp`, `pd` and `df`, whenever `charge > 1` and both `float`
coordinates (`coord`: the `double` argument narrowed to `float`) lie inside the
grid range, the returned status is 2. -/
theorem C3_status_two_in_range {K : Type} [LinearOrderedField K] [FloorRing K]
    (neffl neffh : K) (ll lh : Int) (s a charge : K) (hc : charge > 1.0) :
    (∀ NS NP, coord 0 neffl neffh ll lh = some NS → coord 1 neffl neffh ll lh = some NP →
      1.0 < NS → NS ≤ 3.0 → 1.3 < NP → NP ≤ 3.0 →
      ∃ r, sp neffl neffh ll lh s a charge = some r ∧ r.status = 2) ∧
    (∀ NP ND, coord 1 neffl neffh ll lh = some NP → coord 2 neffl neffh ll lh = some ND →
      1.3 < NP → NP ≤ 3.0 → 2.3 < ND → ND ≤ 4.0 →
      ∃ r, pd neffl neffh ll lh s a charge = some r ∧ r.status = 2) ∧
    (∀ ND NF, coord 2 neffl neffh ll lh = some ND → coord 3 neffl neffh ll lh = some NF →
      2.3 < ND → ND ≤ 4.0 → 3.3 < NF → NF ≤ 5.0 →
      ∃ r, df neffl neffh ll lh s a charge = some r ∧ r.status = 2) := by
  refine ⟨?_, ?_, ?_⟩
  · intro NS NP hX hY h1 h2 h3 h4
    have h : ¬ (NS ≤ 1.0 ∨ NS > 3.0 ∨ NP ≤ 1.3 ∨ NP > 3.0) := by
      simp only [not_or, not_le, gt_iff_lt, not_lt]
      exact ⟨h1, h2, h3, h4⟩
    exact ⟨_, sp_ion s a charge hX hY h hc, rfl⟩
  · intro NP ND hX hY h1 h2 h3 h4
    have h : ¬ (NP ≤ 1.3 ∨ NP > 3.0 ∨ ND ≤ 2.3 ∨ ND > 4.0) := by
      simp only [not_or, not_le, gt_iff_lt, not_lt]
      exact ⟨h1, h2, h3, h4⟩
    exact ⟨_, pd_ion s a charge hX hY h hc, rfl⟩
  · intro ND NF hX hY h1 h2 h3 h4
    have h : ¬ (ND ≤ 2.3 ∨ ND > 4.0 ∨ NF ≤ 3.3 ∨ NF > 5.0) := by
      simp only [not_or, not_le, gt_iff_lt, not_lt]
      exact ⟨h1, h2, h3, h4⟩
    exact ⟨_, df_ion s a charge hX hY h hc, rfl⟩

/-- Witness of the amended C3 on `sp` at the coordinates `(2.0, 2.5)` with charge 2. -/
theorem C3_status_two_in_range_witness :
    (2 : ℚ) > 1.0 ∧ ∃ r, sp (2.0 : ℚ) 2.5 0 1 7 8 2 = some r ∧ r.status = 2 := by
  have hn1 : narrow (2.0 : ℚ) = 2 := by
    rw [narrow_of_near 1 8388608] <;> norm_num
  have hn2 : narrow (2.5 : ℚ) = 2.5 := by
    rw [narrow_of_near 1 10485760] <;> norm_num
  exact ⟨by norm_num, (C3_status_two_in_range (2.0 : ℚ) 2.5 0 1 7 8 2 (by norm_num)).1
    (narrow 2.0) (narrow 2.5) (by simp [coord]) (by simp [coord]) (by rw [hn1]; norm_num)
    (by rw [hn1]; norm_num) (by rw [hn2]; norm_num) (by rw [hn2]; norm_num)⟩

/-- C4 as stated fails just above a lower range bound: the coordinates `2.0` and
`2.30000001` lie in `(1.3, 3.0]` and `(2.3, 4.0]` and the charge is 1, yet `pd`
returns status 0, not 1: the `float` local `ND` holds `9646899 / 2 ^ 22`, which
is below the `double` bound `2.3`. -/
theorem C4_counterexample :
    (1 : ℚ) ≤ 1.0 ∧ (1.3 : ℚ) < 2.0 ∧ (2.0 : ℚ) ≤ 3.0 ∧ (2.3 : ℚ) < 2.30000001 ∧
      (2.30000001 : ℚ) ≤ 4.0 ∧
      (pd (2.0 : ℚ) 2.30000001 1 2 7 8 1).map Interp.status = some 0 := by
  have hn : narrow (2.30000001 : ℚ) = 9646899 / 4194304 := by
    rw [narrow_of_near 1 9646899] <;> norm_num
  refine ⟨by norm_num, by norm_num, by norm_num, by norm_num, by norm_num, ?_⟩
  rw [pd_out 7 8 1
    (show coord 1 (2.0 : ℚ) 2.30000001 1 2 = some (narrow 2.0) by simp [coord])
    (show coord 2 (2.0 : ℚ) 2.30000001 1 2 = some (narrow 2.30000001) by simp [coord])
    (Or.inr (Or.inr (Or.inl (by rw [hn]; norm_num))))]
  rfl

/-- C4, amended: for `sp`, `pd` and `df`, on in-range `float` coordinates
(`coord`: the `double` argument narrowed to `float`) with `charge ≤ 1` the
status is 1, both scans select a cell `(k, l)`, the returned sigma lies between
the minimum and the maximum of the four sigma entries at the corners of that
cell, the returned alpha between the minimum and the maximum of the four alpha
entries at the same corners, and both interpolation weights lie in `(0, 1]`. -/
theorem C4_interpolation_within_corners {K : Type} [LinearOrderedField K] [FloorRing K]
    (neffl neffh : K) (ll lh : Int) (s a charge : K) (hc : charge ≤ 1.0) :
    (∀ NS NP, coord 0 neffl neffh ll lh = some NS → coord 1 neffl neffh ll lh = some NP →
      1.0 < NS → NS ≤ 3.0 → 1.3 < NP → NP ≤ 3.0 →
      ∃ k l s1 s2 s3 s4 a1 a2 a3 a4 x0 x1 y0 y1 r,
        scan (sp.ns K) 21 NS = some k ∧ scan (sp.np K) 18 NP = some l ∧
        corners (sp.sig K) k l = some (s1, s2, s3, s4) ∧
        corners (sp.alp K) k l = some (a1, a2, a3, a4) ∧
        ends (sp.ns K) k = some (x0, x1) ∧ ends (sp.np K) l = some (y0, y1) ∧
        sp neffl neffh ll lh s a charge = some r ∧ r.status = 1 ∧
        min (min s1 s2) (min s3 s4) ≤ r.s ∧ r.s ≤ max (max s1 s2) (max s3 s4) ∧
        min (min a1 a2) (min a3 a4) ≤ r.a ∧ r.a ≤ max (max a1 a2) (max a3 a4) ∧
        0 < (NS - x0) / (x1 - x0) ∧ (NS - x0) / (x1 - x0) ≤ 1 ∧
        0 < (NP - y0) / (y1 - y0) ∧ (NP - y0) / (y1 - y0) ≤ 1) ∧
    (∀ NP ND, coord 1 neffl neffh ll lh = some NP → coord 2 neffl neffh ll lh = some ND →
      1.3 < NP → NP ≤ 3.0 → 2.3 < ND → ND ≤ 4.0 →
      ∃ k l s1 s2 s3 s4 a1 a2 a3 a4 x0 x1 y0 y1 r,
        scan (pd.np K) 18 NP = some k ∧ scan (pd.nd K) 18 ND = some l ∧
        corners (pd.sig K) k l = some (s1, s2, s3, s4) ∧
        corners (pd.alp K) k l = some (a1, a2, a3, a4) ∧
        ends (pd.np K) k = some (x0, x1) ∧ ends (pd.nd K) l = some (y0, y1) ∧
        pd neffl neffh ll lh s a charge = some r ∧ r.status = 1 ∧
        min (min s1 s2) (min s3 s4) ≤ r.s ∧ r.s ≤ max (max s1 s2) (max s3 s4) ∧
        min (min a1 a2) (min a3 a4) ≤ r.a ∧ r.a ≤ max (max a1 a2) (max a3 a4) ∧
        0 < (NP - x0) / (x1 - x0) ∧ (NP - x0) / (x1 - x0) ≤ 1 ∧
        0 < (ND - y0) / (y1 - y0) ∧ (ND - y0) / (y1 - y0) ≤ 1) ∧
    (∀ ND NF, coord 2 neffl neffh ll lh = some ND → coord 3 neffl neffh ll lh = some NF →
      2.3 < ND → ND ≤ 4.0 → 3.3 < NF → NF ≤ 5.0 →
      ∃ k l s1 s2 s3 s4 a1 a2 a3 a4 x0 x1 y0 y1 r,
        scan (df.nd K) 18 ND = some k ∧ scan (df.nf K) 18 NF = some l ∧
        corners (df.sig K) k l = some (s1, s2, s3, s4) ∧
        corners (df.alp K) k l = some (a1, a2, a3, a4) ∧
        ends (df.nd K) k = some (x0, x1) ∧ ends (df.nf K) l = some (y0, y1) ∧
        df neffl neffh ll lh s a charge = some r ∧ r.status = 1 ∧
        min (min s1 s2) (min s3 s4) ≤ r.s ∧ r.s ≤ max (max s1 s2) (max s3 s4) ∧
        min (min a1 a2) (min a3 a4) ≤ r.a ∧ r.a ≤ max (max a1 a2) (max a3 a4) ∧
        0 < (ND - x0) / (x1 - x0) ∧ (ND - x0) / (x1 - x0) ≤ 1 ∧
        0 < (NF - y0) / (y1 - y0) ∧ (NF - y0) / (y1 - y0) ≤ 1) := by
  refine ⟨?_, ?_, ?_⟩
  · intro NS NP hX hY h1 h2 h3 h4
    have h : ¬ (NS ≤ 1.0 ∨ NS > 3.0 ∨ NP ≤ 1.3 ∨ NP > 3.0) := by
      simp only [not_or, not_le, gt_iff_lt, not_lt]
      exact ⟨h1, h2, h3, h4⟩
    obtain ⟨k, l, s1, s2, s3, s4, a1, a2, a3, a4, x0, x1, y0, y1, hk, hl, -, -, hs, ha, hex, hey,
      hx0, hx1, hy0, hy1, hr⟩ := sp_in s a charge hX hY h (not_lt.2 hc)
    obtain ⟨hsl, hsu⟩ := bilinear_bounds s1 s2 s3 s4 NS NP x0 x1 y0 y1 hx0 hx1 hy0 hy1
    obtain ⟨hal, hau⟩ := bilinear_bounds a1 a2 a3 a4 NS NP x0 x1 y0 y1 hx0 hx1 hy0 hy1
    obtain ⟨hw1, hw2⟩ := weight_mem hx0 hx1
    obtain ⟨hw3, hw4⟩ := weight_mem hy0 hy1
    exact ⟨k, l, s1, s2, s3, s4, a1, a2, a3, a4, x0, x1, y0, y1, _, hk, hl, hs, ha, hex, hey, hr,
      rfl, hsl, hsu, hal, hau, hw1, hw2, hw3, hw4⟩
  · intro NP ND hX hY h1 h2 h3 h4
    have h : ¬ (NP ≤ 1.3 ∨ NP > 3.0 ∨ ND ≤ 2.3 ∨ ND > 4.0) := by
      simp only [not_or, not_le, gt_iff_lt, not_lt]
      exact ⟨h1, h2, h3, h4⟩
    obtain ⟨k, l, s1, s2, s3, s4, a1, a2, a3, a4, x0, x1, y0, y1, hk, hl, -, -, hs, ha, hex, hey,
      hx0, hx1, hy0, hy1, hr⟩ := pd_in s a charge hX hY h (not_lt.2 hc)
    obtain ⟨hsl, hsu⟩ := bilinear_bounds s1 s2 s3 s4 NP ND x0 x1 y0 y1 hx0 hx1 hy0 hy1
    obtain ⟨hal, hau⟩ := bilinear_bounds a1 a2 a3 a4 NP ND x0 x1 y0 y1 hx0 hx1 hy0 hy1
    obtain ⟨hw1, hw2⟩ := weight_mem hx0 hx1
    obtain ⟨hw3, hw4⟩ := weight_mem hy0 hy1
    exact ⟨k, l, s1, s2, s3, s4, a1, a2, a3, a4, x0, x1, y0, y1, _, hk, hl, hs, ha, hex, hey, hr,
      rfl, hsl, hsu, hal, hau, hw1, hw2, hw3, hw4⟩
  · intro ND NF hX hY h1 h2 h3 h4
    have h : ¬ (ND ≤ 2.3 ∨ ND > 4.0 ∨ NF ≤ 3.3 ∨ NF > 5.0) := by
      simp only [not_or, not_le, gt_iff_lt, not_lt]
      exact ⟨h1, h2, h3, h4⟩
    obtain ⟨k, l, s1, s2, s3, s4, a1, a2, a3, a4, x0, x1, y0, y1, hk, hl, -, -, hs, ha, hex, hey,
      hx0, hx1, hy0, hy1, hr⟩ := df_in s a charge hX hY h (not_lt.2 hc)
    obtain ⟨hsl, hsu⟩ := bilinear_bounds s1 s2 s3 s4 ND NF x0 x1 y0 y1 hx0 hx1 hy0 hy1
    obtain ⟨hal, hau⟩ := bilinear_bounds a1 a2 a3 a4 ND NF x0 x1 y0 y1 hx0 hx1 hy0 hy1
    obtain ⟨hw1, hw2⟩ := weight_mem hx0 hx1
    obtain ⟨hw3, hw4⟩ := weight_mem hy0 hy1
    exact ⟨k, l, s1, s2, s3, s4, a1, a2, a3, a4, x0, x1, y0, y1, _, hk, hl, hs, ha, hex, hey, hr,
      rfl, hsl, hsu, hal, hau, hw1, hw2, hw3, hw4⟩

/-- Witness of the amended C4 on `pd` at the coordinates `(2.05, 3.15)` with charge 1. -/
theorem C4_interpolation_within_corners_witness :
    (1 : ℚ) ≤ 1.0 ∧ ∃ k l s1 s2 s3 s4 a1 a2 a3 a4 x0 x1 y0 y1 r,
        scan (pd.np ℚ) 18 (narrow 2.05) = some k ∧ scan (pd.nd ℚ) 18 (narrow 3.15) = some l ∧
        corners (pd.sig ℚ) k l = some (s1, s2, s3, s4) ∧
        corners (pd.alp ℚ) k l = some (a1, a2, a3, a4) ∧
        ends (pd.np ℚ) k = some (x0, x1) ∧ ends (pd.nd ℚ) l = some (y0, y1) ∧
        pd (2.05 : ℚ) 3.15 1 2 0 0 1 = some r ∧ r.status = 1 ∧
        min (min s1 s2) (min s3 s4) ≤ r.s ∧ r.s ≤ max (max s1 s2) (max s3 s4) ∧
        min (min a1 a2) (min a3 a4) ≤ r.a ∧ r.a ≤ max (max a1 a2) (max a3 a4) ∧
        0 < (narrow 2.05 - x0) / (x1 - x0) ∧ (narrow 2.05 - x0) / (x1 - x0) ≤ 1 ∧
        0 < (narrow 3.15 - y0) / (y1 - y0) ∧ (narrow 3.15 - y0) / (y1 - y0) ≤ 1 := by
  have hn1 : narrow (2.05 : ℚ) = 8598323 / 4194304 := by
    rw [narrow_of_near 1 8598323] <;> norm_num
  have hn2 : narrow (3.15 : ℚ) = 13212058 / 4194304 := by
    rw [narrow_of_near 1 13212058] <;> norm_num
  exact ⟨by norm_num,
    (C4_interpolation_within_corners (2.05 : ℚ) 3.15 1 2 0 0 1 (by norm_num)).2.1
      (narrow 2.05) (narrow 3.15) (by simp [coord]) (by simp [coord]) (by rw [hn1]; norm_num)
      (by rw [hn1]; norm_num) (by rw [hn2]; norm_num) (by rw [hn2]; norm_num)⟩

/-- C5 as stated fails for the tag `"GA"`: with `Sig = Alp = 1` and all three
literal gamma constants 0, the tag sets the regime flag 4, the van der Waals
term is the literal `gammaw` scaled (here 0) and `a[0] = 0`, while the ABO
formula with `sigma = Sig`, `alpha = Alp` is strictly positive. -/
theorem C5_counterexample :
    (|(1 : ℝ)| > 0.01) ∧
    ∃ out, broad realFns 1 ⟨fun _ => 5000, fun _ => 0, fun _ => 1, fun _ => 1, fun _ => 0, fun _ => 0⟩
        (fun _ => ⟨5000, 26, "GA", 7.9, 1, 3, 55.85, 0, 0, 0, fun _ => 0, fun _ => 7, fun _ => 0⟩)
        0 1 1 1 0 0 = some out ∧
      (out 0).a 0 = 0 ∧
      (0 : ℝ) < 2 * 1 * 2.8003e-17
        * Real.exp (((1 : ℝ) / 2 * 0.24156448 + gammln realFns ((4 - 1) / 2) + Real.log 1)
            + Real.log 1e6
            + (1 - 1) * Real.log (Real.sqrt (2.1175e8 * 5000 * (1 / 55.85 + 0.9921)) / 1e6))
        * 1 * (1 + 0.4133 * 0 / 1 + 0.85 * 0 / 1) := by
  refine ⟨by norm_num, ?_⟩
  have hlit : literals (1 : ℝ) 1 0 0 = ⟨1, 1, 1, 1⟩ :=
    literals_given 1 1 0 0 (by norm_num) (by norm_num)
  have hga : flagoGA (⟨5000, 26, "GA", 7.9, 1, 3, 55.85, 0, 0, 0, fun _ => 0, fun _ => 7,
      fun _ => 0⟩ : Linedata ℝ) = 4 := by
    norm_num [flagoGA, approx]
  refine ⟨_, broad_atom realFns 1 _ _ 0 1 1 1 0 0 ⟨0, 1, 4, 1, 1⟩ (by decide) (by norm_num) ?_,
    ?_, ?_⟩
  · rw [hlit]
    simp only [classify]
    simp [hga]
  · simp [gammarAtom, gammawAtom, gammasAtom]
  · have := Real.exp_pos (((1 : ℝ) / 2 * 0.24156448 + gammln realFns ((4 - 1) / 2) + Real.log 1)
            + Real.log 1e6
            + (1 - 1) * Real.log (Real.sqrt (2.1175e8 * 5000 * (1 / 55.85 + 0.9921)) / 1e6))
    positivity

/-- C5, amended: for an atomic line (code `< 100`) whose tag is one of `"01"`,
`"10"`, `"12"`, `"21"`, `"23"`, `"32"`, `"AO"`, called with `|Sig| > 0.01` and
`|Alp| > 0.01`, no table is consulted (the regime keeps flag 1 with
`sig = Sig`, `alp = Alp`) and at every depth `i < Ntau` the van der Waals term
of `a[i]` is the ABO formula
`2 * fac * 2.8003e-17 * exp(lnwN) * NHI[i] * (1 + 0.4133*NHeI[i]/NHI[i] + 0.85*NH2[i]/NHI[i])`
evaluated with `sigma = Sig` and `alpha = Alp`. -/
theorem C5_literal_sig_alp_abo (Ntau : Nat) (model : Atmosphere ℝ) (line : Nat → Linedata ℝ)
    (N : Nat) (Sig Alp fac sigU alpU : ℝ) (hcode : (line N).code < 100)
    (hT : (line N).T = "01" ∨ (line N).T = "10" ∨ (line N).T = "12" ∨ (line N).T = "21"
      ∨ (line N).T = "23" ∨ (line N).T = "32" ∨ (line N).T = "AO")
    (hS : |Sig| > 0.01) (hA : |Alp| > 0.01) :
    (∃ ll lh, classify (line N) (neff realFns (line N) (chargeOf (line N).code)).1
      (neff realFns (line N) (chargeOf (line N).code)).2 (chargeOf (line N).code)
      (literals Sig Alp sigU alpU) = some ⟨ll, lh, 1, Sig, Alp⟩) ∧
    ∃ out, broad realFns Ntau model line N Sig Alp fac sigU alpU = some out ∧
      ∀ i, i < Ntau →
        (out N).a i =
          (gammarAtom (line N) 1
            + 2 * fac * 2.8003e-17
              * Real.exp ((Alp / 2 * 0.24156448 + gammln realFns ((4 - Alp) / 2) + Real.log Sig)
                  + Real.log 1e6
                  + (1 - Alp) * Real.log
                      (Real.sqrt (2.1175e8 * model.T i * (1 / (line N).atomass + 0.9921)) / 1e6))
              * model.NHI i
              * (1 + 0.4133 * model.NHeI i / model.NHI i + 0.85 * model.NH2 i / model.NHI i)
            + gammasAtom model (line N) 1
                ((neff realFns (line N) (chargeOf (line N).code)).2 ^ (5 : ℝ)) i)
            * (line N).wave * 1e-8 / (12.5636 * (out N).dopp i) := by
  have hne : (line N).T ≠ "AI" := by
    rcases hT with h | h | h | h | h | h | h <;> rw [h] <;> decide
  obtain ⟨ll, lh, hrg⟩ := classify_literal (line N)
    (neff realFns (line N) (chargeOf (line N).code)).1
    (neff realFns (line N) (chargeOf (line N).code)).2 (chargeOf (line N).code) Sig Alp hT
  rw [← literals_given Sig Alp sigU alpU hS hA] at hrg
  refine ⟨⟨ll, lh, hrg⟩, _, broad_atom realFns Ntau model line N Sig Alp fac sigU alpU _ hne
    (by norm_num; exact hcode) hrg, ?_⟩
  intro i hi
  simp only [Function.update_same, hi, if_true, gammawAtom, omara, perturbers, realFns]
  norm_num

/-- Witness of the amended C5: an iron line tagged `"AO"` with `Sig = 300`, `Alp = 0.25`. -/
theorem C5_literal_sig_alp_abo_witness :
    ((26 : ℝ) < 100) ∧ (|(300 : ℝ)| > 0.01) ∧ (|(0.25 : ℝ)| > 0.01) ∧
    ∃ out, broad realFns 1 ⟨fun _ => 5000, fun _ => 0, fun _ => 1, fun _ => 1, fun _ => 0, fun _ => 0⟩
        (fun _ => ⟨5000, 26, "AO", 7.9, 1, 3, 55.85, 0, 0, 0, fun _ => 0, fun _ => 7, fun _ => 0⟩)
        0 300 0.25 1 0 0 = some out :=
  ⟨by norm_num, by norm_num, by rw [abs_of_pos] <;> norm_num,
    let ⟨out, h, _⟩ := (C5_literal_sig_alp_abo 1
      ⟨fun _ => 5000, fun _ => 0, fun _ => 1, fun _ => 1, fun _ => 0, fun _ => 0⟩
      (fun _ => ⟨5000, 26, "AO", 7.9, 1, 3, 55.85, 0, 0, 0, fun _ => 0, fun _ => 7, fun _ => 0⟩)
      0 300 0.25 1 0 0 (by norm_num) (by simp) (by norm_num)
      (by rw [abs_of_pos] <;> norm_num)).2
    ⟨out, h⟩⟩

/-- C6 as stated fails just above the lower bound of the s axis: for the neutral
line 26.00 with tag `"01"`, no literals, `chi = 13.595`, `El = 1e-9` and
`Eu = 5.56`, `neffl` lies in `(1.0, 3.0]` and `neffh` in `(1.3, 3.0]`, yet `sp`
returns status 0 and the regime flag is 0, not ABO: `neffl` exceeds 1 by less
than `1e-8` and the `float` local `NS` holds `1.0`. -/
theorem C6_counterexample :
    chargeOf (26 : ℝ) = 1 ∧
    literals (0 : ℝ) 0 0 0 = ⟨0, 0, 0, 0⟩ ∧
    (1.0 < (neff realFns (⟨5000, 26, "01", 13.595, 1e-9, 5.56, 55.85, 0, 0, 0,
        fun _ => 0, fun _ => 0, fun _ => 0⟩ : Linedata ℝ) 1).1 ∧
      (neff realFns (⟨5000, 26, "01", 13.595, 1e-9, 5.56, 55.85, 0, 0, 0,
        fun _ => 0, fun _ => 0, fun _ => 0⟩ : Linedata ℝ) 1).1 ≤ 3.0 ∧
      1.3 < (neff realFns (⟨5000, 26, "01", 13.595, 1e-9, 5.56, 55.85, 0, 0, 0,
        fun _ => 0, fun _ => 0, fun _ => 0⟩ : Linedata ℝ) 1).2 ∧
      (neff realFns (⟨5000, 26, "01", 13.595, 1e-9, 5.56, 55.85, 0, 0, 0,
        fun _ => 0, fun _ => 0, fun _ => 0⟩ : Linedata ℝ) 1).2 ≤ 3.0) ∧
    (sp (neff realFns (⟨5000, 26, "01", 13.595, 1e-9, 5.56, 55.85, 0, 0, 0,
          fun _ => 0, fun _ => 0, fun _ => 0⟩ : Linedata ℝ) 1).1
        (neff realFns (⟨5000, 26, "01", 13.595, 1e-9, 5.56, 55.85, 0, 0, 0,
          fun _ => 0, fun _ => 0, fun _ => 0⟩ : Linedata ℝ) 1).2 0 1 0 0 1).map Interp.status
      = some 0 ∧
    (classify (⟨5000, 26, "01", 13.595, 1e-9, 5.56, 55.85, 0, 0, 0,
          fun _ => 0, fun _ => 0, fun _ => 0⟩ : Linedata ℝ)
        (neff realFns (⟨5000, 26, "01", 13.595, 1e-9, 5.56, 55.85, 0, 0, 0,
          fun _ => 0, fun _ => 0, fun _ => 0⟩ : Linedata ℝ) 1).1
        (neff realFns (⟨5000, 26, "01", 13.595, 1e-9, 5.56, 55.85, 0, 0, 0,
          fun _ => 0, fun _ => 0, fun _ => 0⟩ : Linedata ℝ) 1).2 1
        (literals 0 0 0 0)).map Regime.flago = some 0 := by
  have hch : chargeOf (26 : ℝ) = 1 := by
    have hf : ⌊(26 : ℝ)⌋ = 26 := by
      rw [Int.floor_eq_iff]
      norm_num
    simp only [chargeOf, approx, hf]
    norm_num
  have hlit : literals (0 : ℝ) 0 0 0 = ⟨0, 0, 0, 0⟩ :=
    literals_absent 0 0 0 0 (Or.inl (by norm_num))
  have ha1 : 1 < Real.sqrt (13.595 / (13.595 - 1e-9)) := by
    rw [Real.lt_sqrt (by norm_num)]
    norm_num
  have ha2 : Real.sqrt (13.595 / (13.595 - 1e-9)) < 1 + 1e-8 := by
    rw [Real.sqrt_lt' (by norm_num)]
    norm_num
  have hb1 : 1.3 < Real.sqrt (13.595 / (13.595 - 5.56)) := by
    rw [Real.lt_sqrt (by norm_num)]
    norm_num
  have hb2 : Real.sqrt (13.595 / (13.595 - 5.56)) ≤ 3.0 := by
    rw [Real.sqrt_le_left (by norm_num)]
    norm_num
  have hn : neff realFns (⟨5000, 26, "01", 13.595, 1e-9, 5.56, 55.85, 0, 0, 0,
      fun _ => 0, fun _ => 0, fun _ => 0⟩ : Linedata ℝ) 1
      = (Real.sqrt (13.595 / (13.595 - 1e-9)), Real.sqrt (13.595 / (13.595 - 5.56))) := by
    have c1 : ¬ ((13.595 : ℝ) ≤ 1e-9) := by norm_num
    have c2 : ¬ ((13.595 : ℝ) ≤ 5.56) := by norm_num
    have c3 : ¬ (Real.sqrt (13.595 / (13.595 - 5.56))
        ≤ Real.sqrt (13.595 / (13.595 - 1e-9))) := by
      have : (1 : ℝ) + 1e-8 < 1.3 := by norm_num
      linarith
    simp only [neff, realFns, if_neg c1, if_neg c2, one_mul, if_neg c3]
  have hnar : narrow (Real.sqrt (13.595 / (13.595 - 1e-9))) = 1 := by
    have e : (2 : ℝ) ^ ((0 : Int) - 23) = 1 / 8388608 := by norm_num
    have h8 : (1 : ℝ) + 1e-8 < 1 + 1 / 16777216 := by norm_num
    generalize Real.sqrt (13.595 / (13.595 - 1e-9)) = x at ha1 ha2 ⊢
    rw [narrow_of_near 0 8388608]
    · rw [e]; norm_num
    · norm_num; linarith
    · norm_num; linarith
    · rw [e, div_div_eq_mul_div, div_one]; push_cast; linarith
    · rw [e, div_div_eq_mul_div, div_one]; push_cast; linarith
  rw [hn]
  dsimp only
  have hr := sp_out (0 : ℝ) 0 1
    (show coord 0 (Real.sqrt (13.595 / (13.595 - 1e-9))) (Real.sqrt (13.595 / (13.595 - 5.56)))
      0 1 = some (narrow (Real.sqrt (13.595 / (13.595 - 1e-9)))) by simp [coord])
    (show coord 1 (Real.sqrt (13.595 / (13.595 - 1e-9))) (Real.sqrt (13.595 / (13.595 - 5.56)))
      0 1 = some (narrow (Real.sqrt (13.595 / (13.595 - 5.56)))) by simp [coord])
    (Or.inl (by rw [hnar]; norm_num))
  have ha0 : (1.0 : ℝ) < Real.sqrt (13.595 / (13.595 - 1e-9)) :=
    lt_of_le_of_lt (by norm_num) ha1
  have ha3 : Real.sqrt (13.595 / (13.595 - 1e-9)) ≤ 3.0 :=
    le_trans (le_of_lt ha2) (by norm_num)
  refine ⟨hch, hlit, ⟨ha0, ha3, hb1, hb2⟩, ?_, ?_⟩
  · rw [hr]
    rfl
  · rw [hlit]
    simp [classify, viaTable, hr]

set_option maxRecDepth 4000 in
/-- C6, amended: for a neutral atomic line (charge 1) with tag `"01"`, no literal
`Sig`/`Alp`, and effective quantum numbers whose `float` values (`narrow`) lie
in the grid range, `neffl` in `(1.0, 3.0]` and `neffh` in `(1.3, 3.0]`, `sp`
returns status 1, the regime flag is 1 (ABO) with the interpolated `sig`,
`alp`, and on a physical input (`T[i] > 0`, `NHI[i] > 0`,
`NHeI[i], NH2[i], Ne[i] >= 0`, `wave > 0`, `atomass > 0`, `fac > 0`,
`gammar, gammas >= 0`) `broad` writes `a[i] > 0` at every depth `i < Ntau`. -/
theorem C6_neutral_sp_abo_positive (Ntau : Nat) (model : Atmosphere ℝ)
    (line : Nat → Linedata ℝ) (N : Nat) (Sig Alp fac sigU alpU : ℝ)
    (hcode : (line N).code < 100) (hch : chargeOf (line N).code = 1)
    (hT : (line N).T = "01") (hlit : |Sig| ≤ 0.01 ∨ |Alp| ≤ 0.01)
    (hl0 : 1.0 < narrow (neff realFns (line N) 1).1)
    (hl1 : narrow (neff realFns (line N) 1).1 ≤ 3.0)
    (hh0 : 1.3 < narrow (neff realFns (line N) 1).2)
    (hh1 : narrow (neff realFns (line N) 1).2 ≤ 3.0)
    (hphys : ∀ i, i < Ntau → 0 < model.T i ∧ 0 < model.NHI i ∧ 0 ≤ model.NHeI i ∧
      0 ≤ model.NH2 i ∧ 0 ≤ model.Ne i)
    (hw : 0 < (line N).wave) (hm : 0 < (line N).atomass) (hfac : 0 < fac)
    (hgr : 0 ≤ (line N).gammar) (hgs : 0 ≤ (line N).gammas) :
    ∃ r rg out,
      sp (neff realFns (line N) 1).1 (neff realFns (line N) 1).2 0 1 sigU alpU 1 = some r ∧
      r.status = 1 ∧
      classify (line N) (neff realFns (line N) 1).1 (neff realFns (line N) 1).2 1
        (literals Sig Alp sigU alpU) = some rg ∧
      rg.flago = 1 ∧ rg.sig = r.s ∧ rg.alp = r.a ∧
      broad realFns Ntau model line N Sig Alp fac sigU alpU = some out ∧
      ∀ i, i < Ntau → 0 < (out N).a i := by
  have hin : ¬ (narrow (neff realFns (line N) 1).1 ≤ 1.0 ∨
      narrow (neff realFns (line N) 1).1 > 3.0 ∨
      narrow (neff realFns (line N) 1).2 ≤ 1.3 ∨ narrow (neff realFns (line N) 1).2 > 3.0) := by
    simp only [not_or, not_le, gt_iff_lt, not_lt]
    exact ⟨hl0, hl1, hh0, hh1⟩
  obtain ⟨k, l, s1, s2, s3, s4, a1, a2, a3, a4, x0, x1, y0, y1, -, -, -, -, -, -, -, -, -, -, -,
    -, hr⟩ := sp_in sigU alpU (1 : ℝ)
      (show coord 0 (neff realFns (line N) 1).1 (neff realFns (line N) 1).2 0 1
        = some (narrow (neff realFns (line N) 1).1) by simp [coord])
      (show coord 1 (neff realFns (line N) 1).1 (neff realFns (line N) 1).2 0 1
        = some (narrow (neff realFns (line N) 1).2) by simp [coord]) hin (by norm_num)
  have hrg : classify (line N) (neff realFns (line N) 1).1 (neff realFns (line N) 1).2 1
      (literals Sig Alp sigU alpU) =
      some ⟨0, 1, 1, bilinear s1 s2 s3 s4 (narrow (neff realFns (line N) 1).1)
        (narrow (neff realFns (line N) 1).2) x0 x1 y0 y1, bilinear a1 a2 a3 a4
        (narrow (neff realFns (line N) 1).1) (narrow (neff realFns (line N) 1).2)
        x0 x1 y0 y1⟩ := by
    rw [literals_absent Sig Alp sigU alpU hlit]
    simp [classify, hT, viaTable, hr]
  have hne : (line N).T ≠ "AI" := by
    rw [hT]
    decide
  have hb := broad_atom realFns Ntau model line N Sig Alp fac sigU alpU _ hne
    (by norm_num; exact hcode) (by rw [hch]; exact hrg)
  refine ⟨_, _, _, hr, rfl, hrg, rfl, rfl, rfl, hb, ?_⟩
  intro i hi
  obtain ⟨h1, h2, h3, h4, h5⟩ := hphys i hi
  simp only [Function.update_same, hi, if_true]
  have hnn : 0 ≤ (neff realFns (line N) 1).2 := by
    simp only [neff, realFns]
    split_ifs <;> positivity
  exact abo_a_pos model (line N) fac _ _ _ _ i h1 h2 h3 h4 h5 hw hm hfac hgr hgs
    (by rw [hch]; exact hnn)


/-- Witness of the amended C6: a neutral iron line (code 26.00, tag `"01"`) whose
levels give `neffl = 2` and `neffh = 2.5`, in a one-depth atmosphere. -/
theorem C6_neutral_sp_abo_positive_witness :
    ∃ out, broad realFns 1
        ⟨fun _ => 5000, fun _ => 0, fun _ => 1, fun _ => 1, fun _ => 0, fun _ => 0⟩
        (fun _ => ⟨5000, 26, "01", 13.595, 10.19625, 11.4198, 55.85, 0, 0, 0,
          fun _ => 0, fun _ => 0, fun _ => 0⟩)
        0 0 0 1 0 0 = some out ∧ ∀ i, i < 1 → 0 < (out 0).a i := by
  have hch : chargeOf (26 : ℝ) = 1 := by
    have hf : ⌊(26 : ℝ)⌋ = 26 := by
      rw [Int.floor_eq_iff]
      norm_num
    simp only [chargeOf, approx, hf]
    norm_num
  have hn : neff realFns (⟨5000, 26, "01", 13.595, 10.19625, 11.4198, 55.85, 0, 0, 0,
      fun _ => 0, fun _ => 0, fun _ => 0⟩ : Linedata ℝ) 1 = (2, 2.5) := by
    have h1 : Real.sqrt (13.595 / (13.595 - 10.19625)) = 2 := by
      rw [show (13.595 / (13.595 - 10.19625) : ℝ) = 2 ^ 2 by norm_num,
        Real.sqrt_sq (by norm_num)]
    have h2 : Real.sqrt (13.595 / (13.595 - 11.4198)) = 2.5 := by
      rw [show (13.595 / (13.595 - 11.4198) : ℝ) = 2.5 ^ 2 by norm_num,
        Real.sqrt_sq (by norm_num)]
    simp only [neff, realFns, h1, h2]
    norm_num
  have hn1 : narrow (2 : ℝ) = 2 := by
    rw [narrow_of_near 1 8388608] <;> norm_num
  have hn2 : narrow (2.5 : ℝ) = 2.5 := by
    rw [narrow_of_near 1 10485760] <;> norm_num
  obtain ⟨r, rg, out, -, -, -, -, -, -, hb, ha⟩ := C6_neutral_sp_abo_positive 1
    ⟨fun _ => 5000, fun _ => 0, fun _ => 1, fun _ => 1, fun _ => 0, fun _ => 0⟩
    (fun _ => ⟨5000, 26, "01", 13.595, 10.19625, 11.4198, 55.85, 0, 0, 0,
      fun _ => 0, fun _ => 0, fun _ => 0⟩)
    0 0 0 1 0 0 (by norm_num) hch rfl (Or.inl (by norm_num))
    (by rw [hn]; dsimp only; rw [hn1]; norm_num) (by rw [hn]; dsimp only; rw [hn1]; norm_num)
    (by rw [hn]; dsimp only; rw [hn2]; norm_num) (by rw [hn]; dsimp only; rw [hn2]; norm_num)
    (fun i _ => by norm_num) (by norm_num) (by norm_num) (by norm_num) (by norm_num)
    (by norm_num)
  exact ⟨out, hb, ha⟩

/-- C7 as stated fails: for the singly-ionized line 26.10 with tag `"01"`, no
literals and levels that give `neffl = 2`, `neffh = 4` (the p coordinate above
the grid), `sp` returns status 0, not 2. -/
theorem C7_counterexample :
    chargeOf (26.1 : ℝ) = 2 ∧
    neff realFns (⟨1216, 26.1, "01", 16.18, 2.585, 12.78125, 55.85, 0, 0, 0,
      fun _ => 0, fun _ => 0, fun _ => 0⟩ : Linedata ℝ) 2 = (2, 4) ∧
    literals (0 : ℝ) 0 0 0 = ⟨0, 0, 0, 0⟩ ∧
    (sp (2 : ℝ) 4 0 1 0 0 2).map Interp.status = some 0 := by
  refine ⟨?_, ?_, literals_absent 0 0 0 0 (Or.inl (by norm_num)), ?_⟩
  · have hf : ⌊(26.1 : ℝ)⌋ = 26 := by
      rw [Int.floor_eq_iff]
      norm_num
    simp only [chargeOf, approx, hf]
    norm_num [abs_of_pos]
  · have h1 : Real.sqrt (13.595 / (16.18 - 2.585)) = 1 := by
      rw [show (13.595 / (16.18 - 2.585) : ℝ) = 1 by norm_num, Real.sqrt_one]
    have h2 : Real.sqrt (13.595 / (16.18 - 12.78125)) = 2 := by
      rw [show (13.595 / (16.18 - 12.78125) : ℝ) = 2 ^ 2 by norm_num,
        Real.sqrt_sq (by norm_num)]
    simp only [neff, realFns, h1, h2]
    norm_num
  · have hn : narrow (4 : ℝ) = 4 := by
      rw [narrow_of_near 2 8388608] <;> norm_num
    rw [sp_out 0 0 2 (show coord 0 (2 : ℝ) 4 0 1 = some (narrow 2) by simp [coord])
      (show coord 1 (2 : ℝ) 4 0 1 = some (narrow 4) by simp [coord])
      (Or.inr (Or.inr (Or.inr (by rw [hn]; norm_num))))]
    rfl

set_option maxRecDepth 4000 in
/-- C7, amended: for a singly-ionized atomic line (charge 2) with tag `"01"` and
no literal `Sig`/`Alp`, `sp` returns status 2 when the `float` values (`narrow`)
of both effective quantum numbers lie in the s-p grid range and status 0
otherwise; in both cases the
regime flag is that status, and at every depth `i < Ntau` the van der Waals
term of `a[i]` is the Unsöld formula
`8.08 * fac * C6^0.4 * v^0.6 * NHI[i] * (1 + 0.4133*NHeI[i]/NHI[i] + 0.85*NH2[i]/NHI[i])`
with the angular-momentum terms of `ll = 0`, `lh = 1` in `C6`. -/
theorem C7_ionized_unsold (Ntau : Nat) (model : Atmosphere ℝ)
    (line : Nat → Linedata ℝ) (N : Nat) (Sig Alp fac sigU alpU : ℝ)
    (hcode : (line N).code < 100) (hch : chargeOf (line N).code = 2)
    (hT : (line N).T = "01") (hlit : |Sig| ≤ 0.01 ∨ |Alp| ≤ 0.01) :
    ∃ r rg out,
      sp (neff realFns (line N) 2).1 (neff realFns (line N) 2).2 0 1 sigU alpU 2 = some r ∧
      ((1.0 < narrow (neff realFns (line N) 2).1 ∧ narrow (neff realFns (line N) 2).1 ≤ 3.0 ∧
        1.3 < narrow (neff realFns (line N) 2).2 ∧ narrow (neff realFns (line N) 2).2 ≤ 3.0) →
          r.status = 2) ∧
      (¬ (1.0 < narrow (neff realFns (line N) 2).1 ∧ narrow (neff realFns (line N) 2).1 ≤ 3.0 ∧
        1.3 < narrow (neff realFns (line N) 2).2 ∧ narrow (neff realFns (line N) 2).2 ≤ 3.0) →
          r.status = 0) ∧
      classify (line N) (neff realFns (line N) 2).1 (neff realFns (line N) 2).2 2
        (literals Sig Alp sigU alpU) = some rg ∧
      rg.flago = r.status ∧ (rg.flago = 0 ∨ rg.flago = 2) ∧ rg.ll = 0 ∧ rg.lh = 1 ∧
      broad realFns Ntau model line N Sig Alp fac sigU alpU = some out ∧
      ∀ i, i < Ntau →
        (out N).a i =
          (2.223e15 / ((line N).wave * (line N).wave)
            + 8.08 * fac
              * (4.05e-33 *
                  ((neff realFns (line N) 2).2 * (neff realFns (line N) 2).2
                      * (5 * (neff realFns (line N) 2).2 * (neff realFns (line N) 2).2 + 1
                          - 3 * 1 * (1 + 1)) / (2 * 2 * 2)
                    - (neff realFns (line N) 2).1 * (neff realFns (line N) 2).1
                      * (5 * (neff realFns (line N) 2).1 * (neff realFns (line N) 2).1 + 1
                          - 3 * 0 * (0 + 1)) / (2 * 2 * 2))) ^ (0.4 : ℝ)
              * Real.sqrt (2.1175e8 * model.T i * (1 / (line N).atomass + 0.9921)) ^ (0.6 : ℝ)
              * model.NHI i
              * (1 + 0.4133 * model.NHeI i / model.NHI i + 0.85 * model.NH2 i / model.NHI i)
            + 1e-8 * (neff realFns (line N) 2).2 ^ (5 : ℝ) * model.Ne i)
            * (line N).wave * 1e-8 / (12.5636 * (out N).dopp i) := by
  have hS : coord 0 (neff realFns (line N) 2).1 (neff realFns (line N) 2).2 0 1
      = some (narrow (neff realFns (line N) 2).1) := by simp [coord]
  have hP : coord 1 (neff realFns (line N) 2).1 (neff realFns (line N) 2).2 0 1
      = some (narrow (neff realFns (line N) 2).2) := by simp [coord]
  have hne : (line N).T ≠ "AI" := by
    rw [hT]
    decide
  have hc2 : (2 : ℝ) > 1.0 := by norm_num
  by_cases hin : narrow (neff realFns (line N) 2).1 ≤ 1.0 ∨
      narrow (neff realFns (line N) 2).1 > 3.0 ∨
      narrow (neff realFns (line N) 2).2 ≤ 1.3 ∨ narrow (neff realFns (line N) 2).2 > 3.0
  · have hr := sp_out sigU alpU (2 : ℝ) hS hP hin
    have hrg : classify (line N) (neff realFns (line N) 2).1 (neff realFns (line N) 2).2 2
        (literals Sig Alp sigU alpU) = some ⟨0, 1, 0, sigU, alpU⟩ := by
      rw [literals_absent Sig Alp sigU alpU hlit]
      simp [classify, hT, viaTable, hr]
    have hb := broad_atom realFns Ntau model line N Sig Alp fac sigU alpU _ hne
      (by norm_num; exact hcode) (by rw [hch]; exact hrg)
    refine ⟨_, _, _, hr, ?_, fun _ => rfl, hrg, rfl, Or.inl rfl, rfl, rfl, hb, ?_⟩
    · intro h
      exfalso
      rcases hin with h1 | h1 | h1 | h1
      · exact absurd h.1 (not_lt.2 h1)
      · exact absurd h.2.1 (not_le.2 h1)
      · exact absurd h.2.2.1 (not_lt.2 h1)
      · exact absurd h.2.2.2 (not_le.2 h1)
    · intro i hi
      simp only [Function.update_same, hi, if_true, gammarAtom, gammawAtom, gammasAtom, c64,
        perturbers, realFns, hch]
      norm_num
  · have hr := sp_ion sigU alpU (2 : ℝ) hS hP hin hc2
    have hrg : classify (line N) (neff realFns (line N) 2).1 (neff realFns (line N) 2).2 2
        (literals Sig Alp sigU alpU) = some ⟨0, 1, 2, sigU, alpU⟩ := by
      rw [literals_absent Sig Alp sigU alpU hlit]
      simp [classify, hT, viaTable, hr]
    have hb := broad_atom realFns Ntau model line N Sig Alp fac sigU alpU _ hne
      (by norm_num; exact hcode) (by rw [hch]; exact hrg)
    refine ⟨_, _, _, hr, fun _ => rfl, ?_, hrg, rfl, Or.inr rfl, rfl, rfl, hb, ?_⟩
    · intro h
      exfalso
      apply h
      simp only [not_or, not_le, gt_iff_lt, not_lt] at hin
      exact hin
    · intro i hi
      simp only [Function.update_same, hi, if_true, gammarAtom, gammawAtom, gammasAtom, c64,
        perturbers, realFns, hch]
      norm_num


/-- Witness of the amended C7: the singly-ionized iron line 26.10 with tag `"01"`. -/
theorem C7_ionized_unsold_witness :
    ∃ r rg out,
      sp (neff realFns (⟨1216, 26.1, "01", 16.18, 2.585, 12.78125, 55.85, 0, 0, 0,
          fun _ => 0, fun _ => 0, fun _ => 0⟩ : Linedata ℝ) 2).1
        (neff realFns (⟨1216, 26.1, "01", 16.18, 2.585, 12.78125, 55.85, 0, 0, 0,
          fun _ => 0, fun _ => 0, fun _ => 0⟩ : Linedata ℝ) 2).2 0 1 0 0 2 = some r ∧
      classify (⟨1216, 26.1, "01", 16.18, 2.585, 12.78125, 55.85, 0, 0, 0,
          fun _ => 0, fun _ => 0, fun _ => 0⟩ : Linedata ℝ)
        (neff realFns (⟨1216, 26.1, "01", 16.18, 2.585, 12.78125, 55.85, 0, 0, 0,
          fun _ => 0, fun _ => 0, fun _ => 0⟩ : Linedata ℝ) 2).1
        (neff realFns (⟨1216, 26.1, "01", 16.18, 2.585, 12.78125, 55.85, 0, 0, 0,
          fun _ => 0, fun _ => 0, fun _ => 0⟩ : Linedata ℝ) 2).2 2
        (literals 0 0 0 0) = some rg ∧
      rg.flago = r.status ∧ (rg.flago = 0 ∨ rg.flago = 2) ∧
      broad realFns 1
        ⟨fun _ => 5000, fun _ => 0, fun _ => 1, fun _ => 1, fun _ => 0, fun _ => 0⟩
        (fun _ => ⟨1216, 26.1, "01", 16.18, 2.585, 12.78125, 55.85, 0, 0, 0,
          fun _ => 0, fun _ => 0, fun _ => 0⟩)
        0 0 0 1 0 0 = some out := by
  have hch : chargeOf (26.1 : ℝ) = 2 := by
    have hf : ⌊(26.1 : ℝ)⌋ = 26 := by
      rw [Int.floor_eq_iff]
      norm_num
    simp only [chargeOf, approx, hf]
    norm_num [abs_of_pos]
  obtain ⟨r, rg, out, h1, -, -, h2, h3, h4, -, -, h5, -⟩ := C7_ionized_unsold 1
    ⟨fun _ => 5000, fun _ => 0, fun _ => 1, fun _ => 1, fun _ => 0, fun _ => 0⟩
    (fun _ => ⟨1216, 26.1, "01", 16.18, 2.585, 12.78125, 55.85, 0, 0, 0,
      fun _ => 0, fun _ => 0, fun _ => 0⟩)
    0 0 0 1 0 0 (by norm_num) hch rfl (Or.inl (by norm_num))
  exact ⟨r, rg, out, h1, h2, h3, h4, h5⟩

/-- C8 as stated fails for the tag `"AI"`: a molecular line (code 112) tagged
`"AI"` keeps its old `a[0] = 0`, while the molecular formula gives a positive value. -/
theorem C8_counterexample :
    ∃ out, broad realFns 1 ⟨fun _ => 5000, fun _ => 0, fun _ => 1, fun _ => 1, fun _ => 0, fun _ => 0⟩
        (fun _ => ⟨5000, 112, "AI", 0, 0, 0, 24, 0, 0, 0, fun _ => 0, fun _ => 0, fun _ => 0⟩)
        0 0 0 1 0 0 = some out ∧
      (out 0).a 0 = 0 ∧
      (0 : ℝ) < (2.223e15 / (5000 : ℝ) ^ 2 + 1e-7 * 1 + 1e-5 * 1) * 5000 * 1e-8
        / (12.5636 * (out 0).dopp 0) := by
  refine ⟨_, broad_AI realFns 1 _ _ 0 0 0 1 0 0 rfl, ?_, ?_⟩
  · simp
  · have hd : (0 : ℝ) < Real.sqrt (1.6631e+08 * 5000 / 24 + 0 * 0) :=
      Real.sqrt_pos.2 (by norm_num)
    simp only [Function.update_same, doppAt, realFns, Nat.lt_one_iff, if_true]
    positivity

/-- C8, amended: for a line with species code `>= 100` and any tag other than
`"AI"`, `broad` returns and writes at every depth `i < Ntau`
`dopp[i] = sqrt(1.6631e8*T[i]/atomass + mtv[i]^2)` and
`a[i] = (2.223e15/wave^2 + 1e-7*NHI[i] + 1e-5*Ne[i]) * wave * 1e-8 / (12.5636 * dopp[i])`,
whatever `Sig`, `Alp`, the gamma constants of the line and `fac` are. -/
theorem C8_molecular_damping (Ntau : Nat) (model : Atmosphere ℝ) (line : Nat → Linedata ℝ)
    (N : Nat) (Sig Alp fac sigU alpU : ℝ) (hcode : (line N).code ≥ 100)
    (hT : (line N).T ≠ "AI") :
    ∃ out, broad realFns Ntau model line N Sig Alp fac sigU alpU = some out ∧
      ∀ i, i < Ntau →
        (out N).dopp i =
          Real.sqrt (1.6631e8 * model.T i / (line N).atomass + model.mtv i ^ 2) ∧
        (out N).a i =
          (2.223e15 / (line N).wave ^ 2 + 1e-7 * model.NHI i + 1e-5 * model.Ne i)
            * (line N).wave * 1e-8 / (12.5636 * (out N).dopp i) := by
  have hc : ¬ (line N).code < 100.0 := by
    norm_num
    exact hcode
  refine ⟨_, broad_mol realFns Ntau model line N Sig Alp fac sigU alpU hT hc, ?_⟩
  intro i hi
  simp only [Function.update_same, hi, if_true, doppAt, realFns, sq, true_and]
  norm_num

/-- Witness of the amended C8: the molecular line 112.0 with tag `"99"`. -/
theorem C8_molecular_damping_witness :
    ∃ out, broad realFns 1 ⟨fun _ => 5000, fun _ => 0, fun _ => 1, fun _ => 1, fun _ => 0, fun _ => 0⟩
        (fun _ => ⟨5000, 112, "99", 0, 0, 0, 24, 0, 0, 0, fun _ => 0, fun _ => 0, fun _ => 0⟩)
        0 0 0 1 0 0 = some out ∧
      ∀ i, i < 1 →
        (out 0).dopp i = Real.sqrt (1.6631e8 * 5000 / 24 + 0 ^ 2) ∧
        (out 0).a i = (2.223e15 / 5000 ^ 2 + 1e-7 * 1 + 1e-5 * 1) * 5000 * 1e-8
          / (12.5636 * (out 0).dopp i) :=
  C8_molecular_damping 1 ⟨fun _ => 5000, fun _ => 0, fun _ => 1, fun _ => 1, fun _ => 0, fun _ => 0⟩
    (fun _ => ⟨5000, 112, "99", 0, 0, 0, 24, 0, 0, 0, fun _ => 0, fun _ => 0, fun _ => 0⟩)
    0 0 0 1 0 0 (by norm_num) (by decide)

set_option maxRecDepth 4000 in
/-- C9: for an atomic line with tag `"GA"`, the regime flag is decided by the
leading run of sentinels (a value within 0.001 of 1.0) in the order `gammaw`,
`gammas`, `gammar`: 4 when `gammaw` is not the sentinel (whatever `gammas` and
`gammar` are), 5 when `gammaw` is and `gammas` is not, 6 when `gammaw` and
`gammas` are and `gammar` is not, 7 when all three are.  With `gammaw` and
`gammas` the sentinel and `gammar` not the sentinel, `a[i]` at every depth
`i < Ntau` uses the literal `gammar`, the Unsöld `C6` formula for `gammaw` and
`1e-8 * neffh^5 * Ne[i]` for `gammas`. -/
theorem C9_ga_sentinel_cascade (Ntau : Nat) (model : Atmosphere ℝ)
    (line : Nat → Linedata ℝ) (N : Nat) (Sig Alp fac sigU alpU : ℝ)
    (hcode : (line N).code < 100) (hT : (line N).T = "GA") :
    ∃ rg out,
      classify (line N) (neff realFns (line N) (chargeOf (line N).code)).1
        (neff realFns (line N) (chargeOf (line N).code)).2 (chargeOf (line N).code)
        (literals Sig Alp sigU alpU) = some rg ∧
      (¬ |(line N).gammaw - 1.0| ≤ 0.001 → rg.flago = 4) ∧
      (|(line N).gammaw - 1.0| ≤ 0.001 → ¬ |(line N).gammas - 1.0| ≤ 0.001 → rg.flago = 5) ∧
      (|(line N).gammaw - 1.0| ≤ 0.001 → |(line N).gammas - 1.0| ≤ 0.001 →
        ¬ |(line N).gammar - 1.0| ≤ 0.001 → rg.flago = 6) ∧
      (|(line N).gammaw - 1.0| ≤ 0.001 → |(line N).gammas - 1.0| ≤ 0.001 →
        |(line N).gammar - 1.0| ≤ 0.001 → rg.flago = 7) ∧
      broad realFns Ntau model line N Sig Alp fac sigU alpU = some out ∧
      (|(line N).gammaw - 1.0| ≤ 0.001 → |(line N).gammas - 1.0| ≤ 0.001 →
        ¬ |(line N).gammar - 1.0| ≤ 0.001 →
        ∀ i, i < Ntau →
          (out N).a i =
            ((line N).gammar
              + 8.08 * fac
                * (4.05e-33 *
                    ((neff realFns (line N) (chargeOf (line N).code)).2
                        * (neff realFns (line N) (chargeOf (line N).code)).2
                        * (5 * (neff realFns (line N) (chargeOf (line N).code)).2
                            * (neff realFns (line N) (chargeOf (line N).code)).2)
                        / (2 * chargeOf (line N).code * chargeOf (line N).code)
                      - (neff realFns (line N) (chargeOf (line N).code)).1
                        * (neff realFns (line N) (chargeOf (line N).code)).1
                        * (5 * (neff realFns (line N) (chargeOf (line N).code)).1
                            * (neff realFns (line N) (chargeOf (line N).code)).1)
                        / (2 * chargeOf (line N).code * chargeOf (line N).code))) ^ (0.4 : ℝ)
                * Real.sqrt (2.1175e8 * model.T i * (1 / (line N).atomass + 0.9921)) ^ (0.6 : ℝ)
                * model.NHI i
                * (1 + 0.4133 * model.NHeI i / model.NHI i + 0.85 * model.NH2 i / model.NHI i)
              + 1e-8 * (neff realFns (line N) (chargeOf (line N).code)).2 ^ (5 : ℝ)
                * model.Ne i)
              * (line N).wave * 1e-8 / (12.5636 * (out N).dopp i)) := by
  have hne : (line N).T ≠ "AI" := by
    rw [hT]
    decide
  have hrg : classify (line N) (neff realFns (line N) (chargeOf (line N).code)).1
      (neff realFns (line N) (chargeOf (line N).code)).2 (chargeOf (line N).code)
      (literals Sig Alp sigU alpU) =
      some ⟨0, 1, flagoGA (line N), (literals Sig Alp sigU alpU).sig,
        (literals Sig Alp sigU alpU).alp⟩ := by
    simp [classify, hT]
  obtain ⟨c4, c5, c6, c7⟩ := flagoGA_cases (line N)
  have hb := broad_atom realFns Ntau model line N Sig Alp fac sigU alpU _ hne
    (by norm_num; exact hcode) hrg
  refine ⟨_, _, hrg, c4, c5, c6, c7, hb, ?_⟩
  intro hw hs hr i hi
  have h6 := c6 hw hs hr
  simp only [Function.update_same, hi, if_true, gammarAtom, gammawAtom, gammasAtom, c64,
    perturbers, realFns, h6]
  norm_num

/-- Witness of C9: a `"GA"` line with `gammaw = gammas = 1.0` and `gammar = 0.5`. -/
theorem C9_ga_sentinel_cascade_witness :
    ∃ rg out,
      classify (⟨5000, 26, "GA", 7.9, 1, 3, 55.85, 0.5, 1, 1,
          fun _ => 0, fun _ => 0, fun _ => 0⟩ : Linedata ℝ)
        (neff realFns (⟨5000, 26, "GA", 7.9, 1, 3, 55.85, 0.5, 1, 1,
          fun _ => 0, fun _ => 0, fun _ => 0⟩ : Linedata ℝ) (chargeOf 26)).1
        (neff realFns (⟨5000, 26, "GA", 7.9, 1, 3, 55.85, 0.5, 1, 1,
          fun _ => 0, fun _ => 0, fun _ => 0⟩ : Linedata ℝ) (chargeOf 26)).2 (chargeOf 26)
        (literals 0 0 0 0) = some rg ∧
      rg.flago = 6 ∧
      broad realFns 1
        ⟨fun _ => 5000, fun _ => 0, fun _ => 1, fun _ => 1, fun _ => 0, fun _ => 0⟩
        (fun _ => ⟨5000, 26, "GA", 7.9, 1, 3, 55.85, 0.5, 1, 1,
          fun _ => 0, fun _ => 0, fun _ => 0⟩)
        0 0 0 1 0 0 = some out := by
  obtain ⟨rg, out, h1, -, -, h6, -, hb, -⟩ := C9_ga_sentinel_cascade 1
    ⟨fun _ => 5000, fun _ => 0, fun _ => 1, fun _ => 1, fun _ => 0, fun _ => 0⟩
    (fun _ => ⟨5000, 26, "GA", 7.9, 1, 3, 55.85, 0.5, 1, 1,
      fun _ => 0, fun _ => 0, fun _ => 0⟩)
    0 0 0 1 0 0 (by norm_num) rfl
  exact ⟨rg, out, h1, h6 (by norm_num) (by norm_num) (by norm_num [abs_of_neg]), hb⟩

/-- C10: with the mass of the line positive and the same microturbulent
velocities, raising the temperatures of the model does not lower any Doppler
width that `broad` writes, whatever branch (autoionizing, atomic, molecular)
the line takes: `broad` returns on both models and `dopp[i]` is monotone in `T[i]`. -/
theorem C10_doppler_monotone (Ntau : Nat) (m1 m2 : Atmosphere ℝ) (line : Nat → Linedata ℝ)
    (N : Nat) (Sig Alp fac sigU alpU : ℝ) (hm : 0 < (line N).atomass)
    (hv : ∀ i, m1.mtv i = m2.mtv i) (hT : ∀ i, m1.T i ≤ m2.T i) :
    ∃ out1 out2, broad realFns Ntau m1 line N Sig Alp fac sigU alpU = some out1 ∧
      broad realFns Ntau m2 line N Sig Alp fac sigU alpU = some out2 ∧
      ∀ i, i < Ntau →
        (out1 N).dopp i =
          Real.sqrt (1.6631e8 * m1.T i / (line N).atomass + m1.mtv i ^ 2) ∧
        (out2 N).dopp i =
          Real.sqrt (1.6631e8 * m2.T i / (line N).atomass + m2.mtv i ^ 2) ∧
        (out1 N).dopp i ≤ (out2 N).dopp i := by
  obtain ⟨out1, h1, d1⟩ := broad_dopp realFns Ntau m1 line N Sig Alp fac sigU alpU
  obtain ⟨out2, h2, d2⟩ := broad_dopp realFns Ntau m2 line N Sig Alp fac sigU alpU
  refine ⟨out1, out2, h1, h2, fun i hi => ?_⟩
  rw [d1 i, d2 i]
  simp only [hi, if_true, doppAt, realFns, sq]
  refine ⟨trivial, trivial, ?_⟩
  apply Real.sqrt_le_sqrt
  rw [hv i]
  have : 1.6631e+08 * m1.T i / (line N).atomass ≤ 1.6631e+08 * m2.T i / (line N).atomass := by
    apply div_le_div_of_nonneg_right _ hm.le
    exact mul_le_mul_of_nonneg_left (hT i) (by norm_num)
  linarith

/-- Witness of C10: the same iron line in a model at 5000 K and one at 6000 K. -/
theorem C10_doppler_monotone_witness :
    ∃ out1 out2,
      broad realFns 1
        ⟨fun _ => 5000, fun _ => 2, fun _ => 1, fun _ => 1, fun _ => 0, fun _ => 0⟩
        (fun _ => ⟨5000, 26, "99", 7.9, 1, 3, 55.85, 0, 0, 0, fun _ => 0, fun _ => 0, fun _ => 0⟩)
        0 0 0 1 0 0 = some out1 ∧
      broad realFns 1
        ⟨fun _ => 6000, fun _ => 2, fun _ => 1, fun _ => 1, fun _ => 0, fun _ => 0⟩
        (fun _ => ⟨5000, 26, "99", 7.9, 1, 3, 55.85, 0, 0, 0, fun _ => 0, fun _ => 0, fun _ => 0⟩)
        0 0 0 1 0 0 = some out2 ∧
      ∀ i, i < 1 → (out1 0).dopp i ≤ (out2 0).dopp i := by
  obtain ⟨out1, out2, h1, h2, h3⟩ := C10_doppler_monotone 1
    ⟨fun _ => 5000, fun _ => 2, fun _ => 1, fun _ => 1, fun _ => 0, fun _ => 0⟩
    ⟨fun _ => 6000, fun _ => 2, fun _ => 1, fun _ => 1, fun _ => 0, fun _ => 0⟩
    (fun _ => ⟨5000, 26, "99", 7.9, 1, 3, 55.85, 0, 0, 0, fun _ => 0, fun _ => 0, fun _ => 0⟩)
    0 0 0 1 0 0 (by norm_num) (fun _ => rfl) (fun _ => by norm_num)
  exact ⟨out1, out2, h1, h2, fun i hi => (h3 i hi).2.2⟩

end Claims

section ChargeLemmas

variable {K : Type} [LinearOrderedField K] [FloorRing K]

/-- The charge derived from the species code is one of 1, 2, 3, 4. -/
theorem chargeOf_mem (c : K) :
    chargeOf c = 1 ∨ chargeOf c = 2 ∨ chargeOf c = 3 ∨ chargeOf c = 4 := by
  unfold chargeOf
  simp only []
  split_ifs
  · left; norm_num
  · right; left; norm_num
  · right; right; left; norm_num
  · right; right; right; norm_num
  · right; left; norm_num

/-- The charge derived from the species code is positive. -/
theorem chargeOf_pos (c : K) : 0 < chargeOf c := by
  rcases chargeOf_mem c with h | h | h | h <;> rw [h] <;> norm_num

end ChargeLemmas

section RegimeLemmas2

variable {K : Type} [LinearOrderedField K]

/-- A property that holds of both branches of a conditional holds of the conditional. -/
theorem ite_prop {α : Type} (P : α → Prop) {c : Prop} [Decidable c] {a b : α}
    (ha : c → P a) (hb : ¬ c → P b) : P (if c then a else b) := by
  by_cases h : c
  · rw [if_pos h]; exact ha h
  · rw [if_neg h]; exact hb h

/-- The flag set from the literals is 0 or 1. -/
theorem literals_flago (Sig Alp sigU alpU : K) :
    (literals Sig Alp sigU alpU).flago = 0 ∨ (literals Sig Alp sigU alpU).flago = 1 := by
  unfold literals
  simp only []
  split_ifs <;> first | exact Or.inr rfl | exact Or.inl rfl

omit [LinearOrderedField K] in
/-- The flag of a tag branch that goes through a table is 0, 1 or 2 when the
incoming flag is 0 or 1. -/
theorem viaTable_flago {f : K → K → Int → Int → K → K → K → Option (Interp K)}
    {neffl neffh charge : K} {ll lh : Int} (lit : Literals K)
    (hf : ∀ s a, ∃ r, f neffl neffh ll lh s a charge = some r ∧
      (r.status = 0 ∨ r.status = 1 ∨ r.status = 2))
    (hlit : lit.flago = 0 ∨ lit.flago = 1) (rg : Regime K)
    (h : viaTable f neffl neffh charge ll lh lit = some rg) :
    rg.flago = 0 ∨ rg.flago = 1 ∨ rg.flago = 2 := by
  obtain ⟨rg', h', -, -, h0, h1⟩ := viaTable_some lit hf
  rw [h] at h'
  obtain rfl := Option.some.inj h'
  by_cases hS : lit.flagS = 0
  · exact h0 hS
  · rw [(h1 hS).1]
    rcases hlit with h | h
    · exact Or.inl h
    · exact Or.inr (Or.inl h)

variable [FloorRing K]

/-- The regime flag after the tag tests is 0, 1, 2 or 3, except for the tag
`"GA"`, where it is the flag of the sentinel cascade. -/
theorem classify_flago (ln : Linedata K) (neffl neffh charge : K) (lit : Literals K)
    (hlit : lit.flago = 0 ∨ lit.flago = 1) (rg : Regime K)
    (h : classify ln neffl neffh charge lit = some rg) :
    (rg.flago = 0 ∨ rg.flago = 1 ∨ rg.flago = 2 ∨ rg.flago = 3) ∨
      (ln.T = "GA" ∧ rg.flago = flagoGA ln) := by
  have hsp := sp_total_broad neffl neffh charge
  have hpd := pd_total_broad neffl neffh charge
  have hdf := df_total_broad neffl neffh charge
  have via : ∀ {f : K → K → Int → Int → K → K → K → Option (Interp K)} {ll lh : Int},
      (∀ s a, ∃ r, f neffl neffh ll lh s a charge = some r ∧
        (r.status = 0 ∨ r.status = 1 ∨ r.status = 2)) →
      ∀ rg : Regime K, viaTable f neffl neffh charge ll lh lit = some rg →
        (rg.flago = 0 ∨ rg.flago = 1 ∨ rg.flago = 2 ∨ rg.flago = 3) ∨
          (ln.T = "GA" ∧ rg.flago = flagoGA ln) := by
    intro f ll lh hf rg hrg
    rcases viaTable_flago lit hf hlit rg hrg with h | h | h
    · exact Or.inl (Or.inl h)
    · exact Or.inl (Or.inr (Or.inl h))
    · exact Or.inl (Or.inr (Or.inr (Or.inl h)))
  have c3 : ∀ (ll lh : Int) (rg : Regime K),
      some (⟨ll, lh, 3, lit.sig, lit.alp⟩ : Regime K) = some rg →
        (rg.flago = 0 ∨ rg.flago = 1 ∨ rg.flago = 2 ∨ rg.flago = 3) ∨
          (ln.T = "GA" ∧ rg.flago = flagoGA ln) := by
    intro ll lh rg hrg
    obtain rfl := Option.some.inj hrg
    exact Or.inl (Or.inr (Or.inr (Or.inr rfl)))
  have c2 : ∀ (ll lh : Int) (rg : Regime K),
      some (⟨ll, lh, 2, lit.sig, lit.alp⟩ : Regime K) = some rg →
        (rg.flago = 0 ∨ rg.flago = 1 ∨ rg.flago = 2 ∨ rg.flago = 3) ∨
          (ln.T = "GA" ∧ rg.flago = flagoGA ln) := by
    intro ll lh rg hrg
    obtain rfl := Option.some.inj hrg
    exact Or.inl (Or.inr (Or.inr (Or.inl rfl)))
  let P : Option (Regime K) → Prop := fun o => ∀ rg : Regime K, o = some rg →
    (rg.flago = 0 ∨ rg.flago = 1 ∨ rg.flago = 2 ∨ rg.flago = 3) ∨
      (ln.T = "GA" ∧ rg.flago = flagoGA ln)
  have hP : P (classify ln neffl neffh charge lit) := by
    unfold classify
    refine ite_prop P (fun _ => c3 9 9) fun _ => ?_
    refine ite_prop P (fun _ => via hsp.1) fun _ => ?_
    refine ite_prop P (fun _ => via hsp.2) fun _ => ?_
    refine ite_prop P (fun _ => via hpd.1) fun _ => ?_
    refine ite_prop P (fun _ => via hpd.2) fun _ => ?_
    refine ite_prop P (fun _ => via hdf.1) fun _ => ?_
    refine ite_prop P (fun _ => via hdf.2) fun _ => ?_
    refine ite_prop P (fun _ => c2 3 4) fun _ => ?_
    refine ite_prop P (fun _ => c2 4 3) fun _ => ?_
    refine ite_prop P (fun _ => c2 4 5) fun _ => ?_
    refine ite_prop P (fun _ => c2 5 4) fun _ => ?_
    refine ite_prop P (fun _ => c2 5 6) fun _ => ?_
    refine ite_prop P (fun _ => c2 6 5) fun _ => ?_
    refine ite_prop P (fun _ rg hrg => ?_) fun _ => ?_
    · obtain rfl := Option.some.inj hrg
      exact Or.inl (Or.inr (Or.inl rfl))
    refine ite_prop P (fun hGA rg hrg => ?_) fun _ => c3 9 9
    obtain rfl := Option.some.inj hrg
    exact Or.inr ⟨hGA, rfl⟩
  exact hP rg h

/-- The regime flag is 4 only for the tag `"GA"` with a `gammaw` that is not the sentinel. -/
theorem classify_flago_ne_four (ln : Linedata K) (neffl neffh charge : K) (lit : Literals K)
    (hlit : lit.flago = 0 ∨ lit.flago = 1) (rg : Regime K)
    (h : classify ln neffl neffh charge lit = some rg)
    (hGA : ¬ (ln.T = "GA" ∧ ¬ |ln.gammaw - 1.0| ≤ 0.001)) : rg.flago ≠ 4 := by
  rcases classify_flago ln neffl neffh charge lit hlit rg h with h1 | ⟨hT, h1⟩
  · rcases h1 with h1 | h1 | h1 | h1 <;> rw [h1] <;> decide
  · have hw : |ln.gammaw - 1.0| ≤ 0.001 := by
      by_contra hw
      exact hGA ⟨hT, hw⟩
    rw [h1]
    obtain ⟨-, c5, c6, c7⟩ := flagoGA_cases ln
    by_cases hs : |ln.gammas - 1.0| ≤ 0.001
    · by_cases hr : |ln.gammar - 1.0| ≤ 0.001
      · rw [c7 hw hs hr]; decide
      · rw [c6 hw hs hr]; decide
    · rw [c5 hw hs]; decide

end RegimeLemmas2

section BroadTotal

variable {K : Type} [LinearOrderedField K] [FloorRing K]

/-- The atomic branch of `broad` always returns: the tag tests yield a regime
`rg` whose flag is not 4 unless the tag is `"GA"` with a literal `gammaw`, and
the result is the closed form of `broad_atom` for that regime. -/
theorem broad_atom_ex (M : MathFns K) (Ntau : Nat) (model : Atmosphere K)
    (line : Nat → Linedata K) (N : Nat) (Sig Alp fac sigU alpU : K)
    (hT : (line N).T ≠ "AI") (hc : (line N).code < 100.0) :
    ∃ rg, classify (line N) (neff M (line N) (chargeOf (line N).code)).1
        (neff M (line N) (chargeOf (line N).code)).2 (chargeOf (line N).code)
        (literals Sig Alp sigU alpU) = some rg ∧
      (¬ ((line N).T = "GA" ∧ ¬ |(line N).gammaw - 1.0| ≤ 0.001) → rg.flago ≠ 4) ∧
      broad M Ntau model line N Sig Alp fac sigU alpU =
        some (Function.update line N
          { line N with
            dopp := fun i => if i < Ntau then doppAt M model (line N) i else (line N).dopp i
            dlg := fun i => if i < Ntau ∧ rg.flago ≠ 4 then 1.0 else (line N).dlg i
            a := fun i =>
              if i < Ntau then
                (gammarAtom (line N) rg.flago
                  + gammawAtom M model (line N) fac rg.flago rg.alp (omara M rg)
                      (c64 M rg (neff M (line N) (chargeOf (line N).code)).1
                        (neff M (line N) (chargeOf (line N).code)).2 (chargeOf (line N).code)) i
                  + gammasAtom model (line N) rg.flago
                      (M.pow (neff M (line N) (chargeOf (line N).code)).2 5.0) i)
                  * (line N).wave * 1.0e-08 / (12.5636 * doppAt M model (line N) i)
              else (line N).a i }) := by
  obtain ⟨rg, hrg⟩ := classify_some (line N) (neff M (line N) (chargeOf (line N).code)).1
    (neff M (line N) (chargeOf (line N).code)).2 (chargeOf (line N).code)
    (literals Sig Alp sigU alpU)
  exact ⟨rg, hrg, classify_flago_ne_four _ _ _ _ _ (literals_flago Sig Alp sigU alpU) rg hrg,
    broad_atom M Ntau model line N Sig Alp fac sigU alpU rg hT hc hrg⟩

end BroadTotal

section GridLemmas

variable {K : Type} [LinearOrderedField K]

/-- In a strictly ascending axis, an earlier entry is below a later one. -/
theorem axis_lt {axis : List K} (hs : axis.Pairwise (· < ·)) {i j : Nat} {x y : K}
    (hi : axis[i]? = some x) (hj : axis[j]? = some y) (hij : i < j) : x < y := by
  obtain ⟨h1, rfl⟩ := List.getElem?_eq_some.mp hi
  obtain ⟨h2, rfl⟩ := List.getElem?_eq_some.mp hj
  exact List.pairwise_iff_getElem.mp hs i j h1 h2 hij

/-- On a strictly ascending axis, the scan of the axis value `axis[i]`, `i ≥ 1`,
breaks at `i - 1`: the cell below the grid line. -/
theorem scan_at_grid {axis : List K} (hs : axis.Pairwise (· < ·)) {i n : Nat} {x : K}
    (hi : 1 ≤ i) (hin : i ≤ n) (hx : axis[i]? = some x) : scan axis n x = some (i - 1) := by
  have hx' : axis[i - 1 + 1]? = some x := by
    rw [Nat.sub_add_cancel hi]
    exact hx
  obtain ⟨k, hk, hki⟩ := scanFrom_exists (i - 1) x hx' le_rfl n 0 (Nat.zero_le _) (by omega)
  obtain ⟨-, -, ⟨v, hv, hxv⟩, -⟩ := scanFrom_some n 0 k hk
  have : ¬ k + 1 < i := fun hlt => absurd (axis_lt hs hv hx hlt) (not_lt.2 hxv)
  have hke : k = i - 1 := by omega
  rw [← hke]
  exact hk

/-- At the upper corner of a cell the two-stage interpolation returns the corner value. -/
theorem bilinear_at_corner (v1 v2 v3 v4 x0 x1 y0 y1 : K) (hx : x0 < x1) (hy : y0 < y1) :
    bilinear v1 v2 v3 v4 x1 y1 x0 x1 y0 y1 = v4 := by
  have h1 : x1 - x0 ≠ 0 := by
    have : 0 < x1 - x0 := by linarith
    exact ne_of_gt this
  have h2 : y1 - y0 ≠ 0 := by
    have : 0 < y1 - y0 := by linarith
    exact ne_of_gt this
  simp only [bilinear]
  field_simp

omit [LinearOrderedField K] in
/-- The fourth corner read of the cell `(k, l)` is the table entry `(k + 1, l + 1)`. -/
theorem corners_fourth {tab : List (List K)} {k l : Nat} {v1 v2 v3 v4 : K}
    (h : corners tab k l = some (v1, v2, v3, v4)) : at2 tab (k + 1) (l + 1) = some v4 := by
  unfold corners at h
  cases h1 : at2 tab k l with
  | none => simp [h1] at h
  | some w1 =>
    cases h2 : at2 tab (k + 1) l with
    | none => simp [h1, h2] at h
    | some w2 =>
      cases h3 : at2 tab k (l + 1) with
      | none => simp [h1, h2, h3] at h
      | some w3 =>
        cases h4 : at2 tab (k + 1) (l + 1) with
        | none => simp [h1, h2, h3, h4] at h
        | some w4 =>
          simp [h1, h2, h3, h4] at h
          rw [h.2.2.2]

omit [LinearOrderedField K] in
/-- The second axis read of a cell is the axis entry after the cell index. -/
theorem ends_snd {ax : List K} {k : Nat} {x0 x1 : K} (h : ends ax k = some (x0, x1)) :
    ax[k]? = some x0 ∧ ax[k + 1]? = some x1 := by
  unfold ends at h
  cases h1 : ax[k]? with
  | none => simp [h1] at h
  | some w1 =>
    cases h2 : ax[k + 1]? with
    | none => simp [h1, h2] at h
    | some w2 =>
      simp [h1, h2] at h
      rw [h.1, h.2]
      exact ⟨rfl, rfl⟩

variable [FloorRing K]

/-- The axis `ns` of `sp` is strictly ascending. -/
theorem sp_ns_sorted : (sp.ns K).Pairwise (· < ·) := by
  simp only [
    sp.ns, List.map_cons, List.map_nil, narrow_1_0, narrow_1_1, narrow_1_2, narrow_1_3,
    narrow_1_4, narrow_1_5, narrow_1_6, narrow_1_7, narrow_1_8, narrow_1_9, narrow_2_0,
    narrow_2_1, narrow_2_2, narrow_2_3, narrow_2_4, narrow_2_5, narrow_2_6, narrow_2_7,
    narrow_2_8, narrow_2_9, narrow_3_0, List.pairwise_cons, List.mem_cons, List.mem_singleton,
    forall_eq_or_imp, forall_eq, List.not_mem_nil, false_implies, implies_true,
    List.Pairwise.nil, and_true]
  norm_num

/-- The axis `np` of `sp` is strictly ascending. -/
theorem sp_np_sorted : (sp.np K).Pairwise (· < ·) := by
  simp only [
    sp.np, List.map_cons, List.map_nil, narrow_1_3, narrow_1_4, narrow_1_5, narrow_1_6,
    narrow_1_7, narrow_1_8, narrow_1_9, narrow_2_0, narrow_2_1, narrow_2_2, narrow_2_3,
    narrow_2_4, narrow_2_5, narrow_2_6, narrow_2_7, narrow_2_8, narrow_2_9, narrow_3_0,
    List.pairwise_cons, List.mem_cons, List.mem_singleton, forall_eq_or_imp, forall_eq,
    List.not_mem_nil, false_implies, implies_true, List.Pairwise.nil, and_true]
  norm_num


/-- The axis `np` of `pd` is strictly ascending. -/
theorem pd_np_sorted : (pd.np K).Pairwise (· < ·) := by
  simp only [
    pd.np, List.map_cons, List.map_nil, narrow_1_3, narrow_1_4, narrow_1_5, narrow_1_6,
    narrow_1_7, narrow_1_8, narrow_1_9, narrow_2_0, narrow_2_1, narrow_2_2, narrow_2_3,
    narrow_2_4, narrow_2_5, narrow_2_6, narrow_2_7, narrow_2_8, narrow_2_9, narrow_3_0,
    List.pairwise_cons, List.mem_cons, List.mem_singleton, forall_eq_or_imp, forall_eq,
    List.not_mem_nil, false_implies, implies_true, List.Pairwise.nil, and_true]
  norm_num

/-- The axis `nd` of `pd` is strictly ascending. -/
theorem pd_nd_sorted : (pd.nd K).Pairwise (· < ·) := by
  simp only [
    pd.nd, List.map_cons, List.map_nil, narrow_2_3, narrow_2_4, narrow_2_5, narrow_2_6,
    narrow_2_7, narrow_2_8, narrow_2_9, narrow_3_0, narrow_3_1, narrow_3_2, narrow_3_3,
    narrow_3_4, narrow_3_5, narrow_3_6, narrow_3_7, narrow_3_8, narrow_3_9, narrow_4_0,
    List.pairwise_cons, List.mem_cons, List.mem_singleton, forall_eq_or_imp, forall_eq,
    List.not_mem_nil, false_implies, implies_true, List.Pairwise.nil, and_true]
  norm_num

/-- The axis `nd` of `df` is strictly ascending. -/
theorem df_nd_sorted : (df.nd K).Pairwise (· < ·) := by
  simp only [
    df.nd, List.map_cons, List.map_nil, narrow_2_3, narrow_2_4, narrow_2_5, narrow_2_6,
    narrow_2_7, narrow_2_8, narrow_2_9, narrow_3_0, narrow_3_1, narrow_3_2, narrow_3_3,
    narrow_3_4, narrow_3_5, narrow_3_6, narrow_3_7, narrow_3_8, narrow_3_9, narrow_4_0,
    List.pairwise_cons, List.mem_cons, List.mem_singleton, forall_eq_or_imp, forall_eq,
    List.not_mem_nil, false_implies, implies_true, List.Pairwise.nil, and_true]
  norm_num

/-- The axis `nf` of `df` is strictly ascending. -/
theorem df_nf_sorted : (df.nf K).Pairwise (· < ·) := by
  simp only [
    df.nf, List.map_cons, List.map_nil, narrow_3_3, narrow_3_4, narrow_3_5, narrow_3_6,
    narrow_3_7, narrow_3_8, narrow_3_9, narrow_4_0, narrow_4_1, narrow_4_2, narrow_4_3,
    narrow_4_4, narrow_4_5, narrow_4_6, narrow_4_7, narrow_4_8, narrow_4_9, narrow_5_0,
    List.pairwise_cons, List.mem_cons, List.mem_singleton, forall_eq_or_imp, forall_eq,
    List.not_mem_nil, false_implies, implies_true, List.Pairwise.nil, and_true]
  norm_num

omit [FloorRing K] in
/-- An axis value `axis[i]`, `i ≥ 1`, of a strictly ascending axis lies at or
above the second entry `axis[1]` and at or below any later entry `axis[m]`,
`i ≤ m`. -/
theorem grid_in_range {axis : List K} (hs : axis.Pairwise (· < ·)) {i m : Nat} {x lo hi : K}
    (hi1 : 1 ≤ i) (hx : axis[i]? = some x) (h0 : axis[1]? = some lo)
    (hm : axis[m]? = some hi) (him : i ≤ m) : lo ≤ x ∧ x ≤ hi := by
  refine ⟨?_, ?_⟩
  · rcases Nat.lt_or_ge 1 i with h | h
    · exact (axis_lt hs h0 hx h).le
    · have : i = 1 := by omega
      subst this
      rw [hx] at h0
      exact (Option.some.inj h0).ge
  rcases Nat.lt_or_ge i m with h | h
  · exact (axis_lt hs hx hm h).le
  · have : i = m := by omega
    subst this
    rw [hx] at hm
    exact (Option.some.inj hm).le

omit [FloorRing K] in
/-- What the common tail of the interpolators does at a grid point
`(axis1[i], axis2[j])`, `i, j ≥ 1`: the scans select the cell `(i - 1, j - 1)`,
both weights are 1 and the interpolated values are the table entries `(i, j)`. -/
theorem at_grid_point {sig alp : List (List K)} {ax1 ax2 : List K} {n1 n2 i j k l : Nat}
    {x y s1 s2 s3 s4 a1 a2 a3 a4 x0 x1 y0 y1 : K}
    (hs1 : ax1.Pairwise (· < ·)) (hs2 : ax2.Pairwise (· < ·))
    (hi : 1 ≤ i) (hin : i ≤ n1) (hj : 1 ≤ j) (hjn : j ≤ n2)
    (hx : ax1[i]? = some x) (hy : ax2[j]? = some y)
    (hk : scan ax1 n1 x = some k) (hl : scan ax2 n2 y = some l)
    (hsig : corners sig k l = some (s1, s2, s3, s4))
    (halp : corners alp k l = some (a1, a2, a3, a4))
    (hex : ends ax1 k = some (x0, x1)) (hey : ends ax2 l = some (y0, y1))
    (hx0 : x0 < x) (hy0 : y0 < y) :
    k = i - 1 ∧ l = j - 1 ∧ x1 = x ∧ y1 = y ∧
      ax1[i - 1]? = some x0 ∧ ax2[j - 1]? = some y0 ∧
      at2 sig i j = some s4 ∧ at2 alp i j = some a4 ∧
      bilinear s1 s2 s3 s4 x y x0 x1 y0 y1 = s4 ∧
      bilinear a1 a2 a3 a4 x y x0 x1 y0 y1 = a4 ∧
      (x - x0) / (x1 - x0) = 1 ∧ (y - y0) / (y1 - y0) = 1 := by
  have hk' : k = i - 1 := by
    have := scan_at_grid hs1 hi hin hx
    rw [hk] at this
    exact Option.some.inj this
  have hl' : l = j - 1 := by
    have := scan_at_grid hs2 hj hjn hy
    rw [hl] at this
    exact Option.some.inj this
  have hk1 : k + 1 = i := by omega
  have hl1 : l + 1 = j := by omega
  obtain ⟨e0, e1⟩ := ends_snd hex
  obtain ⟨f0, f1⟩ := ends_snd hey
  rw [hk1, hx] at e1
  rw [hl1, hy] at f1
  have hx1 : x1 = x := (Option.some.inj e1).symm
  have hy1 : y1 = y := (Option.some.inj f1).symm
  have c1 := corners_fourth hsig
  have c2 := corners_fourth halp
  rw [hk1, hl1] at c1 c2
  subst hx1 hy1
  have dx : x1 - x0 ≠ 0 := ne_of_gt (by linarith)
  have dy : y1 - y0 ≠ 0 := ne_of_gt (by linarith)
  refine ⟨hk', hl', rfl, rfl, ?_, ?_, c1, c2, bilinear_at_corner _ _ _ _ _ _ _ _ hx0 hy0,
    bilinear_at_corner _ _ _ _ _ _ _ _ hx0 hy0, div_self dx, div_self dy⟩
  · rw [← hk']
    exact e0
  · rw [← hl']
    exact f0

end GridLemmas

section Claims2

/-- C11: with `n = floor(c)`, the charge that `broad` derives from the species
code `c` is 1 when `c` is within 0.001 of `n`, 2 when within 0.001 of `n + 0.1`,
3 when within 0.001 of `n + 0.2`, 4 when within 0.001 of `n + 0.3`, and 2 for
every other fractional part (such as `n + 0.4` or `n + 0.05`); it is always one
of 1, 2, 3, 4. -/
theorem C11_charge_from_code {K : Type} [LinearOrderedField K] [FloorRing K] (c : K) :
    (|c - ((⌊c⌋ : Int) : K)| ≤ 0.001 → chargeOf c = 1) ∧
    (|c - (((⌊c⌋ : Int) : K) + 0.1)| ≤ 0.001 → chargeOf c = 2) ∧
    (|c - (((⌊c⌋ : Int) : K) + 0.2)| ≤ 0.001 → chargeOf c = 3) ∧
    (|c - (((⌊c⌋ : Int) : K) + 0.3)| ≤ 0.001 → chargeOf c = 4) ∧
    (¬ |c - ((⌊c⌋ : Int) : K)| ≤ 0.001 → ¬ |c - (((⌊c⌋ : Int) : K) + 0.1)| ≤ 0.001 →
      ¬ |c - (((⌊c⌋ : Int) : K) + 0.2)| ≤ 0.001 → ¬ |c - (((⌊c⌋ : Int) : K) + 0.3)| ≤ 0.001 →
      chargeOf c = 2) ∧
    (c = ((⌊c⌋ : Int) : K) + 0.4 → chargeOf c = 2) ∧
    (c = ((⌊c⌋ : Int) : K) + 0.05 → chargeOf c = 2) ∧
    (chargeOf c = 1 ∨ chargeOf c = 2 ∨ chargeOf c = 3 ∨ chargeOf c = 4) := by
  have key : ∀ d e : K, |c - (((⌊c⌋ : Int) : K) + d)| ≤ 0.001 → 0.002 < |d - e| →
      ¬ |c - (((⌊c⌋ : Int) : K) + e)| ≤ 0.001 := by
    intro d e h1 h2 h3
    have h4 : |d - e| ≤ 0.002 := by
      have : d - e = (c - (((⌊c⌋ : Int) : K) + e)) - (c - (((⌊c⌋ : Int) : K) + d)) := by ring
      rw [this]
      calc |c - (((⌊c⌋ : Int) : K) + e) - (c - (((⌊c⌋ : Int) : K) + d))|
          ≤ |c - (((⌊c⌋ : Int) : K) + e)| + |c - (((⌊c⌋ : Int) : K) + d)| := abs_sub _ _
        _ ≤ 0.001 + 0.001 := add_le_add h3 h1
        _ = 0.002 := by norm_num
    exact absurd h4 (not_le.2 h2)
  have z : ((⌊c⌋ : Int) : K) = ((⌊c⌋ : Int) : K) + 0 := (add_zero _).symm
  have a1 : |(0.1 : K) - 0| = 0.1 := by rw [sub_zero, abs_of_pos]; norm_num
  have a2 : |(0.2 : K) - 0| = 0.2 := by rw [sub_zero, abs_of_pos]; norm_num
  have a3 : |(0.3 : K) - 0| = 0.3 := by rw [sub_zero, abs_of_pos]; norm_num
  have a4 : |(0.4 : K) - 0| = 0.4 := by rw [sub_zero, abs_of_pos]; norm_num
  have a5 : |(0.05 : K) - 0| = 0.05 := by rw [sub_zero, abs_of_pos]; norm_num
  have b21 : |(0.2 : K) - 0.1| = 0.1 := by rw [abs_of_pos] <;> norm_num
  have b31 : |(0.3 : K) - 0.1| = 0.2 := by rw [abs_of_pos] <;> norm_num
  have b32 : |(0.3 : K) - 0.2| = 0.1 := by rw [abs_of_pos] <;> norm_num
  have other : ¬ |c - ((⌊c⌋ : Int) : K)| ≤ 0.001 → ¬ |c - (((⌊c⌋ : Int) : K) + 0.1)| ≤ 0.001 →
      ¬ |c - (((⌊c⌋ : Int) : K) + 0.2)| ≤ 0.001 → ¬ |c - (((⌊c⌋ : Int) : K) + 0.3)| ≤ 0.001 →
      chargeOf c = 2 := by
    intro h0 h1 h2 h3
    simp only [chargeOf, approx, h0, h1, h2, h3, if_false]
    norm_num
  refine ⟨?_, ?_, ?_, ?_, other, ?_, ?_, chargeOf_mem c⟩
  · intro h
    simp only [chargeOf, approx, h, if_true]
    norm_num
  · intro h
    have h0 : ¬ |c - ((⌊c⌋ : Int) : K)| ≤ 0.001 := by
      rw [z]
      exact key 0.1 0 h (by rw [a1]; norm_num)
    simp only [chargeOf, approx, h0, h, if_true, if_false]
    norm_num
  · intro h
    have h0 : ¬ |c - ((⌊c⌋ : Int) : K)| ≤ 0.001 := by
      rw [z]
      exact key 0.2 0 h (by rw [a2]; norm_num)
    have h1 : ¬ |c - (((⌊c⌋ : Int) : K) + 0.1)| ≤ 0.001 :=
      key 0.2 0.1 h (by rw [b21]; norm_num)
    simp only [chargeOf, approx, h0, h1, h, if_true, if_false]
    norm_num
  · intro h
    have h0 : ¬ |c - ((⌊c⌋ : Int) : K)| ≤ 0.001 := by
      rw [z]
      exact key 0.3 0 h (by rw [a3]; norm_num)
    have h1 : ¬ |c - (((⌊c⌋ : Int) : K) + 0.1)| ≤ 0.001 :=
      key 0.3 0.1 h (by rw [b31]; norm_num)
    have h2 : ¬ |c - (((⌊c⌋ : Int) : K) + 0.2)| ≤ 0.001 :=
      key 0.3 0.2 h (by rw [b32]; norm_num)
    simp only [chargeOf, approx, h0, h1, h2, h, if_true, if_false]
    norm_num
  · intro h
    have hc : |c - (((⌊c⌋ : Int) : K) + 0.4)| ≤ 0.001 := by
      rw [← h, sub_self, abs_zero]
      norm_num
    refine other ?_ (key 0.4 0.1 hc ?_) (key 0.4 0.2 hc ?_) (key 0.4 0.3 hc ?_)
    · rw [z]
      exact key 0.4 0 hc (by rw [a4]; norm_num)
    · rw [abs_of_pos] <;> norm_num
    · rw [abs_of_pos] <;> norm_num
    · rw [abs_of_pos] <;> norm_num
  · intro h
    have hc : |c - (((⌊c⌋ : Int) : K) + 0.05)| ≤ 0.001 := by
      rw [← h, sub_self, abs_zero]
      norm_num
    refine other ?_ (key 0.05 0.1 hc ?_) (key 0.05 0.2 hc ?_) (key 0.05 0.3 hc ?_)
    · rw [z]
      exact key 0.05 0 hc (by rw [a5]; norm_num)
    · rw [abs_of_neg] <;> norm_num
    · rw [abs_of_neg] <;> norm_num
    · rw [abs_of_neg] <;> norm_num

/-- Witness of C11: the species code 26.1 has floor 26 and charge 2. -/
theorem C11_charge_from_code_witness : chargeOf (26.1 : ℚ) = 2 :=
  (C11_charge_from_code (26.1 : ℚ)).2.1 (by
    have hf : ⌊(26.1 : ℚ)⌋ = 26 := by
      rw [Int.floor_eq_iff]
      norm_num
    rw [hf]
    norm_num)

/-- C12: the effective quantum numbers that `broad` derives for an atomic line
are `neffh = 5.0` if `chi <= Eu`, else `charge * sqrt(13.595 / (chi - Eu))`, and
`neffl = 4.0` if `chi <= El`, else `charge * sqrt(13.595 / (chi - El))`, except
that when this `neffl` is not below `neffh` it is replaced by `neffh - 1.0`. -/
theorem C12_effective_quantum_numbers (ln : Linedata ℝ) (charge : ℝ) :
    (neff realFns ln charge).2 =
      (if ln.chi ≤ ln.Eu then 5.0 else charge * Real.sqrt (13.595 / (ln.chi - ln.Eu))) ∧
    (neff realFns ln charge).1 =
      (if (if ln.chi ≤ ln.Eu then 5.0 else charge * Real.sqrt (13.595 / (ln.chi - ln.Eu)))
          ≤ (if ln.chi ≤ ln.El then 4.0 else charge * Real.sqrt (13.595 / (ln.chi - ln.El)))
        then (if ln.chi ≤ ln.Eu then 5.0 else charge * Real.sqrt (13.595 / (ln.chi - ln.Eu)))
          - 1.0
        else (if ln.chi ≤ ln.El then 4.0 else charge * Real.sqrt (13.595 / (ln.chi - ln.El))))
    := by
  simp only [neff, realFns]
  exact ⟨trivial, trivial⟩

/-- C13: for every atomic line, whatever `chi`, `El`, `Eu` and the species code
are, the effective quantum numbers that `broad` uses after the floor rule (with
the charge derived from the species code) satisfy `neffl < neffh` and `neffh > 0`. -/
theorem C13_neff_ordered (ln : Linedata ℝ) :
    (neff realFns ln (chargeOf ln.code)).1 < (neff realFns ln (chargeOf ln.code)).2 ∧
    0 < (neff realFns ln (chargeOf ln.code)).2 := by
  have hc := chargeOf_pos ln.code
  constructor
  · simp only [neff]
    split_ifs <;> linarith
  · simp only [neff, realFns]
    split_ifs with h
    · norm_num
    · have : 0 < ln.chi - ln.Eu := by linarith [not_le.1 h]
      have : 0 < Real.sqrt (13.595 / (ln.chi - ln.Eu)) := Real.sqrt_pos.2 (by positivity)
      positivity

/-- C14 as stated fails in the literal regime 4: for a `"GA"` line with the
literal `gammaw = 0.5` (not the sentinel) the van der Waals term is
`gammaw * NHI * (T/10000)^0.3 * (...) = 0.5` for `fac = 2` as for `fac = 1`,
not `2 * 0.5`, and `a[0]` is the same for both factors. -/
theorem C14_counterexample :
    ∃ out1 out2,
      broad realFns 1
        ⟨fun _ => 10000, fun _ => 0, fun _ => 1, fun _ => 1, fun _ => 0, fun _ => 0⟩
        (fun _ => ⟨5000, 26, "GA", 7.9, 1, 3, 55.85, 0, 0, 0.5,
          fun _ => 0, fun _ => 0, fun _ => 0⟩)
        0 0 0 1 0 0 = some out1 ∧
      broad realFns 1
        ⟨fun _ => 10000, fun _ => 0, fun _ => 1, fun _ => 1, fun _ => 0, fun _ => 0⟩
        (fun _ => ⟨5000, 26, "GA", 7.9, 1, 3, 55.85, 0, 0, 0.5,
          fun _ => 0, fun _ => 0, fun _ => 0⟩)
        0 0 0 2 0 0 = some out2 ∧
      (out2 0).a 0 = (out1 0).a 0 ∧
      gammawAtom realFns
        ⟨fun _ => 10000, fun _ => 0, fun _ => 1, fun _ => 1, fun _ => 0, fun _ => 0⟩
        (⟨5000, 26, "GA", 7.9, 1, 3, 55.85, 0, 0, 0.5, fun _ => 0, fun _ => 0, fun _ => 0⟩ :
          Linedata ℝ) 2 4 0 0 0 0 = 1 / 2 ∧
      (2 : ℝ) * gammawAtom realFns
        ⟨fun _ => 10000, fun _ => 0, fun _ => 1, fun _ => 1, fun _ => 0, fun _ => 0⟩
        (⟨5000, 26, "GA", 7.9, 1, 3, 55.85, 0, 0, 0.5, fun _ => 0, fun _ => 0, fun _ => 0⟩ :
          Linedata ℝ) 1 4 0 0 0 0 = 1 := by
  have hga : flagoGA (⟨5000, 26, "GA", 7.9, 1, 3, 55.85, 0, 0, 0.5, fun _ => 0, fun _ => 0,
      fun _ => 0⟩ : Linedata ℝ) = 4 := by
    norm_num [flagoGA, approx, abs_of_neg]
  have hrg : ∀ nl nh ch : ℝ, classify (⟨5000, 26, "GA", 7.9, 1, 3, 55.85, 0, 0, 0.5,
      fun _ => 0, fun _ => 0, fun _ => 0⟩ : Linedata ℝ) nl nh ch (literals 0 0 0 0) =
      some ⟨0, 1, 4, (literals (0 : ℝ) 0 0 0).sig, (literals (0 : ℝ) 0 0 0).alp⟩ := by
    intro nl nh ch
    simp only [classify]
    simp [hga]
  refine ⟨_, _, broad_atom realFns 1 _ _ 0 0 0 1 0 0 _ (by decide) (by norm_num) (hrg _ _ _),
    broad_atom realFns 1 _ _ 0 0 0 2 0 0 _ (by decide) (by norm_num) (hrg _ _ _), ?_, ?_, ?_⟩
  · simp [gammawAtom]
  · simp [gammawAtom, perturbers, realFns]
    norm_num
  · simp [gammawAtom, perturbers, realFns]
    norm_num


/-- C14, amended: for an atomic line whose van der Waals term is computed by
formula (any tag but `"AI"`, and not `"GA"` with a literal, non-sentinel
`gammaw`), `broad` returns, the regime flag is not 4, and at every depth
`i < Ntau` the van der Waals term computed with `fac` is `fac` times the one
computed with factor 1, so that
`a[i] = (gammar + fac * gammaw1 + gammas) * wave * 1e-8 / (12.5636 * dopp[i])`
is affine in `fac`. -/
theorem C14_fac_multiplicative (Ntau : Nat) (model : Atmosphere ℝ)
    (line : Nat → Linedata ℝ) (N : Nat) (Sig Alp fac sigU alpU : ℝ)
    (hcode : (line N).code < 100) (hT : (line N).T ≠ "AI")
    (hGA : ¬ ((line N).T = "GA" ∧ ¬ |(line N).gammaw - 1.0| ≤ 0.001)) :
    ∃ rg out,
      classify (line N) (neff realFns (line N) (chargeOf (line N).code)).1
        (neff realFns (line N) (chargeOf (line N).code)).2 (chargeOf (line N).code)
        (literals Sig Alp sigU alpU) = some rg ∧
      rg.flago ≠ 4 ∧
      broad realFns Ntau model line N Sig Alp fac sigU alpU = some out ∧
      ∀ i, i < Ntau →
        gammawAtom realFns model (line N) fac rg.flago rg.alp (omara realFns rg)
            (c64 realFns rg (neff realFns (line N) (chargeOf (line N).code)).1
              (neff realFns (line N) (chargeOf (line N).code)).2 (chargeOf (line N).code)) i
          = fac * gammawAtom realFns model (line N) 1 rg.flago rg.alp (omara realFns rg)
            (c64 realFns rg (neff realFns (line N) (chargeOf (line N).code)).1
              (neff realFns (line N) (chargeOf (line N).code)).2 (chargeOf (line N).code)) i ∧
        (out N).a i =
          (gammarAtom (line N) rg.flago
            + fac * gammawAtom realFns model (line N) 1 rg.flago rg.alp (omara realFns rg)
                (c64 realFns rg (neff realFns (line N) (chargeOf (line N).code)).1
                  (neff realFns (line N) (chargeOf (line N).code)).2
                  (chargeOf (line N).code)) i
            + gammasAtom model (line N) rg.flago
                ((neff realFns (line N) (chargeOf (line N).code)).2 ^ (5 : ℝ)) i)
            * (line N).wave * 1e-8 / (12.5636 * (out N).dopp i) := by
  obtain ⟨rg, hrg, h4, hb⟩ := broad_atom_ex realFns Ntau model line N Sig Alp fac sigU alpU hT
    (by norm_num; exact hcode)
  have h4' := h4 hGA
  refine ⟨rg, _, hrg, h4', hb, fun i hi => ?_⟩
  have hmul : ∀ C64 OMara : ℝ,
      gammawAtom realFns model (line N) fac rg.flago rg.alp OMara C64 i
        = fac * gammawAtom realFns model (line N) 1 rg.flago rg.alp OMara C64 i := by
    intro C64 OMara
    simp only [gammawAtom, h4', if_false]
    split_ifs <;> ring
  refine ⟨hmul _ _, ?_⟩
  simp only [Function.update_same, hi, if_true]
  rw [hmul]
  simp only [realFns]
  norm_num

/-- Witness of the amended C14: an iron line with tag `"99"` and `fac = 2.5`. -/
theorem C14_fac_multiplicative_witness :
    ∃ rg out,
      classify (⟨5000, 26, "99", 7.9, 1, 3, 55.85, 0, 0, 0,
          fun _ => 0, fun _ => 0, fun _ => 0⟩ : Linedata ℝ)
        (neff realFns (⟨5000, 26, "99", 7.9, 1, 3, 55.85, 0, 0, 0,
          fun _ => 0, fun _ => 0, fun _ => 0⟩ : Linedata ℝ) (chargeOf 26)).1
        (neff realFns (⟨5000, 26, "99", 7.9, 1, 3, 55.85, 0, 0, 0,
          fun _ => 0, fun _ => 0, fun _ => 0⟩ : Linedata ℝ) (chargeOf 26)).2 (chargeOf 26)
        (literals 0 0 0 0) = some rg ∧
      rg.flago ≠ 4 ∧
      broad realFns 1
        ⟨fun _ => 5000, fun _ => 0, fun _ => 1, fun _ => 1, fun _ => 0, fun _ => 0⟩
        (fun _ => ⟨5000, 26, "99", 7.9, 1, 3, 55.85, 0, 0, 0,
          fun _ => 0, fun _ => 0, fun _ => 0⟩)
        0 0 0 2.5 0 0 = some out := by
  obtain ⟨rg, out, h1, h2, h3, -⟩ := C14_fac_multiplicative 1
    ⟨fun _ => 5000, fun _ => 0, fun _ => 1, fun _ => 1, fun _ => 0, fun _ => 0⟩
    (fun _ => ⟨5000, 26, "99", 7.9, 1, 3, 55.85, 0, 0, 0,
      fun _ => 0, fun _ => 0, fun _ => 0⟩)
    0 0 0 2.5 0 0 (by norm_num) (by decide) (by simp)
  exact ⟨rg, out, h1, h2, h3⟩

/-- C15 as stated fails in the `"AI"` branch: the loop writes `dopp` only, so
`dlg[0]` keeps its old value 0 instead of 1.0. -/
theorem C15_counterexample :
    ∃ out, broad realFns 1
        ⟨fun _ => 5000, fun _ => 0, fun _ => 1, fun _ => 1, fun _ => 0, fun _ => 0⟩
        (fun _ => ⟨5000, 26, "AI", 7.9, 1, 3, 55.85, 0, 0, 0,
          fun _ => 0, fun _ => 0, fun _ => 0⟩)
        0 0 0 1 0 0 = some out ∧
      (out 0).dlg 0 = 0 ∧ (0 : ℝ) ≠ 1.0 := by
  refine ⟨_, broad_AI realFns 1 _ _ 0 0 0 1 0 0 rfl, ?_, by norm_num⟩
  simp

/-- C15, amended: for an atomic line whose van der Waals term is computed by
formula (any tag but `"AI"`, and not `"GA"` with a literal, non-sentinel
`gammaw`), `broad` returns and `dlg[i] = 1.0` at every depth `i < Ntau`. -/
theorem C15_dlg_one (Ntau : Nat) (model : Atmosphere ℝ)
    (line : Nat → Linedata ℝ) (N : Nat) (Sig Alp fac sigU alpU : ℝ)
    (hcode : (line N).code < 100) (hT : (line N).T ≠ "AI")
    (hGA : ¬ ((line N).T = "GA" ∧ ¬ |(line N).gammaw - 1.0| ≤ 0.001)) :
    ∃ out, broad realFns Ntau model line N Sig Alp fac sigU alpU = some out ∧
      ∀ i, i < Ntau → (out N).dlg i = 1.0 := by
  obtain ⟨rg, -, h4, hb⟩ := broad_atom_ex realFns Ntau model line N Sig Alp fac sigU alpU hT
    (by norm_num; exact hcode)
  refine ⟨_, hb, fun i hi => ?_⟩
  simp [hi, h4 hGA]

/-- Witness of the amended C15: an iron line with tag `"99"`. -/
theorem C15_dlg_one_witness :
    ∃ out, broad realFns 1
        ⟨fun _ => 5000, fun _ => 0, fun _ => 1, fun _ => 1, fun _ => 0, fun _ => 0⟩
        (fun _ => ⟨5000, 26, "99", 7.9, 1, 3, 55.85, 0, 0, 0,
          fun _ => 0, fun _ => 0, fun _ => 0⟩)
        0 0 0 1 0 0 = some out ∧
      ∀ i, i < 1 → (out 0).dlg i = 1.0 :=
  C15_dlg_one 1
    ⟨fun _ => 5000, fun _ => 0, fun _ => 1, fun _ => 1, fun _ => 0, fun _ => 0⟩
    (fun _ => ⟨5000, 26, "99", 7.9, 1, 3, 55.85, 0, 0, 0,
      fun _ => 0, fun _ => 0, fun _ => 0⟩)
    0 0 0 1 0 0 (by norm_num) (by decide) (by simp)

/-- C16: for an atomic line (any tag but `"AI"`) `broad` returns with a regime
flag `flago`, and at every depth `i < Ntau`
`a[i] = (gammar + gammaw + gammas) * wave * 1e-8 / (12.5636 * dopp[i])` where,
in the ABO regime (`flago = 1`), `gammar` is the literal of the line when that
is non-zero and `2.223e15 / wave^2` when it is zero, and `gammas` is the literal
times `Ne[i]` when the literal is non-zero and `1e-8 * neffh^5 * Ne[i]` when it
is zero; in the regimes 0, 2, 3 and 7 both terms are the formulas whatever the
literals are. -/
theorem C16_radiative_and_stark_terms (Ntau : Nat) (model : Atmosphere ℝ)
    (line : Nat → Linedata ℝ) (N : Nat) (Sig Alp fac sigU alpU : ℝ)
    (hcode : (line N).code < 100) (hT : (line N).T ≠ "AI") :
    ∃ rg out,
      classify (line N) (neff realFns (line N) (chargeOf (line N).code)).1
        (neff realFns (line N) (chargeOf (line N).code)).2 (chargeOf (line N).code)
        (literals Sig Alp sigU alpU) = some rg ∧
      broad realFns Ntau model line N Sig Alp fac sigU alpU = some out ∧
      (∀ i, i < Ntau →
        (out N).a i =
          (gammarAtom (line N) rg.flago
            + gammawAtom realFns model (line N) fac rg.flago rg.alp (omara realFns rg)
                (c64 realFns rg (neff realFns (line N) (chargeOf (line N).code)).1
                  (neff realFns (line N) (chargeOf (line N).code)).2
                  (chargeOf (line N).code)) i
            + gammasAtom model (line N) rg.flago
                ((neff realFns (line N) (chargeOf (line N).code)).2 ^ (5 : ℝ)) i)
            * (line N).wave * 1e-8 / (12.5636 * (out N).dopp i)) ∧
      (rg.flago = 1 →
        gammarAtom (line N) rg.flago =
          (if (line N).gammar ≠ 0 then (line N).gammar
            else 2.223e15 / ((line N).wave * (line N).wave)) ∧
        ∀ i, gammasAtom model (line N) rg.flago
            ((neff realFns (line N) (chargeOf (line N).code)).2 ^ (5 : ℝ)) i =
          (if (line N).gammas ≠ 0 then (line N).gammas * model.Ne i
            else 1e-8 * (neff realFns (line N) (chargeOf (line N).code)).2 ^ (5 : ℝ)
              * model.Ne i)) ∧
      ((rg.flago = 0 ∨ rg.flago = 2 ∨ rg.flago = 3 ∨ rg.flago = 7) →
        gammarAtom (line N) rg.flago = 2.223e15 / ((line N).wave * (line N).wave) ∧
        ∀ i, gammasAtom model (line N) rg.flago
            ((neff realFns (line N) (chargeOf (line N).code)).2 ^ (5 : ℝ)) i =
          1e-8 * (neff realFns (line N) (chargeOf (line N).code)).2 ^ (5 : ℝ)
            * model.Ne i) := by
  obtain ⟨rg, hrg, -, hb⟩ := broad_atom_ex realFns Ntau model line N Sig Alp fac sigU alpU hT
    (by norm_num; exact hcode)
  refine ⟨rg, _, hrg, hb, fun i hi => ?_, fun h1 => ?_, fun h => ?_⟩
  · simp only [Function.update_same, hi, if_true, realFns]
    norm_num
  · simp only [gammarAtom, gammasAtom, h1]
    norm_num
  · rcases h with h | h | h | h <;>
    · simp only [gammarAtom, gammasAtom, h]
      norm_num

/-- Witness of C16: an iron line with tag `"AO"` and literals `Sig = 300`, `Alp = 0.25`. -/
theorem C16_radiative_and_stark_terms_witness :
    ∃ out, broad realFns 1
        ⟨fun _ => 5000, fun _ => 0, fun _ => 1, fun _ => 1, fun _ => 0, fun _ => 0⟩
        (fun _ => ⟨5000, 26, "AO", 7.9, 1, 3, 55.85, 0, 0, 0,
          fun _ => 0, fun _ => 0, fun _ => 0⟩)
        0 300 0.25 1 0 0 = some out := by
  obtain ⟨rg, out, -, hb, -⟩ := C16_radiative_and_stark_terms 1
    ⟨fun _ => 5000, fun _ => 0, fun _ => 1, fun _ => 1, fun _ => 0, fun _ => 0⟩
    (fun _ => ⟨5000, 26, "AO", 7.9, 1, 3, 55.85, 0, 0, 0,
      fun _ => 0, fun _ => 0, fun _ => 0⟩)
    0 300 0.25 1 0 0 (by norm_num) (by decide)
  exact ⟨out, hb⟩

set_option maxRecDepth 4000 in
/-- C17: a call of `broad` returns and changes only the arrays `dopp`, `a` and
`dlg` of line `N`, and only below index `Ntau`: every other line, every scalar
field of line `N` and every array entry at an index `>= Ntau` are as before (the
atmosphere model is an input only: the embedded `broad` has no model in its
result, as the C code never assigns through `model`).  For a line not tagged
`"AI"` every entry `i < Ntau` of `dopp` and of `a` is written: its value does
not depend on the previous contents of the arrays, and it depends on the model
through depth `i` only. -/
theorem C17_frame (Ntau : Nat) (model : Atmosphere ℝ) (line : Nat → Linedata ℝ) (N : Nat)
    (Sig Alp fac sigU alpU : ℝ) :
    ∃ out, broad realFns Ntau model line N Sig Alp fac sigU alpU = some out ∧
      (∀ j, j ≠ N → out j = line j) ∧
      ((out N).wave = (line N).wave ∧ (out N).code = (line N).code ∧
        (out N).T = (line N).T ∧ (out N).chi = (line N).chi ∧ (out N).El = (line N).El ∧
        (out N).Eu = (line N).Eu ∧ (out N).atomass = (line N).atomass ∧
        (out N).gammar = (line N).gammar ∧ (out N).gammas = (line N).gammas ∧
        (out N).gammaw = (line N).gammaw) ∧
      (∀ i, Ntau ≤ i → (out N).dopp i = (line N).dopp i ∧ (out N).a i = (line N).a i ∧
        (out N).dlg i = (line N).dlg i) ∧
      ((line N).T ≠ "AI" →
        ∀ (model' : Atmosphere ℝ) (d a' g : Nat → ℝ) (i : Nat), i < Ntau →
          model'.T i = model.T i → model'.mtv i = model.mtv i → model'.Ne i = model.Ne i →
          model'.NHI i = model.NHI i → model'.NHeI i = model.NHeI i →
          model'.NH2 i = model.NH2 i →
          ∃ out', broad realFns Ntau model'
              (Function.update line N { line N with dopp := d, a := a', dlg := g })
              N Sig Alp fac sigU alpU = some out' ∧
            (out' N).dopp i = (out N).dopp i ∧ (out' N).a i = (out N).a i) := by
  by_cases hT : (line N).T = "AI"
  · refine ⟨_, broad_AI realFns Ntau model line N Sig Alp fac sigU alpU hT, ?_, ?_, ?_, ?_⟩
    · intro j hj
      simp [Function.update_noteq hj]
    · simp
    · intro i hi
      simp [not_lt.2 hi]
    · intro h
      exact absurd hT h
  · by_cases hc : (line N).code < 100.0
    · obtain ⟨rg, hrg, -, hb⟩ :=
        broad_atom_ex realFns Ntau model line N Sig Alp fac sigU alpU hT hc
      refine ⟨_, hb, ?_, ?_, ?_, ?_⟩
      · intro j hj
        simp [Function.update_noteq hj]
      · simp
      · intro i hi
        simp [not_lt.2 hi]
      · intro _ model' d a' g i hi e1 e2 e3 e4 e5 e6
        have hT' : (Function.update line N
            ({ line N with dopp := d, a := a', dlg := g } : Linedata ℝ) N).T ≠ "AI" := by
          simpa using hT
        have hc' : (Function.update line N
            ({ line N with dopp := d, a := a', dlg := g } : Linedata ℝ) N).code < 100.0 := by
          simpa using hc
        have hrg' : classify (Function.update line N
              ({ line N with dopp := d, a := a', dlg := g } : Linedata ℝ) N)
            (neff realFns (Function.update line N
              ({ line N with dopp := d, a := a', dlg := g } : Linedata ℝ) N)
              (chargeOf (Function.update line N
                ({ line N with dopp := d, a := a', dlg := g } : Linedata ℝ) N).code)).1
            (neff realFns (Function.update line N
              ({ line N with dopp := d, a := a', dlg := g } : Linedata ℝ) N)
              (chargeOf (Function.update line N
                ({ line N with dopp := d, a := a', dlg := g } : Linedata ℝ) N).code)).2
            (chargeOf (Function.update line N
                ({ line N with dopp := d, a := a', dlg := g } : Linedata ℝ) N).code)
            (literals Sig Alp sigU alpU) = some rg := by
          rw [← hrg]
          simp only [Function.update_same]
          rfl
        refine ⟨_, broad_atom realFns Ntau model' _ N Sig Alp fac sigU alpU rg hT' hc' hrg',
          ?_, ?_⟩
        · simp [hi, doppAt, e1, e2]
        · simp only [Function.update_same, hi, if_true, doppAt, gammarAtom, gammawAtom,
            gammasAtom, perturbers, neff, e1, e2, e3, e4, e5, e6]
    · refine ⟨_, broad_mol realFns Ntau model line N Sig Alp fac sigU alpU hT hc, ?_, ?_, ?_,
        ?_⟩
      · intro j hj
        simp [Function.update_noteq hj]
      · simp
      · intro i hi
        simp [not_lt.2 hi]
      · intro _ model' d a' g i hi e1 e2 e3 e4 e5 e6
        have hT' : (Function.update line N
            ({ line N with dopp := d, a := a', dlg := g } : Linedata ℝ) N).T ≠ "AI" := by
          simpa using hT
        have hc' : ¬ (Function.update line N
            ({ line N with dopp := d, a := a', dlg := g } : Linedata ℝ) N).code < 100.0 := by
          simpa using hc
        refine ⟨_, broad_mol realFns Ntau model' _ N Sig Alp fac sigU alpU hT' hc', ?_, ?_⟩
        · simp [hi, doppAt, e1, e2]
        · simp only [Function.update_same, hi, if_true, doppAt, e1, e2, e3, e4]


/-- Witness of C17: the same iron line (tag `"99"`) with its arrays prefilled
with 9 and a model that differs below the first depth gives the same `dopp[0]`
and `a[0]`. -/
theorem C17_frame_witness :
    ∃ out out',
      broad realFns 1
        ⟨fun _ => 5000, fun _ => 0, fun _ => 1, fun _ => 1, fun _ => 0, fun _ => 0⟩
        (fun _ => ⟨5000, 26, "99", 7.9, 1, 3, 55.85, 0, 0, 0,
          fun _ => 0, fun _ => 0, fun _ => 0⟩)
        0 0 0 1 0 0 = some out ∧
      broad realFns 1
        ⟨fun i => 5000 + i, fun _ => 0, fun _ => 1, fun _ => 1, fun _ => 0, fun _ => 0⟩
        (Function.update (fun _ => (⟨5000, 26, "99", 7.9, 1, 3, 55.85, 0, 0, 0,
          fun _ => 0, fun _ => 0, fun _ => 0⟩ : Linedata ℝ)) 0
          ⟨5000, 26, "99", 7.9, 1, 3, 55.85, 0, 0, 0, fun _ => 9, fun _ => 9, fun _ => 9⟩)
        0 0 0 1 0 0 = some out' ∧
      (out' 0).dopp 0 = (out 0).dopp 0 ∧ (out' 0).a 0 = (out 0).a 0 := by
  obtain ⟨out, h1, -, -, -, h5⟩ := C17_frame 1
    ⟨fun _ => 5000, fun _ => 0, fun _ => 1, fun _ => 1, fun _ => 0, fun _ => 0⟩
    (fun _ => ⟨5000, 26, "99", 7.9, 1, 3, 55.85, 0, 0, 0,
      fun _ => 0, fun _ => 0, fun _ => 0⟩)
    0 0 0 1 0 0
  obtain ⟨out', h6, h7, h8⟩ := h5 (by decide)
    ⟨fun i => 5000 + i, fun _ => 0, fun _ => 1, fun _ => 1, fun _ => 0, fun _ => 0⟩
    (fun _ => 9) (fun _ => 9) (fun _ => 9) 0 (by decide) (by norm_num) rfl rfl rfl rfl rfl
  exact ⟨out, out', h1, h6, h7, h8⟩

set_option maxRecDepth 4000 in
/-- C18: for an atomic line whose tag is none of the known tags, `broad` returns
and writes the same `dopp`, `a` and `dlg` arrays as for the same line with tag
`"99"`: at every depth `i < Ntau`, `a[i]` has the generic `C6` without
angular-momentum terms in the van der Waals term, `gammar = 2.223e15 / wave^2`
and the Stark term `1e-8 * neffh^5 * Ne[i]`, whatever `Sig`, `Alp` and the
literal gamma constants are. -/
theorem C18_unknown_tag_fallback (Ntau : Nat) (model : Atmosphere ℝ)
    (line : Nat → Linedata ℝ) (N : Nat) (Sig Alp fac sigU alpU : ℝ)
    (hcode : (line N).code < 100)
    (hunk : (line N).T ∉ ["AI", "99", "01", "10", "12", "21", "23", "32", "34", "43", "45",
      "54", "56", "65", "AO", "GA"]) :
    ∃ out out99,
      broad realFns Ntau model line N Sig Alp fac sigU alpU = some out ∧
      broad realFns Ntau model (Function.update line N { line N with T := "99" }) N
        Sig Alp fac sigU alpU = some out99 ∧
      (∀ i, (out N).dopp i = (out99 N).dopp i ∧ (out N).a i = (out99 N).a i ∧
        (out N).dlg i = (out99 N).dlg i) ∧
      ∀ i, i < Ntau →
        (out N).a i =
          (2.223e15 / ((line N).wave * (line N).wave)
            + 8.08 * fac
              * (4.05e-33 *
                  ((neff realFns (line N) (chargeOf (line N).code)).2
                      * (neff realFns (line N) (chargeOf (line N).code)).2
                      * (5 * (neff realFns (line N) (chargeOf (line N).code)).2
                          * (neff realFns (line N) (chargeOf (line N).code)).2)
                      / (2 * chargeOf (line N).code * chargeOf (line N).code)
                    - (neff realFns (line N) (chargeOf (line N).code)).1
                      * (neff realFns (line N) (chargeOf (line N).code)).1
                      * (5 * (neff realFns (line N) (chargeOf (line N).code)).1
                          * (neff realFns (line N) (chargeOf (line N).code)).1)
                      / (2 * chargeOf (line N).code * chargeOf (line N).code))) ^ (0.4 : ℝ)
              * Real.sqrt (2.1175e8 * model.T i * (1 / (line N).atomass + 0.9921)) ^ (0.6 : ℝ)
              * model.NHI i
              * (1 + 0.4133 * model.NHeI i / model.NHI i + 0.85 * model.NH2 i / model.NHI i)
            + 1e-8 * (neff realFns (line N) (chargeOf (line N).code)).2 ^ (5 : ℝ)
              * model.Ne i)
            * (line N).wave * 1e-8 / (12.5636 * (out N).dopp i) := by
  simp only [List.mem_cons, List.mem_singleton, List.not_mem_nil, or_false, not_or] at hunk
  obtain ⟨u0, u1, u2, u3, u4, u5, u6, u7, u8, u9, u10, u11, u12, u13, u14, u15⟩ := hunk
  have hc : (line N).code < 100.0 := by
    norm_num
    exact hcode
  have hrg : classify (line N) (neff realFns (line N) (chargeOf (line N).code)).1
      (neff realFns (line N) (chargeOf (line N).code)).2 (chargeOf (line N).code)
      (literals Sig Alp sigU alpU) =
      some ⟨9, 9, 3, (literals Sig Alp sigU alpU).sig, (literals Sig Alp sigU alpU).alp⟩ := by
    simp [classify, u1, u2, u3, u4, u5, u6, u7, u8, u9, u10, u11, u12, u13, u14, u15]
  have hT99 : (Function.update line N ({ line N with T := "99" } : Linedata ℝ) N).T ≠ "AI" := by
    simp
  have hc99 : (Function.update line N ({ line N with T := "99" } : Linedata ℝ) N).code
      < 100.0 := by
    simpa using hc
  have hrg99 : classify (Function.update line N ({ line N with T := "99" } : Linedata ℝ) N)
      (neff realFns (Function.update line N ({ line N with T := "99" } : Linedata ℝ) N)
        (chargeOf (Function.update line N ({ line N with T := "99" } : Linedata ℝ) N).code)).1
      (neff realFns (Function.update line N ({ line N with T := "99" } : Linedata ℝ) N)
        (chargeOf (Function.update line N ({ line N with T := "99" } : Linedata ℝ) N).code)).2
      (chargeOf (Function.update line N ({ line N with T := "99" } : Linedata ℝ) N).code)
      (literals Sig Alp sigU alpU) =
      some ⟨9, 9, 3, (literals Sig Alp sigU alpU).sig, (literals Sig Alp sigU alpU).alp⟩ := by
    simp [classify]
  refine ⟨_, _, broad_atom realFns Ntau model line N Sig Alp fac sigU alpU _ u0 hc hrg,
    broad_atom realFns Ntau model _ N Sig Alp fac sigU alpU _ hT99 hc99 hrg99, ?_, ?_⟩
  · intro i
    simp only [Function.update_same]
    refine ⟨?_, ?_, ?_⟩ <;> first | rfl | trivial
  · intro i hi
    simp only [Function.update_same, hi, if_true, gammarAtom, gammawAtom, gammasAtom, c64,
      perturbers, realFns]
    norm_num

/-- Witness of C18: an iron line with the unknown tag `"XX"`. -/
theorem C18_unknown_tag_fallback_witness :
    ∃ out out99,
      broad realFns 1
        ⟨fun _ => 5000, fun _ => 0, fun _ => 1, fun _ => 1, fun _ => 0, fun _ => 0⟩
        (fun _ => ⟨5000, 26, "XX", 7.9, 1, 3, 55.85, 0, 0, 0,
          fun _ => 0, fun _ => 0, fun _ => 0⟩)
        0 0 0 1 0 0 = some out ∧
      broad realFns 1
        ⟨fun _ => 5000, fun _ => 0, fun _ => 1, fun _ => 1, fun _ => 0, fun _ => 0⟩
        (Function.update (fun _ => (⟨5000, 26, "XX", 7.9, 1, 3, 55.85, 0, 0, 0,
          fun _ => 0, fun _ => 0, fun _ => 0⟩ : Linedata ℝ)) 0
          ⟨5000, 26, "99", 7.9, 1, 3, 55.85, 0, 0, 0, fun _ => 0, fun _ => 0, fun _ => 0⟩)
        0 0 0 1 0 0 = some out99 ∧
      ∀ i, (out 0).dopp i = (out99 0).dopp i ∧ (out 0).a i = (out99 0).a i ∧
        (out 0).dlg i = (out99 0).dlg i := by
  obtain ⟨out, out99, h1, h2, h3, -⟩ := C18_unknown_tag_fallback 1
    ⟨fun _ => 5000, fun _ => 0, fun _ => 1, fun _ => 1, fun _ => 0, fun _ => 0⟩
    (fun _ => ⟨5000, 26, "XX", 7.9, 1, 3, 55.85, 0, 0, 0,
      fun _ => 0, fun _ => 0, fun _ => 0⟩)
    0 0 0 1 0 0 (by norm_num) (by decide)
  exact ⟨out, out99, h1, h2, h3⟩

set_option maxRecDepth 4000 in
/-- C19 at the failing input (tag `"AO"`, `Sig = 300`, `Alp = 0`): `Alp` is
approximately zero, so `sig` and `alp` are never assigned; the regime is ABO
(flag 1) with the indeterminate contents `sigU`, `alpU` of the two locals, and
`a[0]` is the ABO formula evaluated with `sigma = sigU` and `alpha = alpU`, not
with `Sig` and `Alp`. -/
theorem C19_ao_reads_unassigned_sig_alp (sigU alpU : ℝ) :
    classify (⟨5000, 26, "AO", 7.9, 1, 3, 55.85, 0, 0, 0,
        fun _ => 0, fun _ => 0, fun _ => 0⟩ : Linedata ℝ)
      (neff realFns (⟨5000, 26, "AO", 7.9, 1, 3, 55.85, 0, 0, 0,
        fun _ => 0, fun _ => 0, fun _ => 0⟩ : Linedata ℝ) (chargeOf 26)).1
      (neff realFns (⟨5000, 26, "AO", 7.9, 1, 3, 55.85, 0, 0, 0,
        fun _ => 0, fun _ => 0, fun _ => 0⟩ : Linedata ℝ) (chargeOf 26)).2 (chargeOf 26)
      (literals 300 0 sigU alpU) = some ⟨0, 1, 1, sigU, alpU⟩ ∧
    ∃ out, broad realFns 1
        ⟨fun _ => 5000, fun _ => 0, fun _ => 1, fun _ => 1, fun _ => 0, fun _ => 0⟩
        (fun _ => ⟨5000, 26, "AO", 7.9, 1, 3, 55.85, 0, 0, 0,
          fun _ => 0, fun _ => 0, fun _ => 0⟩)
        0 300 0 1 sigU alpU = some out ∧
      (out 0).a 0 =
        (2.223e15 / ((5000 : ℝ) * 5000)
          + 2 * 1 * 2.8003e-17
            * Real.exp ((alpU / 2 * 0.24156448 + gammln realFns ((4 - alpU) / 2)
                  + Real.log sigU)
                + Real.log 1e6
                + (1 - alpU) * Real.log
                    (Real.sqrt (2.1175e8 * 5000 * (1 / 55.85 + 0.9921)) / 1e6))
            * 1 * (1 + 0.4133 * 0 / 1 + 0.85 * 0 / 1)
          + 1e-8 * (neff realFns (⟨5000, 26, "AO", 7.9, 1, 3, 55.85, 0, 0, 0,
              fun _ => 0, fun _ => 0, fun _ => 0⟩ : Linedata ℝ) (chargeOf 26)).2 ^ (5 : ℝ) * 1)
          * 5000 * 1e-8 / (12.5636 * (out 0).dopp 0) := by
  have hlit : literals (300 : ℝ) 0 sigU alpU = ⟨0, 0, sigU, alpU⟩ :=
    literals_absent 300 0 sigU alpU (Or.inr (by norm_num))
  have hrg : classify (⟨5000, 26, "AO", 7.9, 1, 3, 55.85, 0, 0, 0,
        fun _ => 0, fun _ => 0, fun _ => 0⟩ : Linedata ℝ)
      (neff realFns (⟨5000, 26, "AO", 7.9, 1, 3, 55.85, 0, 0, 0,
        fun _ => 0, fun _ => 0, fun _ => 0⟩ : Linedata ℝ) (chargeOf 26)).1
      (neff realFns (⟨5000, 26, "AO", 7.9, 1, 3, 55.85, 0, 0, 0,
        fun _ => 0, fun _ => 0, fun _ => 0⟩ : Linedata ℝ) (chargeOf 26)).2 (chargeOf 26)
      (literals 300 0 sigU alpU) = some ⟨0, 1, 1, sigU, alpU⟩ := by
    rw [hlit]
    simp [classify]
  refine ⟨hrg, _, broad_atom realFns 1 _ _ 0 300 0 1 sigU alpU _ (by decide) (by norm_num) hrg,
    ?_⟩
  simp only [Function.update_same, Nat.lt_one_iff, if_true, gammarAtom, gammawAtom, gammasAtom,
    omara, perturbers, realFns]
  norm_num

/-- C20: for `sp`, `pd` and `df` with `charge ≤ 1`, when the first coordinate is
the axis value `axis1[i]` and the second `axis2[j]` with `i, j ≥ 1` (the last
value of either axis included), the scans select the cell `k = i - 1`,
`l = j - 1` (the cell below the grid line), both interpolation weights are 1,
and the returned sigma and alpha are the table entries `sig[i][j]` and
`alp[i][j]`. -/
theorem C20_grid_point_first_match {K : Type} [LinearOrderedField K] [FloorRing K]
    (neffl neffh : K) (ll lh : Int) (s a charge : K) (hc : charge ≤ 1.0) :
    (∀ (i j : Nat) (x y : K), 1 ≤ i → 1 ≤ j →
      (sp.ns K)[i]? = some x → (sp.np K)[j]? = some y →
      coord 0 neffl neffh ll lh = some x → coord 1 neffl neffh ll lh = some y →
      ∃ vs va x0 y0,
        at2 (sp.sig K) i j = some vs ∧ at2 (sp.alp K) i j = some va ∧
        scan (sp.ns K) 21 x = some (i - 1) ∧ scan (sp.np K) 18 y = some (j - 1) ∧
        ends (sp.ns K) (i - 1) = some (x0, x) ∧ ends (sp.np K) (j - 1) = some (y0, y) ∧
        (x - x0) / (x - x0) = 1 ∧ (y - y0) / (y - y0) = 1 ∧
        sp neffl neffh ll lh s a charge = some ⟨1, vs, va⟩) ∧
    (∀ (i j : Nat) (x y : K), 1 ≤ i → 1 ≤ j →
      (pd.np K)[i]? = some x → (pd.nd K)[j]? = some y →
      coord 1 neffl neffh ll lh = some x → coord 2 neffl neffh ll lh = some y →
      ∃ vs va x0 y0,
        at2 (pd.sig K) i j = some vs ∧ at2 (pd.alp K) i j = some va ∧
        scan (pd.np K) 18 x = some (i - 1) ∧ scan (pd.nd K) 18 y = some (j - 1) ∧
        ends (pd.np K) (i - 1) = some (x0, x) ∧ ends (pd.nd K) (j - 1) = some (y0, y) ∧
        (x - x0) / (x - x0) = 1 ∧ (y - y0) / (y - y0) = 1 ∧
        pd neffl neffh ll lh s a charge = some ⟨1, vs, va⟩) ∧
    (∀ (i j : Nat) (x y : K), 1 ≤ i → 1 ≤ j →
      (df.nd K)[i]? = some x → (df.nf K)[j]? = some y →
      coord 2 neffl neffh ll lh = some x → coord 3 neffl neffh ll lh = some y →
      ∃ vs va x0 y0,
        at2 (df.sig K) i j = some vs ∧ at2 (df.alp K) i j = some va ∧
        scan (df.nd K) 18 x = some (i - 1) ∧ scan (df.nf K) 18 y = some (j - 1) ∧
        ends (df.nd K) (i - 1) = some (x0, x) ∧ ends (df.nf K) (j - 1) = some (y0, y) ∧
        (x - x0) / (x - x0) = 1 ∧ (y - y0) / (y - y0) = 1 ∧
        df neffl neffh ll lh s a charge = some ⟨1, vs, va⟩) := by
  refine ⟨?_, ?_, ?_⟩
  · intro i j x y hi hj hx hy hX hY
    have hil : i < (sp.ns K).length := (List.getElem?_eq_some.mp hx).1
    have hjl : j < (sp.np K).length := (List.getElem?_eq_some.mp hy).1
    have hlen1 : (sp.ns K).length = 21 := rfl
    have hlen2 : (sp.np K).length = 18 := rfl
    obtain ⟨r1, r2⟩ := grid_in_range sp_ns_sorted hi hx
      (show (sp.ns K)[1]? = some (narrow 1.1) from rfl)
      (show (sp.ns K)[20]? = some (narrow 3.0) from rfl) (by omega)
    replace r1 : 1.0 < x := lt_of_lt_of_le (by rw [narrow_1_1]; norm_num) r1
    replace r2 : x ≤ 3.0 := le_trans r2 (by rw [narrow_3_0]; norm_num)
    obtain ⟨r3, r4⟩ := grid_in_range sp_np_sorted hj hy
      (show (sp.np K)[1]? = some (narrow 1.4) from rfl)
      (show (sp.np K)[17]? = some (narrow 3.0) from rfl) (by omega)
    replace r3 : 1.3 < y := lt_of_lt_of_le (by rw [narrow_1_4]; norm_num) r3
    replace r4 : y ≤ 3.0 := le_trans r4 (by rw [narrow_3_0]; norm_num)
    have h : ¬ (x ≤ 1.0 ∨ x > 3.0 ∨ y ≤ 1.3 ∨ y > 3.0) := by
      simp only [not_or, not_le, gt_iff_lt, not_lt]
      exact ⟨r1, r2, r3, r4⟩
    obtain ⟨k, l, s1, s2, s3, s4, a1, a2, a3, a4, x0, x1, y0, y1, hk, hl, -, -, hsig, halp, hex,
      hey, hx0, -, hy0, -, hr⟩ := sp_in s a charge hX hY h (not_lt.2 hc)
    obtain ⟨ek, el, ex1, ey1, -, -, c1, c2, b1, b2, w1, w2⟩ :=
      at_grid_point sp_ns_sorted sp_np_sorted hi (show i ≤ 21 by omega) hj
        (show j ≤ 18 by omega) hx hy hk hl hsig halp hex hey hx0 hy0
    subst ek el ex1 ey1
    rw [b1, b2] at hr
    exact ⟨s4, a4, x0, y0, c1, c2, hk, hl, hex, hey, w1, w2, hr⟩
  · intro i j x y hi hj hx hy hX hY
    have hil : i < (pd.np K).length := (List.getElem?_eq_some.mp hx).1
    have hjl : j < (pd.nd K).length := (List.getElem?_eq_some.mp hy).1
    have hlen1 : (pd.np K).length = 18 := rfl
    have hlen2 : (pd.nd K).length = 18 := rfl
    obtain ⟨r1, r2⟩ := grid_in_range pd_np_sorted hi hx
      (show (pd.np K)[1]? = some (narrow 1.4) from rfl)
      (show (pd.np K)[17]? = some (narrow 3.0) from rfl) (by omega)
    replace r1 : 1.3 < x := lt_of_lt_of_le (by rw [narrow_1_4]; norm_num) r1
    replace r2 : x ≤ 3.0 := le_trans r2 (by rw [narrow_3_0]; norm_num)
    obtain ⟨r3, r4⟩ := grid_in_range pd_nd_sorted hj hy
      (show (pd.nd K)[1]? = some (narrow 2.4) from rfl)
      (show (pd.nd K)[17]? = some (narrow 4.0) from rfl) (by omega)
    replace r3 : 2.3 < y := lt_of_lt_of_le (by rw [narrow_2_4]; norm_num) r3
    replace r4 : y ≤ 4.0 := le_trans r4 (by rw [narrow_4_0]; norm_num)
    have h : ¬ (x ≤ 1.3 ∨ x > 3.0 ∨ y ≤ 2.3 ∨ y > 4.0) := by
      simp only [not_or, not_le, gt_iff_lt, not_lt]
      exact ⟨r1, r2, r3, r4⟩
    obtain ⟨k, l, s1, s2, s3, s4, a1, a2, a3, a4, x0, x1, y0, y1, hk, hl, -, -, hsig, halp, hex,
      hey, hx0, -, hy0, -, hr⟩ := pd_in s a charge hX hY h (not_lt.2 hc)
    obtain ⟨ek, el, ex1, ey1, -, -, c1, c2, b1, b2, w1, w2⟩ :=
      at_grid_point pd_np_sorted pd_nd_sorted hi (show i ≤ 18 by omega) hj
        (show j ≤ 18 by omega) hx hy hk hl hsig halp hex hey hx0 hy0
    subst ek el ex1 ey1
    rw [b1, b2] at hr
    exact ⟨s4, a4, x0, y0, c1, c2, hk, hl, hex, hey, w1, w2, hr⟩
  · intro i j x y hi hj hx hy hX hY
    have hil : i < (df.nd K).length := (List.getElem?_eq_some.mp hx).1
    have hjl : j < (df.nf K).length := (List.getElem?_eq_some.mp hy).1
    have hlen1 : (df.nd K).length = 18 := rfl
    have hlen2 : (df.nf K).length = 18 := rfl
    obtain ⟨r1, r2⟩ := grid_in_range df_nd_sorted hi hx
      (show (df.nd K)[1]? = some (narrow 2.4) from rfl)
      (show (df.nd K)[17]? = some (narrow 4.0) from rfl) (by omega)
    replace r1 : 2.3 < x := lt_of_lt_of_le (by rw [narrow_2_4]; norm_num) r1
    replace r2 : x ≤ 4.0 := le_trans r2 (by rw [narrow_4_0]; norm_num)
    obtain ⟨r3, r4⟩ := grid_in_range df_nf_sorted hj hy
      (show (df.nf K)[1]? = some (narrow 3.4) from rfl)
      (show (df.nf K)[17]? = some (narrow 5.0) from rfl) (by omega)
    replace r3 : 3.3 < y := lt_of_lt_of_le (by rw [narrow_3_4]; norm_num) r3
    replace r4 : y ≤ 5.0 := le_trans r4 (by rw [narrow_5_0]; norm_num)
    have h : ¬ (x ≤ 2.3 ∨ x > 4.0 ∨ y ≤ 3.3 ∨ y > 5.0) := by
      simp only [not_or, not_le, gt_iff_lt, not_lt]
      exact ⟨r1, r2, r3, r4⟩
    obtain ⟨k, l, s1, s2, s3, s4, a1, a2, a3, a4, x0, x1, y0, y1, hk, hl, -, -, hsig, halp, hex,
      hey, hx0, -, hy0, -, hr⟩ := df_in s a charge hX hY h (not_lt.2 hc)
    obtain ⟨ek, el, ex1, ey1, -, -, c1, c2, b1, b2, w1, w2⟩ :=
      at_grid_point df_nd_sorted df_nf_sorted hi (show i ≤ 18 by omega) hj
        (show j ≤ 18 by omega) hx hy hk hl hsig halp hex hey hx0 hy0
    subst ek el ex1 ey1
    rw [b1, b2] at hr
    exact ⟨s4, a4, x0, y0, c1, c2, hk, hl, hex, hey, w1, w2, hr⟩

/-- Witness of C20 on `sp` at the last grid point `(ns[20], np[17]) = (3.0, 3.0)`. -/
theorem C20_grid_point_first_match_witness :
    ∃ vs va x0 y0,
      at2 (sp.sig ℚ) 20 17 = some vs ∧ at2 (sp.alp ℚ) 20 17 = some va ∧
      scan (sp.ns ℚ) 21 3.0 = some (20 - 1) ∧ scan (sp.np ℚ) 18 3.0 = some (17 - 1) ∧
      ends (sp.ns ℚ) (20 - 1) = some (x0, 3.0) ∧ ends (sp.np ℚ) (17 - 1) = some (y0, 3.0) ∧
      ((3.0 : ℚ) - x0) / (3.0 - x0) = 1 ∧ ((3.0 : ℚ) - y0) / (3.0 - y0) = 1 ∧
      sp (3.0 : ℚ) 3.0 0 1 0 0 1 = some ⟨1, vs, va⟩ := by
  have hn : narrow (3.0 : ℚ) = 3.0 := by
    rw [narrow_3_0]
    norm_num
  exact (C20_grid_point_first_match (3.0 : ℚ) 3.0 0 1 0 0 1 (by norm_num)).1 20 17 3.0 3.0
    (by decide) (by decide) (by rw [← hn]; rfl) (by rw [← hn]; rfl) (by simp [coord, hn])
    (by simp [coord, hn])

end Claims2

section C6Lemmas

variable {K : Type} [LinearOrderedField K]

/-- In the regimes 0 and 2 the local `C64` is `pow(C6, 0.4)`. -/
theorem c64_eq_pow_c6 (M : MathFns K) (rg : Regime K) (neffl neffh charge : K)
    (h : rg.flago = 0 ∨ rg.flago = 2) :
    c64 M rg neffl neffh charge = M.pow (c6 neffl neffh charge rg.ll rg.lh) 0.4 := by
  rcases h with h | h <;> simp [c64, c6, h]

end C6Lemmas

section RegimeLemmas3

variable {K : Type} [LinearOrderedField K]

/-- The flag of the sentinel cascade is never 1. -/
theorem flagoGA_ne_one (ln : Linedata K) : flagoGA ln ≠ 1 := by
  obtain ⟨c4, c5, c6, c7⟩ := flagoGA_cases ln
  by_cases hw : |ln.gammaw - 1.0| ≤ 0.001
  · by_cases hs : |ln.gammas - 1.0| ≤ 0.001
    · by_cases hr : |ln.gammar - 1.0| ≤ 0.001
      · rw [c7 hw hs hr]; decide
      · rw [c6 hw hs hr]; decide
    · rw [c5 hw hs]; decide
  · rw [c4 hw]; decide

variable [FloorRing K]

set_option maxRecDepth 4000 in
/-- For a tag that neither consults a table nor is `"AO"`, the tag tests fix
`ll`, `lh` and a regime flag other than 1, whatever the literals are, and pass
the locals `sig`, `alp` through. -/
theorem classify_fixed (ln : Linedata K) (neffl neffh charge : K)
    (h01 : ln.T ≠ "01") (h10 : ln.T ≠ "10") (h12 : ln.T ≠ "12") (h21 : ln.T ≠ "21")
    (h23 : ln.T ≠ "23") (h32 : ln.T ≠ "32") (hAO : ln.T ≠ "AO") :
    ∃ (ll lh f : Int), f ≠ 1 ∧ ∀ lit : Literals K,
      classify ln neffl neffh charge lit = some ⟨ll, lh, f, lit.sig, lit.alp⟩ := by
  by_cases h99 : ln.T = "99"
  · exact ⟨9, 9, 3, by decide, fun lit => by simp [classify, h99]⟩
  by_cases h34 : ln.T = "34"
  · exact ⟨3, 4, 2, by decide, fun lit => by simp [classify, h34]⟩
  by_cases h43 : ln.T = "43"
  · exact ⟨4, 3, 2, by decide, fun lit => by simp [classify, h43]⟩
  by_cases h45 : ln.T = "45"
  · exact ⟨4, 5, 2, by decide, fun lit => by simp [classify, h45]⟩
  by_cases h54 : ln.T = "54"
  · exact ⟨5, 4, 2, by decide, fun lit => by simp [classify, h54]⟩
  by_cases h56 : ln.T = "56"
  · exact ⟨5, 6, 2, by decide, fun lit => by simp [classify, h56]⟩
  by_cases h65 : ln.T = "65"
  · exact ⟨6, 5, 2, by decide, fun lit => by simp [classify, h65]⟩
  by_cases hGA : ln.T = "GA"
  · exact ⟨0, 1, flagoGA ln, flagoGA_ne_one ln, fun lit => by simp [classify, hGA]⟩
  · exact ⟨9, 9, 3, by decide, fun lit => by
      simp [classify, h99, h01, h10, h12, h21, h23, h32, h34, h43, h45, h54, h56, h65, hAO,
        hGA]⟩

end RegimeLemmas3

section TableLemmas

variable {K : Type} [LinearOrderedField K]

omit [LinearOrderedField K] in
/-- A successful table read returns an entry of the table. -/
theorem at2_mem {tab : List (List K)} {i j : Nat} {v : K} (h : at2 tab i j = some v) :
    ∃ row ∈ tab, v ∈ row := by
  unfold at2 at h
  cases hrow : tab[i]? with
  | none => simp [hrow] at h
  | some row =>
    simp only [hrow, Option.some_bind] at h
    exact ⟨row, List.getElem?_mem hrow, List.getElem?_mem h⟩

omit [LinearOrderedField K] in
/-- The four corner reads return the four table entries of the cell. -/
theorem corners_at2 {tab : List (List K)} {k l : Nat} {v1 v2 v3 v4 : K}
    (h : corners tab k l = some (v1, v2, v3, v4)) :
    at2 tab k l = some v1 ∧ at2 tab (k + 1) l = some v2 ∧ at2 tab k (l + 1) = some v3 ∧
      at2 tab (k + 1) (l + 1) = some v4 := by
  unfold corners at h
  cases h1 : at2 tab k l with
  | none => simp [h1] at h
  | some w1 =>
    cases h2 : at2 tab (k + 1) l with
    | none => simp [h1, h2] at h
    | some w2 =>
      cases h3 : at2 tab k (l + 1) with
      | none => simp [h1, h2, h3] at h
      | some w3 =>
        cases h4 : at2 tab (k + 1) (l + 1) with
        | none => simp [h1, h2, h3, h4] at h
        | some w4 =>
          simp [h1, h2, h3, h4] at h
          rw [h.1, h.2.1, h.2.2.1, h.2.2.2]
          exact ⟨rfl, rfl, rfl, rfl⟩

omit [LinearOrderedField K] in
/-- A property of every table entry holds of the four corners of a cell. -/
theorem corners_forall {tab : List (List K)} {P : K → Prop}
    (hP : ∀ row ∈ tab, ∀ v ∈ row, P v) {k l : Nat} {v1 v2 v3 v4 : K}
    (h : corners tab k l = some (v1, v2, v3, v4)) : P v1 ∧ P v2 ∧ P v3 ∧ P v4 := by
  obtain ⟨h1, h2, h3, h4⟩ := corners_at2 h
  obtain ⟨r1, m1, n1⟩ := at2_mem h1
  obtain ⟨r2, m2, n2⟩ := at2_mem h2
  obtain ⟨r3, m3, n3⟩ := at2_mem h3
  obtain ⟨r4, m4, n4⟩ := at2_mem h4
  exact ⟨hP r1 m1 v1 n1, hP r2 m2 v2 n2, hP r3 m3 v3 n3, hP r4 m4 v4 n4⟩

set_option maxRecDepth 100000 in
/-- Every entry of the table `sig` of `sp` is positive. -/
theorem sp_sig_pos : ∀ row ∈ sp.sig K, ∀ v ∈ row, (0 : K) < v := by
  simp only [sp.sig, List.forall_mem_cons, List.not_mem_nil, false_implies, implies_true,
    and_true]
  norm_num

set_option maxRecDepth 100000 in
/-- Every entry of the table `alp` of `sp` lies strictly between 0 and 1. -/
theorem sp_alp_bounds : ∀ row ∈ sp.alp K, ∀ v ∈ row, (0 : K) < v ∧ v < 1 := by
  simp only [sp.alp, List.forall_mem_cons, List.not_mem_nil, false_implies, implies_true,
    and_true]
  norm_num

set_option maxRecDepth 100000 in
/-- Every entry of the table `sig` of `pd` is positive. -/
theorem pd_sig_pos : ∀ row ∈ pd.sig K, ∀ v ∈ row, (0 : K) < v := by
  simp only [pd.sig, List.forall_mem_cons, List.not_mem_nil, false_implies, implies_true,
    and_true]
  norm_num

set_option maxRecDepth 100000 in
/-- Every entry of the table `alp` of `pd` lies strictly between 0 and 1. -/
theorem pd_alp_bounds : ∀ row ∈ pd.alp K, ∀ v ∈ row, (0 : K) < v ∧ v < 1 := by
  simp only [pd.alp, List.forall_mem_cons, List.not_mem_nil, false_implies, implies_true,
    and_true]
  norm_num

set_option maxRecDepth 100000 in
/-- Every entry of the table `sig` of `df` is positive. -/
theorem df_sig_pos : ∀ row ∈ df.sig K, ∀ v ∈ row, (0 : K) < v := by
  simp only [df.sig, List.forall_mem_cons, List.not_mem_nil, false_implies, implies_true,
    and_true]
  norm_num

set_option maxRecDepth 100000 in
/-- Every entry of the table `alp` of `df` lies strictly between 0 and 1. -/
theorem df_alp_bounds : ∀ row ∈ df.alp K, ∀ v ∈ row, (0 : K) < v ∧ v < 1 := by
  simp only [df.alp, List.forall_mem_cons, List.not_mem_nil, false_implies, implies_true,
    and_true]
  norm_num

variable [FloorRing K]

/-- When `sp` returns status 1, both coordinates were assigned and in range, the
charge was at most 1, and the result is the interpolation over the selected cell. -/
theorem sp_of_status_one {neffl neffh : K} {ll lh : Int} {s a charge : K} {r : Interp K}
    (h : sp neffl neffh ll lh s a charge = some r) (h1 : r.status = 1) :
    ∃ NS NP k l s1 s2 s3 s4 a1 a2 a3 a4 x0 x1 y0 y1,
      coord 0 neffl neffh ll lh = some NS ∧ coord 1 neffl neffh ll lh = some NP ∧
      corners (sp.sig K) k l = some (s1, s2, s3, s4) ∧
      corners (sp.alp K) k l = some (a1, a2, a3, a4) ∧
      x0 < NS ∧ NS ≤ x1 ∧ y0 < NP ∧ NP ≤ y1 ∧
      r = ⟨1, bilinear s1 s2 s3 s4 NS NP x0 x1 y0 y1, bilinear a1 a2 a3 a4 NS NP x0 x1 y0 y1⟩ := by
  cases hX : coord 0 neffl neffh ll lh with
  | none => simp [sp, hX] at h
  | some NS =>
    by_cases hr1 : NS ≤ 1.0 ∨ NS > 3.0
    · simp [sp, hX, hr1] at h
      rw [← h] at h1
      simp at h1
    · cases hY : coord 1 neffl neffh ll lh with
      | none => simp [sp, hX, hr1, hY] at h
      | some NP =>
        by_cases hin : NS ≤ 1.0 ∨ NS > 3.0 ∨ NP ≤ 1.3 ∨ NP > 3.0
        · rw [sp_out s a charge hX hY hin] at h
          rw [← Option.some.inj h] at h1
          simp at h1
        · by_cases hc : charge > 1.0
          · rw [sp_ion s a charge hX hY hin hc] at h
            rw [← Option.some.inj h] at h1
            simp at h1
          · obtain ⟨k, l, s1, s2, s3, s4, a1, a2, a3, a4, x0, x1, y0, y1, -, -, -, -, hs, ha,
              -, -, hx0, hx1, hy0, hy1, hr⟩ := sp_in s a charge hX hY hin hc
            rw [hr] at h
            exact ⟨NS, NP, k, l, s1, s2, s3, s4, a1, a2, a3, a4, x0, x1, y0, y1, rfl, rfl, hs,
              ha, hx0, hx1, hy0, hy1, (Option.some.inj h).symm⟩

/-- When `pd` returns status 1, both coordinates were assigned and in range, the
charge was at most 1, and the result is the interpolation over the selected cell. -/
theorem pd_of_status_one {neffl neffh : K} {ll lh : Int} {s a charge : K} {r : Interp K}
    (h : pd neffl neffh ll lh s a charge = some r) (h1 : r.status = 1) :
    ∃ NP ND k l s1 s2 s3 s4 a1 a2 a3 a4 x0 x1 y0 y1,
      coord 1 neffl neffh ll lh = some NP ∧ coord 2 neffl neffh ll lh = some ND ∧
      corners (pd.sig K) k l = some (s1, s2, s3, s4) ∧
      corners (pd.alp K) k l = some (a1, a2, a3, a4) ∧
      x0 < NP ∧ NP ≤ x1 ∧ y0 < ND ∧ ND ≤ y1 ∧
      r = ⟨1, bilinear s1 s2 s3 s4 NP ND x0 x1 y0 y1, bilinear a1 a2 a3 a4 NP ND x0 x1 y0 y1⟩ := by
  cases hX : coord 1 neffl neffh ll lh with
  | none => simp [pd, hX] at h
  | some NP =>
    by_cases hr1 : NP ≤ 1.3 ∨ NP > 3.0
    · simp [pd, hX, hr1] at h
      rw [← h] at h1
      simp at h1
    · cases hY : coord 2 neffl neffh ll lh with
      | none => simp [pd, hX, hr1, hY] at h
      | some ND =>
        by_cases hin : NP ≤ 1.3 ∨ NP > 3.0 ∨ ND ≤ 2.3 ∨ ND > 4.0
        · rw [pd_out s a charge hX hY hin] at h
          rw [← Option.some.inj h] at h1
          simp at h1
        · by_cases hc : charge > 1.0
          · rw [pd_ion s a charge hX hY hin hc] at h
            rw [← Option.some.inj h] at h1
            simp at h1
          · obtain ⟨k, l, s1, s2, s3, s4, a1, a2, a3, a4, x0, x1, y0, y1, -, -, -, -, hs, ha,
              -, -, hx0, hx1, hy0, hy1, hr⟩ := pd_in s a charge hX hY hin hc
            rw [hr] at h
            exact ⟨NP, ND, k, l, s1, s2, s3, s4, a1, a2, a3, a4, x0, x1, y0, y1, rfl, rfl, hs,
              ha, hx0, hx1, hy0, hy1, (Option.some.inj h).symm⟩

/-- When `df` returns status 1, both coordinates were assigned and in range, the
charge was at most 1, and the result is the interpolation over the selected cell. -/
theorem df_of_status_one {neffl neffh : K} {ll lh : Int} {s a charge : K} {r : Interp K}
    (h : df neffl neffh ll lh s a charge = some r) (h1 : r.status = 1) :
    ∃ ND NF k l s1 s2 s3 s4 a1 a2 a3 a4 x0 x1 y0 y1,
      coord 2 neffl neffh ll lh = some ND ∧ coord 3 neffl neffh ll lh = some NF ∧
      corners (df.sig K) k l = some (s1, s2, s3, s4) ∧
      corners (df.alp K) k l = some (a1, a2, a3, a4) ∧
      x0 < ND ∧ ND ≤ x1 ∧ y0 < NF ∧ NF ≤ y1 ∧
      r = ⟨1, bilinear s1 s2 s3 s4 ND NF x0 x1 y0 y1, bilinear a1 a2 a3 a4 ND NF x0 x1 y0 y1⟩ := by
  cases hX : coord 2 neffl neffh ll lh with
  | none => simp [df, hX] at h
  | some ND =>
    by_cases hr1 : ND ≤ 2.3 ∨ ND > 4.0
    · simp [df, hX, hr1] at h
      rw [← h] at h1
      simp at h1
    · cases hY : coord 3 neffl neffh ll lh with
      | none => simp [df, hX, hr1, hY] at h
      | some NF =>
        by_cases hin : ND ≤ 2.3 ∨ ND > 4.0 ∨ NF ≤ 3.3 ∨ NF > 5.0
        · rw [df_out s a charge hX hY hin] at h
          rw [← Option.some.inj h] at h1
          simp at h1
        · by_cases hc : charge > 1.0
          · rw [df_ion s a charge hX hY hin hc] at h
            rw [← Option.some.inj h] at h1
            simp at h1
          · obtain ⟨k, l, s1, s2, s3, s4, a1, a2, a3, a4, x0, x1, y0, y1, -, -, -, -, hs, ha,
              -, -, hx0, hx1, hy0, hy1, hr⟩ := df_in s a charge hX hY hin hc
            rw [hr] at h
            exact ⟨ND, NF, k, l, s1, s2, s3, s4, a1, a2, a3, a4, x0, x1, y0, y1, rfl, rfl, hs,
              ha, hx0, hx1, hy0, hy1, (Option.some.inj h).symm⟩

omit [FloorRing K] in
/-- An interpolation over a cell whose corners are positive is positive. -/
theorem bilinear_pos {v1 v2 v3 v4 X Y x0 x1 y0 y1 : K}
    (hx0 : x0 < X) (hx1 : X ≤ x1) (hy0 : y0 < Y) (hy1 : Y ≤ y1)
    (h : 0 < v1 ∧ 0 < v2 ∧ 0 < v3 ∧ 0 < v4) : 0 < bilinear v1 v2 v3 v4 X Y x0 x1 y0 y1 :=
  lt_of_lt_of_le (lt_min (lt_min h.1 h.2.1) (lt_min h.2.2.1 h.2.2.2))
    (bilinear_bounds v1 v2 v3 v4 X Y x0 x1 y0 y1 hx0 hx1 hy0 hy1).1

omit [FloorRing K] in
/-- An interpolation over a cell whose corners are below 1 is below 1. -/
theorem bilinear_lt_one {v1 v2 v3 v4 X Y x0 x1 y0 y1 : K}
    (hx0 : x0 < X) (hx1 : X ≤ x1) (hy0 : y0 < Y) (hy1 : Y ≤ y1)
    (h : v1 < 1 ∧ v2 < 1 ∧ v3 < 1 ∧ v4 < 1) : bilinear v1 v2 v3 v4 X Y x0 x1 y0 y1 < 1 :=
  lt_of_le_of_lt (bilinear_bounds v1 v2 v3 v4 X Y x0 x1 y0 y1 hx0 hx1 hy0 hy1).2
    (max_lt (max_lt h.1 h.2.1) (max_lt h.2.2.1 h.2.2.2))

end TableLemmas

section GammlnLemmas

/-- The series of `gammln` after the six passes of its loop, as an explicit sum. -/
theorem gammln_ser (x : ℝ) :
    ((gammln.cof ℝ).foldl gammln.step ((1.000000000190015 : ℝ), x)).1 =
      1.000000000190015 + 76.18009172947146 / (x + 1) + -86.50532032941677 / (x + 1 + 1)
        + 24.01409824083091 / (x + 1 + 1 + 1) + -1.231739572450155 / (x + 1 + 1 + 1 + 1)
        + 0.1208650973866179e-02 / (x + 1 + 1 + 1 + 1 + 1)
        + -0.5395239384953e-05 / (x + 1 + 1 + 1 + 1 + 1 + 1) := by
  simp only [gammln.cof, List.foldl_cons, List.foldl_nil, gammln.step]

/-- The series of `gammln` is positive for a positive argument: over the common
denominator its numerator is a polynomial with positive coefficients. -/
theorem gammln_ser_pos (x : ℝ) (hx : 0 < x) :
    0 < 1.000000000190015 + 76.18009172947146 / (x + 1) + -86.50532032941677 / (x + 1 + 1)
        + 24.01409824083091 / (x + 1 + 1 + 1) + -1.231739572450155 / (x + 1 + 1 + 1 + 1)
        + 0.1208650973866179e-02 / (x + 1 + 1 + 1 + 1 + 1)
        + -0.5395239384953e-05 / (x + 1 + 1 + 1 + 1 + 1 + 1) := by
  have h1 : x + 1 ≠ 0 := by positivity
  have h2 : x + 1 + 1 ≠ 0 := by positivity
  have h3 : x + 1 + 1 + 1 ≠ 0 := by positivity
  have h4 : x + 1 + 1 + 1 + 1 ≠ 0 := by positivity
  have h5 : x + 1 + 1 + 1 + 1 + 1 ≠ 0 := by positivity
  have h6 : x + 1 + 1 + 1 + 1 + 1 + 1 ≠ 0 := by positivity
  have key : 1.000000000190015 + 76.18009172947146 / (x + 1)
        + -86.50532032941677 / (x + 1 + 1)
        + 24.01409824083091 / (x + 1 + 1 + 1) + -1.231739572450155 / (x + 1 + 1 + 1 + 1)
        + 0.1208650973866179e-02 / (x + 1 + 1 + 1 + 1 + 1)
        + -0.5395239384953e-05 / (x + 1 + 1 + 1 + 1 + 1 + 1)
      = (3746199322479515729427 / 125000000000000000
          + 16140532027462300112437 / 500000000000000000 * x
          + 2896982812742428943423 / 200000000000000000 * x ^ 2
          + 1732854724606591463 / 500000000000000 * x ^ 3
          + 466334201454058024569 / 1000000000000000000 * x ^ 4
          + 16729166664080120613 / 500000000000000000 * x ^ 5
          + 200000000038003 / 200000000000000 * x ^ 6)
        / ((x + 1) * (x + 1 + 1) * (x + 1 + 1 + 1) * (x + 1 + 1 + 1 + 1)
          * (x + 1 + 1 + 1 + 1 + 1) * (x + 1 + 1 + 1 + 1 + 1 + 1)) := by
    field_simp
    ring
  rw [key]
  positivity

end GammlnLemmas

section Claims3

set_option maxRecDepth 4000 in
/-- C21: for an atomic line with tag `"GA"` whose `gammaw`, `gammas` and `gammar`
are all the sentinel (within 0.001 of 1.0), the regime flag is 7 and `broad`
writes the same `dopp`, `a` and `dlg` arrays as for the same line with tag
`"99"` (regime 3): at every depth `i < Ntau`, `a[i]` has the generic `C6`
without angular term, `gammar = 2.223e15 / wave^2` and
`gammas = 1e-8 * neffh^5 * Ne[i]`. -/
theorem C21_ga_all_sentinels_is_fallback (Ntau : Nat) (model : Atmosphere ℝ)
    (line : Nat → Linedata ℝ) (N : Nat) (Sig Alp fac sigU alpU : ℝ)
    (hcode : (line N).code < 100) (hT : (line N).T = "GA")
    (hw : |(line N).gammaw - 1.0| ≤ 0.001) (hs : |(line N).gammas - 1.0| ≤ 0.001)
    (hr : |(line N).gammar - 1.0| ≤ 0.001) :
    ∃ rg out out99,
      classify (line N) (neff realFns (line N) (chargeOf (line N).code)).1
        (neff realFns (line N) (chargeOf (line N).code)).2 (chargeOf (line N).code)
        (literals Sig Alp sigU alpU) = some rg ∧
      rg.flago = 7 ∧
      broad realFns Ntau model line N Sig Alp fac sigU alpU = some out ∧
      broad realFns Ntau model (Function.update line N { line N with T := "99" }) N
        Sig Alp fac sigU alpU = some out99 ∧
      (∀ i, (out N).dopp i = (out99 N).dopp i ∧ (out N).a i = (out99 N).a i ∧
        (out N).dlg i = (out99 N).dlg i) ∧
      ∀ i, i < Ntau →
        (out N).a i =
          (2.223e15 / ((line N).wave * (line N).wave)
            + 8.08 * fac
              * (4.05e-33 *
                  ((neff realFns (line N) (chargeOf (line N).code)).2
                      * (neff realFns (line N) (chargeOf (line N).code)).2
                      * (5 * (neff realFns (line N) (chargeOf (line N).code)).2
                          * (neff realFns (line N) (chargeOf (line N).code)).2)
                      / (2 * chargeOf (line N).code * chargeOf (line N).code)
                    - (neff realFns (line N) (chargeOf (line N).code)).1
                      * (neff realFns (line N) (chargeOf (line N).code)).1
                      * (5 * (neff realFns (line N) (chargeOf (line N).code)).1
                          * (neff realFns (line N) (chargeOf (line N).code)).1)
                      / (2 * chargeOf (line N).code * chargeOf (line N).code))) ^ (0.4 : ℝ)
              * Real.sqrt (2.1175e8 * model.T i * (1 / (line N).atomass + 0.9921)) ^ (0.6 : ℝ)
              * model.NHI i
              * (1 + 0.4133 * model.NHeI i / model.NHI i + 0.85 * model.NH2 i / model.NHI i)
            + 1e-8 * (neff realFns (line N) (chargeOf (line N).code)).2 ^ (5 : ℝ)
              * model.Ne i)
            * (line N).wave * 1e-8 / (12.5636 * (out N).dopp i) := by
  have hne : (line N).T ≠ "AI" := by
    rw [hT]
    decide
  have hc : (line N).code < 100.0 := by
    norm_num
    exact hcode
  have h7 : flagoGA (line N) = 7 := (flagoGA_cases (line N)).2.2.2 hw hs hr
  have hrg : classify (line N) (neff realFns (line N) (chargeOf (line N).code)).1
      (neff realFns (line N) (chargeOf (line N).code)).2 (chargeOf (line N).code)
      (literals Sig Alp sigU alpU) =
      some ⟨0, 1, 7, (literals Sig Alp sigU alpU).sig, (literals Sig Alp sigU alpU).alp⟩ := by
    simp [classify, hT, h7]
  have hT99 : (Function.update line N ({ line N with T := "99" } : Linedata ℝ) N).T ≠ "AI" := by
    simp
  have hc99 : (Function.update line N ({ line N with T := "99" } : Linedata ℝ) N).code
      < 100.0 := by
    simpa using hc
  have hrg99 : classify (Function.update line N ({ line N with T := "99" } : Linedata ℝ) N)
      (neff realFns (Function.update line N ({ line N with T := "99" } : Linedata ℝ) N)
        (chargeOf (Function.update line N ({ line N with T := "99" } : Linedata ℝ) N).code)).1
      (neff realFns (Function.update line N ({ line N with T := "99" } : Linedata ℝ) N)
        (chargeOf (Function.update line N ({ line N with T := "99" } : Linedata ℝ) N).code)).2
      (chargeOf (Function.update line N ({ line N with T := "99" } : Linedata ℝ) N).code)
      (literals Sig Alp sigU alpU) =
      some ⟨9, 9, 3, (literals Sig Alp sigU alpU).sig, (literals Sig Alp sigU alpU).alp⟩ := by
    simp [classify]
  refine ⟨_, _, _, hrg, rfl,
    broad_atom realFns Ntau model line N Sig Alp fac sigU alpU _ hne hc hrg,
    broad_atom realFns Ntau model _ N Sig Alp fac sigU alpU _ hT99 hc99 hrg99, ?_, ?_⟩
  · intro i
    simp only [Function.update_same, gammarAtom, gammawAtom, gammasAtom, omara, c64]
    norm_num
    refine ⟨?_, ?_⟩ <;> rfl
  · intro i hi
    simp only [Function.update_same, hi, if_true, gammarAtom, gammawAtom, gammasAtom, c64,
      perturbers, realFns]
    norm_num


/-- Witness of C21: a `"GA"` iron line with `gammaw = gammas = gammar = 1.0`. -/
theorem C21_ga_all_sentinels_is_fallback_witness :
    ∃ out out99,
      broad realFns 1
        ⟨fun _ => 5000, fun _ => 0, fun _ => 1, fun _ => 1, fun _ => 0, fun _ => 0⟩
        (fun _ => ⟨5000, 26, "GA", 7.9, 1, 3, 55.85, 1, 1, 1,
          fun _ => 0, fun _ => 0, fun _ => 0⟩)
        0 0 0 1 0 0 = some out ∧
      broad realFns 1
        ⟨fun _ => 5000, fun _ => 0, fun _ => 1, fun _ => 1, fun _ => 0, fun _ => 0⟩
        (Function.update (fun _ => (⟨5000, 26, "GA", 7.9, 1, 3, 55.85, 1, 1, 1,
          fun _ => 0, fun _ => 0, fun _ => 0⟩ : Linedata ℝ)) 0
          ⟨5000, 26, "99", 7.9, 1, 3, 55.85, 1, 1, 1, fun _ => 0, fun _ => 0, fun _ => 0⟩)
        0 0 0 1 0 0 = some out99 ∧
      ∀ i, (out 0).dopp i = (out99 0).dopp i ∧ (out 0).a i = (out99 0).a i ∧
        (out 0).dlg i = (out99 0).dlg i := by
  obtain ⟨rg, out, out99, -, -, h1, h2, h3, -⟩ := C21_ga_all_sentinels_is_fallback 1
    ⟨fun _ => 5000, fun _ => 0, fun _ => 1, fun _ => 1, fun _ => 0, fun _ => 0⟩
    (fun _ => ⟨5000, 26, "GA", 7.9, 1, 3, 55.85, 1, 1, 1,
      fun _ => 0, fun _ => 0, fun _ => 0⟩)
    0 0 0 1 0 0 (by norm_num) rfl (by norm_num) (by norm_num) (by norm_num)
  exact ⟨out, out99, h1, h2, h3⟩

/-- C22: for `sp`, `pd` and `df` and every pair of coordinates that passes the
range check, both scans break before their last iteration: the indices satisfy
`k ≤ rows - 2` and `l ≤ cols - 2` (`k ≤ 19`, `l ≤ 16` for `sp`; `k, l ≤ 16` for
`pd` and `df`), so both are assigned, `axis[k + 1]` and `axis[l + 1]` lie inside
the axes (the scan, which returns no index once it reads past the end of an
axis, never compares against the one-past-the-end element), and the four corner
reads of both tables and the axis reads succeed. -/
theorem C22_scans_stay_in_bounds {K : Type} [LinearOrderedField K] [FloorRing K] :
    (∀ NS NP : K, 1.0 < NS → NS ≤ 3.0 → 1.3 < NP → NP ≤ 3.0 →
      ∃ k l s1 s2 s3 s4 a1 a2 a3 a4 x0 x1 y0 y1,
        scan (sp.ns K) 21 NS = some k ∧ scan (sp.np K) 18 NP = some l ∧
        k ≤ 19 ∧ l ≤ 16 ∧ k + 1 < (sp.ns K).length ∧ l + 1 < (sp.np K).length ∧
        corners (sp.sig K) k l = some (s1, s2, s3, s4) ∧
        corners (sp.alp K) k l = some (a1, a2, a3, a4) ∧
        ends (sp.ns K) k = some (x0, x1) ∧ ends (sp.np K) l = some (y0, y1)) ∧
    (∀ NP ND : K, 1.3 < NP → NP ≤ 3.0 → 2.3 < ND → ND ≤ 4.0 →
      ∃ k l s1 s2 s3 s4 a1 a2 a3 a4 x0 x1 y0 y1,
        scan (pd.np K) 18 NP = some k ∧ scan (pd.nd K) 18 ND = some l ∧
        k ≤ 16 ∧ l ≤ 16 ∧ k + 1 < (pd.np K).length ∧ l + 1 < (pd.nd K).length ∧
        corners (pd.sig K) k l = some (s1, s2, s3, s4) ∧
        corners (pd.alp K) k l = some (a1, a2, a3, a4) ∧
        ends (pd.np K) k = some (x0, x1) ∧ ends (pd.nd K) l = some (y0, y1)) ∧
    (∀ ND NF : K, 2.3 < ND → ND ≤ 4.0 → 3.3 < NF → NF ≤ 5.0 →
      ∃ k l s1 s2 s3 s4 a1 a2 a3 a4 x0 x1 y0 y1,
        scan (df.nd K) 18 ND = some k ∧ scan (df.nf K) 18 NF = some l ∧
        k ≤ 16 ∧ l ≤ 16 ∧ k + 1 < (df.nd K).length ∧ l + 1 < (df.nf K).length ∧
        corners (df.sig K) k l = some (s1, s2, s3, s4) ∧
        corners (df.alp K) k l = some (a1, a2, a3, a4) ∧
        ends (df.nd K) k = some (x0, x1) ∧ ends (df.nf K) l = some (y0, y1)) := by
  refine ⟨?_, ?_, ?_⟩
  · intro NS NP h1 h2 h3 h4
    obtain ⟨k, l, s1, s2, s3, s4, a1, a2, a3, a4, x0, x1, y0, y1, hk, hl, hkr, hlc, hs, ha, hex,
      hey, -⟩ := sp_cell NS NP h1 h2 h3 h4
    have hlen1 : (sp.ns K).length = 21 := rfl
    have hlen2 : (sp.np K).length = 18 := rfl
    exact ⟨k, l, s1, s2, s3, s4, a1, a2, a3, a4, x0, x1, y0, y1, hk, hl, hkr, hlc, by omega,
      by omega, hs, ha, hex, hey⟩
  · intro NP ND h1 h2 h3 h4
    obtain ⟨k, l, s1, s2, s3, s4, a1, a2, a3, a4, x0, x1, y0, y1, hk, hl, hkr, hlc, hs, ha, hex,
      hey, -⟩ := pd_cell NP ND h1 h2 h3 h4
    have hlen1 : (pd.np K).length = 18 := rfl
    have hlen2 : (pd.nd K).length = 18 := rfl
    exact ⟨k, l, s1, s2, s3, s4, a1, a2, a3, a4, x0, x1, y0, y1, hk, hl, hkr, hlc, by omega,
      by omega, hs, ha, hex, hey⟩
  · intro ND NF h1 h2 h3 h4
    obtain ⟨k, l, s1, s2, s3, s4, a1, a2, a3, a4, x0, x1, y0, y1, hk, hl, hkr, hlc, hs, ha, hex,
      hey, -⟩ := df_cell ND NF h1 h2 h3 h4
    have hlen1 : (df.nd K).length = 18 := rfl
    have hlen2 : (df.nf K).length = 18 := rfl
    exact ⟨k, l, s1, s2, s3, s4, a1, a2, a3, a4, x0, x1, y0, y1, hk, hl, hkr, hlc, by omega,
      by omega, hs, ha, hex, hey⟩

/-- Witness of C22 on `sp` at the coordinates `(3.0, 3.0)`, the upper ends of both axes. -/
theorem C22_scans_stay_in_bounds_witness :
    ∃ k l s1 s2 s3 s4 a1 a2 a3 a4 x0 x1 y0 y1,
      scan (sp.ns ℚ) 21 3.0 = some k ∧ scan (sp.np ℚ) 18 3.0 = some l ∧
      k ≤ 19 ∧ l ≤ 16 ∧ k + 1 < (sp.ns ℚ).length ∧ l + 1 < (sp.np ℚ).length ∧
      corners (sp.sig ℚ) k l = some (s1, s2, s3, s4) ∧
      corners (sp.alp ℚ) k l = some (a1, a2, a3, a4) ∧
      ends (sp.ns ℚ) k = some (x0, x1) ∧ ends (sp.np ℚ) l = some (y0, y1) :=
  C22_scans_stay_in_bounds.1 3.0 3.0 (by norm_num) (by norm_num) (by norm_num) (by norm_num)

/-- C23 as stated fails for the tag `"01"`: the neutral line with `chi = 13.595`,
`El = 0`, `Eu = 4.8942` has `neffl = 1`, `neffh = 1.25` (so `1 <= neffl < neffh`),
`sp` returns status 0 (the s coordinate is not above 1.0), the regime flag is 0
and `C6` with `ll = 0`, `lh = 1` is negative. -/
theorem C23_counterexample :
    neff realFns (⟨5000, 26, "01", 13.595, 0, 4.8942, 55.85, 0, 0, 0,
      fun _ => 0, fun _ => 0, fun _ => 0⟩ : Linedata ℝ) 1 = (1, 1.25) ∧
    classify (⟨5000, 26, "01", 13.595, 0, 4.8942, 55.85, 0, 0, 0,
      fun _ => 0, fun _ => 0, fun _ => 0⟩ : Linedata ℝ) 1 1.25 1 (literals 0 0 0 0)
      = some ⟨0, 1, 0, 0, 0⟩ ∧
    (1 : ℝ) ≤ 1 ∧ (1 : ℝ) < 1.25 ∧
    c6 (1 : ℝ) 1.25 1 0 1 < 0 := by
  refine ⟨?_, ?_, le_rfl, by norm_num, ?_⟩
  · have h1 : Real.sqrt (13.595 / (13.595 - 0)) = 1 := by
      rw [show (13.595 / (13.595 - 0) : ℝ) = 1 by norm_num, Real.sqrt_one]
    have h2 : Real.sqrt (13.595 / (13.595 - 4.8942)) = 1.25 := by
      rw [show (13.595 / (13.595 - 4.8942) : ℝ) = 1.25 ^ 2 by norm_num,
        Real.sqrt_sq (by norm_num)]
    simp only [neff, realFns, h1, h2]
    norm_num
  · rw [literals_absent 0 0 0 0 (Or.inl (by norm_num))]
    have hn : narrow (1 : ℝ) = 1 := by
      rw [narrow_of_near 0 8388608] <;> norm_num
    have hr := sp_out (0 : ℝ) 0 1
      (show coord 0 (1 : ℝ) 1.25 0 1 = some (narrow 1) by simp [coord])
      (show coord 1 (1 : ℝ) 1.25 0 1 = some (narrow 1.25) by simp [coord])
      (Or.inl (by rw [hn]; norm_num))
    simp [classify, viaTable, hr]
  · norm_num [c6]

/-- C23, amended: in the Unsöld regime with angular-momentum terms (flags 0 and
2) and for the tags `"10"`, `"21"`, `"32"` (`ll = lh + 1`, `lh ≤ 2`), whenever
`1 <= neffl < neffh` and the charge is positive, the interaction constant
`C6 = 4.05e-33 * (Rh2 - Rl2)` is strictly positive, and `C64 = C6^0.4` is a
positive real number. -/
theorem C23_c6_positive (neffl neffh charge : ℝ) (h1 : 1 ≤ neffl) (h2 : neffl < neffh)
    (hc : 0 < charge) (ll lh : Int)
    (hl : (ll = 1 ∧ lh = 0) ∨ (ll = 2 ∧ lh = 1) ∨ (ll = 3 ∧ lh = 2)) :
    0 < c6 neffl neffh charge ll lh ∧
    ∀ (sig alp : ℝ) (flago : Int), flago = 0 ∨ flago = 2 →
      c64 realFns ⟨ll, lh, flago, sig, alp⟩ neffl neffh charge
        = c6 neffl neffh charge ll lh ^ (0.4 : ℝ) ∧
      0 < c64 realFns ⟨ll, lh, flago, sig, alp⟩ neffl neffh charge := by
  have hpos : 0 < c6 neffl neffh charge ll lh := by
    have hd : 0 < neffh - neffl := by linarith
    have hn0 : 0 < neffl := by linarith
    have hsq : neffl ^ 2 < neffh ^ 2 := by nlinarith
    have hm : 1 ≤ neffl ^ 2 := by nlinarith
    have hcc : 0 < 2.0 * charge * charge := by positivity
    simp only [c6]
    rw [← sub_div]
    apply mul_pos (by norm_num)
    apply div_pos _ hcc
    rcases hl with ⟨rfl, rfl⟩ | ⟨rfl, rfl⟩ | ⟨rfl, rfl⟩
    · norm_num
      nlinarith [mul_pos (sub_pos.2 hsq) (add_pos_of_pos_of_nonneg (pow_pos (lt_trans hn0 h2) 2)
        (sq_nonneg neffl)), sq_nonneg neffl, sq_nonneg neffh]
    · norm_num
      nlinarith [mul_pos (sub_pos.2 hsq) (show 0 < neffh ^ 2 + neffl ^ 2 - 1 by nlinarith),
        sq_nonneg neffl, sq_nonneg neffh]
    · norm_num
      nlinarith [sq_nonneg (neffh ^ 2 - neffl ^ 2 - 7 / 10),
        mul_nonneg (sub_pos.2 hsq).le (sub_nonneg.2 hm), sq_nonneg neffl, sq_nonneg neffh]
  refine ⟨hpos, fun sig alp flago hf => ?_⟩
  have he : c64 realFns ⟨ll, lh, flago, sig, alp⟩ neffl neffh charge
      = c6 neffl neffh charge ll lh ^ (0.4 : ℝ) := by
    rw [c64_eq_pow_c6 realFns ⟨ll, lh, flago, sig, alp⟩ neffl neffh charge hf]
    simp only [realFns]
  exact ⟨he, by rw [he]; exact Real.rpow_pos_of_pos hpos _⟩

/-- Witness of the amended C23: the tag `"10"` with `neffl = 2`, `neffh = 3`, charge 1. -/
theorem C23_c6_positive_witness : 0 < c6 (2 : ℝ) 3 1 1 0 :=
  (C23_c6_positive 2 3 1 (by norm_num) (by norm_num) (by norm_num) 1 0 (Or.inl ⟨rfl, rfl⟩)).1

/-- C24: for an atomic line whose tag is `"99"`, `"34"`, `"43"`, `"45"`, `"54"`,
`"56"`, `"65"`, `"GA"` or unknown (any tag but `"AI"`, the six table tags and
`"AO"`), the literals `Sig` and `Alp` have no effect: for any two pairs, also
above the 0.01 threshold, and whatever the indeterminate contents of `sig` and
`alp` are, `broad` returns and writes identical `dopp`, `a` and `dlg` arrays. -/
theorem C24_literals_without_effect (Ntau : Nat) (model : Atmosphere ℝ)
    (line : Nat → Linedata ℝ) (N : Nat) (fac : ℝ)
    (Sig1 Alp1 sigU1 alpU1 Sig2 Alp2 sigU2 alpU2 : ℝ)
    (hcode : (line N).code < 100)
    (hT : (line N).T ∉ ["AI", "01", "10", "12", "21", "23", "32", "AO"]) :
    ∃ out1 out2,
      broad realFns Ntau model line N Sig1 Alp1 fac sigU1 alpU1 = some out1 ∧
      broad realFns Ntau model line N Sig2 Alp2 fac sigU2 alpU2 = some out2 ∧
      ∀ i, (out1 N).dopp i = (out2 N).dopp i ∧ (out1 N).a i = (out2 N).a i ∧
        (out1 N).dlg i = (out2 N).dlg i := by
  simp only [List.mem_cons, List.mem_singleton, List.not_mem_nil, or_false, not_or] at hT
  obtain ⟨hAI, h01, h10, h12, h21, h23, h32, hAO⟩ := hT
  have hc : (line N).code < 100.0 := by
    norm_num
    exact hcode
  obtain ⟨ll, lh, f, hf, hcl⟩ := classify_fixed (line N)
    (neff realFns (line N) (chargeOf (line N).code)).1
    (neff realFns (line N) (chargeOf (line N).code)).2 (chargeOf (line N).code)
    h01 h10 h12 h21 h23 h32 hAO
  refine ⟨_, _,
    broad_atom realFns Ntau model line N Sig1 Alp1 fac sigU1 alpU1 _ hAI hc (hcl _),
    broad_atom realFns Ntau model line N Sig2 Alp2 fac sigU2 alpU2 _ hAI hc (hcl _), ?_⟩
  intro i
  simp only [Function.update_same, gammawAtom, omara, c64, hf, if_false]
  refine ⟨?_, ?_, ?_⟩ <;> first | rfl | trivial

/-- Witness of C24: an iron line with tag `"99"` called once without literals and
once with `Sig = 300`, `Alp = 0.25`. -/
theorem C24_literals_without_effect_witness :
    ∃ out1 out2,
      broad realFns 1
        ⟨fun _ => 5000, fun _ => 0, fun _ => 1, fun _ => 1, fun _ => 0, fun _ => 0⟩
        (fun _ => ⟨5000, 26, "99", 7.9, 1, 3, 55.85, 0, 0, 0,
          fun _ => 0, fun _ => 0, fun _ => 0⟩)
        0 0 0 1 0 0 = some out1 ∧
      broad realFns 1
        ⟨fun _ => 5000, fun _ => 0, fun _ => 1, fun _ => 1, fun _ => 0, fun _ => 0⟩
        (fun _ => ⟨5000, 26, "99", 7.9, 1, 3, 55.85, 0, 0, 0,
          fun _ => 0, fun _ => 0, fun _ => 0⟩)
        0 300 0.25 1 7 8 = some out2 ∧
      ∀ i, (out1 0).dopp i = (out2 0).dopp i ∧ (out1 0).a i = (out2 0).a i ∧
        (out1 0).dlg i = (out2 0).dlg i :=
  C24_literals_without_effect 1
    ⟨fun _ => 5000, fun _ => 0, fun _ => 1, fun _ => 1, fun _ => 0, fun _ => 0⟩
    (fun _ => ⟨5000, 26, "99", 7.9, 1, 3, 55.85, 0, 0, 0,
      fun _ => 0, fun _ => 0, fun _ => 0⟩)
    0 1 0 0 0 0 300 0.25 7 8 (by norm_num) (by decide)

/-- C25: whenever `sp`, `pd` or `df` returns status 1, the sigma it writes is
strictly positive and the alpha it writes lies strictly between 0 and 1, so
that `(4 - alpha) / 2 > 1.5`; every entry of the six tables lies in these
ranges and the result is a convex combination of four entries. -/
theorem C25_sigma_alpha_ranges {K : Type} [LinearOrderedField K] [FloorRing K]
    (neffl neffh : K) (ll lh : Int) (s a charge : K) :
    (∀ r : Interp K, sp neffl neffh ll lh s a charge = some r → r.status = 1 →
      0 < r.s ∧ 0 < r.a ∧ r.a < 1 ∧ (4.0 - r.a) / 2.0 > 1.5) ∧
    (∀ row ∈ sp.sig K, ∀ v ∈ row, (0 : K) < v) ∧
    (∀ row ∈ sp.alp K, ∀ v ∈ row, (0 : K) < v ∧ v < 1) ∧
    (∀ r : Interp K, pd neffl neffh ll lh s a charge = some r → r.status = 1 →
      0 < r.s ∧ 0 < r.a ∧ r.a < 1 ∧ (4.0 - r.a) / 2.0 > 1.5) ∧
    (∀ row ∈ pd.sig K, ∀ v ∈ row, (0 : K) < v) ∧
    (∀ row ∈ pd.alp K, ∀ v ∈ row, (0 : K) < v ∧ v < 1) ∧
    (∀ r : Interp K, df neffl neffh ll lh s a charge = some r → r.status = 1 →
      0 < r.s ∧ 0 < r.a ∧ r.a < 1 ∧ (4.0 - r.a) / 2.0 > 1.5) ∧
    (∀ row ∈ df.sig K, ∀ v ∈ row, (0 : K) < v) ∧
    (∀ row ∈ df.alp K, ∀ v ∈ row, (0 : K) < v ∧ v < 1) := by
  refine ⟨?_, ?_, ?_, ?_, ?_, ?_, ?_, ?_, ?_⟩
  · intro r h h1
    obtain ⟨X, Y, k, l, s1, s2, s3, s4, a1, a2, a3, a4, x0, x1, y0, y1, -, -, hs, ha, hx0, hx1,
      hy0, hy1, rfl⟩ := sp_of_status_one h h1
    have ps := corners_forall sp_sig_pos hs
    have pa := corners_forall sp_alp_bounds ha
    have a0 : 0 < bilinear a1 a2 a3 a4 X Y x0 x1 y0 y1 :=
      bilinear_pos hx0 hx1 hy0 hy1 ⟨pa.1.1, pa.2.1.1, pa.2.2.1.1, pa.2.2.2.1⟩
    have a1' : bilinear a1 a2 a3 a4 X Y x0 x1 y0 y1 < 1 :=
      bilinear_lt_one hx0 hx1 hy0 hy1 ⟨pa.1.2, pa.2.1.2, pa.2.2.1.2, pa.2.2.2.2⟩
    refine ⟨bilinear_pos hx0 hx1 hy0 hy1 ps, a0, a1', ?_⟩
    show (1.5 : K) < (4.0 - bilinear a1 a2 a3 a4 X Y x0 x1 y0 y1) / 2.0
    rw [lt_div_iff₀ (by norm_num)]
    norm_num
    linarith
  · exact sp_sig_pos
  · exact sp_alp_bounds
  · intro r h h1
    obtain ⟨X, Y, k, l, s1, s2, s3, s4, a1, a2, a3, a4, x0, x1, y0, y1, -, -, hs, ha, hx0, hx1,
      hy0, hy1, rfl⟩ := pd_of_status_one h h1
    have ps := corners_forall pd_sig_pos hs
    have pa := corners_forall pd_alp_bounds ha
    have a0 : 0 < bilinear a1 a2 a3 a4 X Y x0 x1 y0 y1 :=
      bilinear_pos hx0 hx1 hy0 hy1 ⟨pa.1.1, pa.2.1.1, pa.2.2.1.1, pa.2.2.2.1⟩
    have a1' : bilinear a1 a2 a3 a4 X Y x0 x1 y0 y1 < 1 :=
      bilinear_lt_one hx0 hx1 hy0 hy1 ⟨pa.1.2, pa.2.1.2, pa.2.2.1.2, pa.2.2.2.2⟩
    refine ⟨bilinear_pos hx0 hx1 hy0 hy1 ps, a0, a1', ?_⟩
    show (1.5 : K) < (4.0 - bilinear a1 a2 a3 a4 X Y x0 x1 y0 y1) / 2.0
    rw [lt_div_iff₀ (by norm_num)]
    norm_num
    linarith
  · exact pd_sig_pos
  · exact pd_alp_bounds
  · intro r h h1
    obtain ⟨X, Y, k, l, s1, s2, s3, s4, a1, a2, a3, a4, x0, x1, y0, y1, -, -, hs, ha, hx0, hx1,
      hy0, hy1, rfl⟩ := df_of_status_one h h1
    have ps := corners_forall df_sig_pos hs
    have pa := corners_forall df_alp_bounds ha
    have a0 : 0 < bilinear a1 a2 a3 a4 X Y x0 x1 y0 y1 :=
      bilinear_pos hx0 hx1 hy0 hy1 ⟨pa.1.1, pa.2.1.1, pa.2.2.1.1, pa.2.2.2.1⟩
    have a1' : bilinear a1 a2 a3 a4 X Y x0 x1 y0 y1 < 1 :=
      bilinear_lt_one hx0 hx1 hy0 hy1 ⟨pa.1.2, pa.2.1.2, pa.2.2.1.2, pa.2.2.2.2⟩
    refine ⟨bilinear_pos hx0 hx1 hy0 hy1 ps, a0, a1', ?_⟩
    show (1.5 : K) < (4.0 - bilinear a1 a2 a3 a4 X Y x0 x1 y0 y1) / 2.0
    rw [lt_div_iff₀ (by norm_num)]
    norm_num
    linarith
  · exact df_sig_pos
  · exact df_alp_bounds

/-- Witness of C25: `sp` at the coordinates `(2.05, 1.75)` with charge 1 returns status 1. -/
theorem C25_sigma_alpha_ranges_witness :
    ∃ r, sp (2.05 : ℚ) 1.75 0 1 0 0 1 = some r ∧ r.status = 1 ∧
      0 < r.s ∧ 0 < r.a ∧ r.a < 1 ∧ (4.0 - r.a) / 2.0 > 1.5 := by
  have hn1 : narrow (2.05 : ℚ) = 8598323 / 4194304 := by
    rw [narrow_of_near 1 8598323] <;> norm_num
  have hn2 : narrow (1.75 : ℚ) = 1.75 := by
    rw [narrow_of_near 0 14680064] <;> norm_num
  obtain ⟨k, l, s1, s2, s3, s4, a1, a2, a3, a4, x0, x1, y0, y1, -, -, -, -, -, -, -, -, -, -,
    -, -, hr⟩ := sp_in (0 : ℚ) 0 1
      (show coord 0 (2.05 : ℚ) 1.75 0 1 = some (narrow 2.05) by simp [coord])
      (show coord 1 (2.05 : ℚ) 1.75 0 1 = some (narrow 1.75) by simp [coord])
      (by rw [hn1, hn2]; norm_num) (by norm_num)
  exact ⟨_, hr, rfl, (C25_sigma_alpha_ranges (2.05 : ℚ) 1.75 0 1 0 0 1).1 _ hr rfl⟩

set_option maxRecDepth 4000 in
/-- C26: for an atomic line with one of the table tags `"01"`, `"10"`, `"12"`,
`"21"`, `"23"`, `"32"`, `broad` returns with a regime flag 0, 1 or 2 (without
literal `Sig`/`Alp` the status of the table interpolator); the per-depth evaluation
under flag 0 and under flag 2 is the same function of the line and the
atmosphere (identical `dopp`, `a` and `dlg`), and when the flag is 0 or 2 the
result is that evaluation: at every depth `i < Ntau`, `a[i]` has the Unsöld `C6`
with the angular-momentum terms of the tag, `gammar = 2.223e15 / wave^2` and
the Stark term `1e-8 * neffh^5 * Ne[i]`. -/
theorem C26_status_zero_and_two_agree (Ntau : Nat) (model : Atmosphere ℝ)
    (line : Nat → Linedata ℝ) (N : Nat) (Sig Alp fac sigU alpU : ℝ)
    (hcode : (line N).code < 100)
    (hT : (line N).T = "01" ∨ (line N).T = "10" ∨ (line N).T = "12" ∨ (line N).T = "21"
      ∨ (line N).T = "23" ∨ (line N).T = "32") :
    ∃ rg out,
      classify (line N) (neff realFns (line N) (chargeOf (line N).code)).1
        (neff realFns (line N) (chargeOf (line N).code)).2 (chargeOf (line N).code)
        (literals Sig Alp sigU alpU) = some rg ∧
      (rg.flago = 0 ∨ rg.flago = 1 ∨ rg.flago = 2) ∧
      broad realFns Ntau model line N Sig Alp fac sigU alpU = some out ∧
      (∀ sig alp : ℝ,
        forLoop (stepAtom realFns model fac 0 alp (omara realFns ⟨rg.ll, rg.lh, 0, sig, alp⟩)
            (c64 realFns ⟨rg.ll, rg.lh, 0, sig, alp⟩
              (neff realFns (line N) (chargeOf (line N).code)).1
              (neff realFns (line N) (chargeOf (line N).code)).2 (chargeOf (line N).code))
            (realFns.pow (neff realFns (line N) (chargeOf (line N).code)).2 5.0)
            (gammarAtom (line N) 0)) Ntau (line N)
        = forLoop (stepAtom realFns model fac 2 alp (omara realFns ⟨rg.ll, rg.lh, 2, sig, alp⟩)
            (c64 realFns ⟨rg.ll, rg.lh, 2, sig, alp⟩
              (neff realFns (line N) (chargeOf (line N).code)).1
              (neff realFns (line N) (chargeOf (line N).code)).2 (chargeOf (line N).code))
            (realFns.pow (neff realFns (line N) (chargeOf (line N).code)).2 5.0)
            (gammarAtom (line N) 2)) Ntau (line N)) ∧
      ((rg.flago = 0 ∨ rg.flago = 2) →
        out N =
          forLoop (stepAtom realFns model fac 0 rg.alp
            (omara realFns ⟨rg.ll, rg.lh, 0, rg.sig, rg.alp⟩)
            (c64 realFns ⟨rg.ll, rg.lh, 0, rg.sig, rg.alp⟩
              (neff realFns (line N) (chargeOf (line N).code)).1
              (neff realFns (line N) (chargeOf (line N).code)).2 (chargeOf (line N).code))
            (realFns.pow (neff realFns (line N) (chargeOf (line N).code)).2 5.0)
            (gammarAtom (line N) 0)) Ntau (line N) ∧
        ∀ i, i < Ntau →
          (out N).a i =
            (2.223e15 / ((line N).wave * (line N).wave)
              + 8.08 * fac
                * (4.05e-33 *
                    ((neff realFns (line N) (chargeOf (line N).code)).2
                        * (neff realFns (line N) (chargeOf (line N).code)).2
                        * (5 * (neff realFns (line N) (chargeOf (line N).code)).2
                            * (neff realFns (line N) (chargeOf (line N).code)).2 + 1
                            - 3 * (rg.lh : ℝ) * ((rg.lh : ℝ) + 1))
                        / (2 * chargeOf (line N).code * chargeOf (line N).code)
                      - (neff realFns (line N) (chargeOf (line N).code)).1
                        * (neff realFns (line N) (chargeOf (line N).code)).1
                        * (5 * (neff realFns (line N) (chargeOf (line N).code)).1
                            * (neff realFns (line N) (chargeOf (line N).code)).1 + 1
                            - 3 * (rg.ll : ℝ) * ((rg.ll : ℝ) + 1))
                        / (2 * chargeOf (line N).code * chargeOf (line N).code))) ^ (0.4 : ℝ)
                * Real.sqrt (2.1175e8 * model.T i * (1 / (line N).atomass + 0.9921))
                    ^ (0.6 : ℝ)
                * model.NHI i
                * (1 + 0.4133 * model.NHeI i / model.NHI i
                    + 0.85 * model.NH2 i / model.NHI i)
              + 1e-8 * (neff realFns (line N) (chargeOf (line N).code)).2 ^ (5 : ℝ)
                * model.Ne i)
              * (line N).wave * 1e-8 / (12.5636 * (out N).dopp i)) := by
  have hne : (line N).T ≠ "AI" := by
    rcases hT with h | h | h | h | h | h <;> rw [h] <;> decide
  have hc : (line N).code < 100.0 := by
    norm_num
    exact hcode
  obtain ⟨rg, hrg, -, hb⟩ :=
    broad_atom_ex realFns Ntau model line N Sig Alp fac sigU alpU hne hc
  have hlit0 : (literals Sig Alp sigU alpU).flago = 0 ∨ (literals Sig Alp sigU alpU).flago = 1 :=
    literals_flago Sig Alp sigU alpU
  have hfl : rg.flago = 0 ∨ rg.flago = 1 ∨ rg.flago = 2 := by
    have hrg' := hrg
    rcases hT with h | h | h | h | h | h
    · simp only [classify, h] at hrg'
      simp at hrg'
      exact viaTable_flago _ (sp_total_broad _ _ _).1 hlit0 rg hrg'
    · simp only [classify, h] at hrg'
      simp at hrg'
      exact viaTable_flago _ (sp_total_broad _ _ _).2 hlit0 rg hrg'
    · simp only [classify, h] at hrg'
      simp at hrg'
      exact viaTable_flago _ (pd_total_broad _ _ _).1 hlit0 rg hrg'
    · simp only [classify, h] at hrg'
      simp at hrg'
      exact viaTable_flago _ (pd_total_broad _ _ _).2 hlit0 rg hrg'
    · simp only [classify, h] at hrg'
      simp at hrg'
      exact viaTable_flago _ (df_total_broad _ _ _).1 hlit0 rg hrg'
    · simp only [classify, h] at hrg'
      simp at hrg'
      exact viaTable_flago _ (df_total_broad _ _ _).2 hlit0 rg hrg'
  have hsame : ∀ sig alp : ℝ,
      forLoop (stepAtom realFns model fac 0 alp (omara realFns ⟨rg.ll, rg.lh, 0, sig, alp⟩)
          (c64 realFns ⟨rg.ll, rg.lh, 0, sig, alp⟩
            (neff realFns (line N) (chargeOf (line N).code)).1
            (neff realFns (line N) (chargeOf (line N).code)).2 (chargeOf (line N).code))
          (realFns.pow (neff realFns (line N) (chargeOf (line N).code)).2 5.0)
          (gammarAtom (line N) 0)) Ntau (line N)
      = forLoop (stepAtom realFns model fac 2 alp (omara realFns ⟨rg.ll, rg.lh, 2, sig, alp⟩)
          (c64 realFns ⟨rg.ll, rg.lh, 2, sig, alp⟩
            (neff realFns (line N) (chargeOf (line N).code)).1
            (neff realFns (line N) (chargeOf (line N).code)).2 (chargeOf (line N).code))
          (realFns.pow (neff realFns (line N) (chargeOf (line N).code)).2 5.0)
          (gammarAtom (line N) 2)) Ntau (line N) := by
    intro sig alp
    rw [forLoop_stepAtom, forLoop_stepAtom]
    simp [gammarAtom, gammawAtom, gammasAtom, omara, c64]
  refine ⟨rg, _, hrg, hfl, hb, hsame, ?_⟩
  intro h02
  constructor
  · rw [Function.update_same]
    rcases h02 with h | h
    · rw [forLoop_stepAtom]
      simp [h, gammarAtom, gammawAtom, gammasAtom, omara, c64]
    · rw [forLoop_stepAtom]
      simp [h, gammarAtom, gammawAtom, gammasAtom, omara, c64]
  · intro i hi
    rcases h02 with h | h
    · simp only [Function.update_same, hi, if_true, gammarAtom, gammawAtom, gammasAtom, c64,
        perturbers, realFns, h]
      norm_num
    · simp only [Function.update_same, hi, if_true, gammarAtom, gammawAtom, gammasAtom, c64,
        perturbers, realFns, h]
      norm_num

/-- Witness of C26: the singly-ionized iron line 26.10 with tag `"01"`. -/
theorem C26_status_zero_and_two_agree_witness :
    ∃ rg out,
      classify (⟨1216, 26.1, "01", 16.18, 2.585, 12.78125, 55.85, 0, 0, 0,
          fun _ => 0, fun _ => 0, fun _ => 0⟩ : Linedata ℝ)
        (neff realFns (⟨1216, 26.1, "01", 16.18, 2.585, 12.78125, 55.85, 0, 0, 0,
          fun _ => 0, fun _ => 0, fun _ => 0⟩ : Linedata ℝ) (chargeOf 26.1)).1
        (neff realFns (⟨1216, 26.1, "01", 16.18, 2.585, 12.78125, 55.85, 0, 0, 0,
          fun _ => 0, fun _ => 0, fun _ => 0⟩ : Linedata ℝ) (chargeOf 26.1)).2 (chargeOf 26.1)
        (literals 0 0 0 0) = some rg ∧
      (rg.flago = 0 ∨ rg.flago = 1 ∨ rg.flago = 2) ∧
      broad realFns 1
        ⟨fun _ => 5000, fun _ => 0, fun _ => 1, fun _ => 1, fun _ => 0, fun _ => 0⟩
        (fun _ => ⟨1216, 26.1, "01", 16.18, 2.585, 12.78125, 55.85, 0, 0, 0,
          fun _ => 0, fun _ => 0, fun _ => 0⟩)
        0 0 0 1 0 0 = some out := by
  obtain ⟨rg, out, h1, h2, h3, -⟩ := C26_status_zero_and_two_agree 1
    ⟨fun _ => 5000, fun _ => 0, fun _ => 1, fun _ => 1, fun _ => 0, fun _ => 0⟩
    (fun _ => ⟨1216, 26.1, "01", 16.18, 2.585, 12.78125, 55.85, 0, 0, 0,
      fun _ => 0, fun _ => 0, fun _ => 0⟩)
    0 0 0 1 0 0 (by norm_num) (Or.inl rfl)
  exact ⟨rg, out, h1, h2, h3⟩

/-- C27: each table interpolator depends only on which effective quantum number
belongs to which orbital: `sp(x, y, 0, 1)` and `sp(y, x, 1, 0)` return the same
status, sigma and alpha, and so do `pd(x, y, 1, 2)` and `pd(y, x, 2, 1)`, and
`df(x, y, 2, 3)` and `df(y, x, 3, 2)`, for all `x`, `y`, charge and previous
contents of `*s`, `*a`. -/
theorem C27_interpolator_orbital_symmetry {K : Type} [LinearOrderedField K] [FloorRing K]
    (x y s a charge : K) :
    sp x y 0 1 s a charge = sp y x 1 0 s a charge ∧
    pd x y 1 2 s a charge = pd y x 2 1 s a charge ∧
    df x y 2 3 s a charge = df y x 3 2 s a charge ∧
    (∃ r, sp x y 0 1 s a charge = some r) ∧ (∃ r, pd x y 1 2 s a charge = some r) ∧
    (∃ r, df x y 2 3 s a charge = some r) := by
  refine ⟨?_, ?_, ?_, ?_, ?_, ?_⟩
  · rw [sp_eq s a charge (show coord 0 x y 0 1 = some (narrow x) by simp [coord])
        (show coord 1 x y 0 1 = some (narrow y) by simp [coord]),
      sp_eq s a charge (show coord 0 y x 1 0 = some (narrow x) by simp [coord])
        (show coord 1 y x 1 0 = some (narrow y) by simp [coord])]
  · rw [pd_eq s a charge (show coord 1 x y 1 2 = some (narrow x) by simp [coord])
        (show coord 2 x y 1 2 = some (narrow y) by simp [coord]),
      pd_eq s a charge (show coord 1 y x 2 1 = some (narrow x) by simp [coord])
        (show coord 2 y x 2 1 = some (narrow y) by simp [coord])]
  · rw [df_eq s a charge (show coord 2 x y 2 3 = some (narrow x) by simp [coord])
        (show coord 3 x y 2 3 = some (narrow y) by simp [coord]),
      df_eq s a charge (show coord 2 y x 3 2 = some (narrow x) by simp [coord])
        (show coord 3 y x 3 2 = some (narrow y) by simp [coord])]
  · obtain ⟨r, h, -⟩ := (sp_total_broad x y charge).1 s a
    exact ⟨r, h⟩
  · obtain ⟨r, h, -⟩ := (pd_total_broad x y charge).1 s a
    exact ⟨r, h⟩
  · obtain ⟨r, h, -⟩ := (df_total_broad x y charge).1 s a
    exact ⟨r, h⟩

/-- C28: for every `x > 0`, `gammln(x)` takes both logarithms inside their
domain: `x + 5.5 > 0`, the series
`ser = 1.000000000190015 + sum over j = 0..5 of cof[j] / (x + 1 + j)` is strictly
positive, so `2.5066282746310005 * ser / x > 0`, and the result is
`-(x + 5.5) + (x + 0.5) * ln(x + 5.5) + ln(2.5066282746310005 * ser / x)`. -/
theorem C28_gammln_domain (x : ℝ) (hx : 0 < x) :
    0 < x + 5.5 ∧
    0 < 1.000000000190015 + 76.18009172947146 / (x + 1) + -86.50532032941677 / (x + 1 + 1)
        + 24.01409824083091 / (x + 1 + 1 + 1) + -1.231739572450155 / (x + 1 + 1 + 1 + 1)
        + 0.1208650973866179e-02 / (x + 1 + 1 + 1 + 1 + 1)
        + -0.5395239384953e-05 / (x + 1 + 1 + 1 + 1 + 1 + 1) ∧
    0 < 2.5066282746310005 *
      (1.000000000190015 + 76.18009172947146 / (x + 1) + -86.50532032941677 / (x + 1 + 1)
        + 24.01409824083091 / (x + 1 + 1 + 1) + -1.231739572450155 / (x + 1 + 1 + 1 + 1)
        + 0.1208650973866179e-02 / (x + 1 + 1 + 1 + 1 + 1)
        + -0.5395239384953e-05 / (x + 1 + 1 + 1 + 1 + 1 + 1)) / x ∧
    gammln realFns x =
      -(x + 5.5) + (x + 0.5) * Real.log (x + 5.5)
        + Real.log (2.5066282746310005 *
          (1.000000000190015 + 76.18009172947146 / (x + 1)
            + -86.50532032941677 / (x + 1 + 1)
            + 24.01409824083091 / (x + 1 + 1 + 1) + -1.231739572450155 / (x + 1 + 1 + 1 + 1)
            + 0.1208650973866179e-02 / (x + 1 + 1 + 1 + 1 + 1)
            + -0.5395239384953e-05 / (x + 1 + 1 + 1 + 1 + 1 + 1)) / x) := by
  have hs := gammln_ser_pos x hx
  refine ⟨by positivity, hs, by positivity, ?_⟩
  simp only [gammln, gammln_ser, realFns]
  ring

/-- Witness of C28 at `x = 2`. -/
theorem C28_gammln_domain_witness :
    (0 : ℝ) < 2 + 5.5 ∧
    (0 : ℝ) < 1.000000000190015 + 76.18009172947146 / (2 + 1)
        + -86.50532032941677 / (2 + 1 + 1)
        + 24.01409824083091 / (2 + 1 + 1 + 1) + -1.231739572450155 / (2 + 1 + 1 + 1 + 1)
        + 0.1208650973866179e-02 / (2 + 1 + 1 + 1 + 1 + 1)
        + -0.5395239384953e-05 / (2 + 1 + 1 + 1 + 1 + 1 + 1) :=
  ⟨(C28_gammln_domain 2 (by norm_num)).1, (C28_gammln_domain 2 (by norm_num)).2.1⟩

end Claims3

end Broad
